import Mathlib

/-! Flow variables and the `flowint` keyword.

A shallow embedding of `src/flow-var.c` (the per-flow variable chain) and of
`DetectFlowintMatch` and `DetectFlowintParse` from `src/detect-flowint.c`
(evaluation of one compiled `flowint` option against a flow, and the parser
of the option text with its pattern `PARSE_REGEX`), followed by theorems
about them.

Conventions of the embedding.

* Machine integers are natural numbers; a conversion to `uint8_t`, `uint16_t`
  or `uint32_t` is an explicit `% 256`, `% 65536` or `% 4294967296`.
* A `uint8_t *` buffer is its address (a natural number, `0` for `NULL`); the
  heap behind it is not modelled, `free` has no effect on the model.
* `malloc` is taken to succeed.
* The mutex `f->m` is not modelled; every function is one atomic step.
* A C `union` is an inductive type recording the member written last. The one
  place where the source reads the other member (`fv_int.value` of a record
  whose union holds `fv_str`) yields a value fixed by the platform, given to
  the model as the function `pun` (buffer address and length to `uint32_t`).
-/

namespace Suricata

/-! ## Declarations used by the sources (headers not part of the sources) -/

/-- Modelled from the spec: the members of the keyword enumeration of
`detect.h` (absent) that the sources name. The spec calls it Category: the
"flow string variable" is `DETECT_FLOWVAR`, the "flow-integer directive
variable" is `DETECT_FLOWINT`; `other` stands for every further member. -/
inductive DetectType where
  | DETECT_FLOWVAR
  | DETECT_FLOWINT
  | other (code : Nat)
  deriving DecidableEq

/-- Modelled from the spec: the two values of `FlowVar.datatype`
(`flow-var.h`, absent), the spec's Kind: ByteString and Integer. -/
inductive FlowVarType where
  | FLOWVAR_TYPE_STR
  | FLOWVAR_TYPE_INT
  deriving DecidableEq

/-- Modelled from the spec: the union `FlowVar.data` (`flow-var.h`, absent)
with the members the sources use: `fv_str.value`, `fv_str.value_len` and
`fv_int.value`. The constructor is the member written last. -/
inductive FlowVarData where
  | fv_str (value : Nat) (value_len : Nat)
  | fv_int (value : Nat)
  deriving DecidableEq

/-- Modelled from the spec: the record `FlowVar` (`flow-var.h`, absent) with
the fields the sources use. A `GenericVar` of another keyword is a record
whose `type` is not `DETECT_FLOWVAR`; only its `type` and `idx` are looked at. -/
structure FlowVar where
  type : DetectType
  idx : Nat
  datatype : FlowVarType
  data : FlowVarData
  deriving DecidableEq

/-- The chain element `GenericVar`, of which `FlowVar` is the only shape the
sources cast to. -/
abbrev GenericVar := FlowVar

/-- The part of `Flow` the sources use: the chain `f->flowvar`, head first. -/
structure Flow where
  flowvar : List GenericVar
  deriving DecidableEq

/-- Modelled from the spec: the operators `FLOWINT_MODIFIER_*` of
`detect-flowint.h` (absent), as named by the sources. -/
inductive FlowintModifier where
  | FLOWINT_MODIFIER_SET
  | FLOWINT_MODIFIER_ADD
  | FLOWINT_MODIFIER_SUB
  | FLOWINT_MODIFIER_LT
  | FLOWINT_MODIFIER_LE
  | FLOWINT_MODIFIER_NE
  | FLOWINT_MODIFIER_EQ
  | FLOWINT_MODIFIER_GE
  | FLOWINT_MODIFIER_GT
  | FLOWINT_MODIFIER_IS
  | FLOWINT_MODIFIER_UNKNOWN
  deriving DecidableEq

/-- Modelled from the spec: the target kinds `FLOWINT_TARGET_*` of
`detect-flowint.h` (absent), as named by the sources. -/
inductive FlowintTarget where
  | FLOWINT_TARGET_VAL
  | FLOWINT_TARGET_VAR
  | FLOWINT_TARGET_SELF
  deriving DecidableEq

/-- Modelled from the spec: `TargetVar` of `detect-flowint.h` (absent): the
name of the target variable and the slot its index is written to. -/
structure TargetVar where
  idx : Nat
  name : String
  deriving DecidableEq

/-- Modelled from the spec: the member `target` of `DetectFlowintData`, a
union of `value` and `tvar`. The sources read `target.value` only when the
target is not a variable and read `target.tvar` only when it is; the two
members are kept side by side, each holding what was written to it last.
What the program reads from `value` after a write of `tvar.idx`, the bytes the
two share, is not modelled: for a variable target nothing is stated of
`value`. -/
structure DetectFlowintTargetU where
  value : Nat
  tvar : TargetVar
  deriving DecidableEq

/-- Modelled from the spec: `DetectFlowintData` of `detect-flowint.h`
(absent), the compiled directive, with the fields the sources use. -/
structure DetectFlowintData where
  name : String
  idx : Nat
  modifier : FlowintModifier
  targettype : FlowintTarget
  target : DetectFlowintTargetU
  deriving DecidableEq

/-- Modelled from the spec: the name registry held by `DetectEngineCtx`
(`util-var-name.c`, absent): the registered (category, name) pairs in order
of first sight; the pair at position `i` has index `i + 1` (dense, 1-based,
never reused, never shrinks). -/
structure DetectEngineCtx where
  variable_names : List (DetectType × String)
  deriving DecidableEq

/-- Modelled from the spec: the naming rule of the registry, "starts with a
letter, followed by letters/digits/underscore"; the empty name is invalid. -/
def VariableNameValid (name : String) : Bool :=
  match name.toList with
  | [] => false
  | c :: cs => c.isAlpha && cs.all (fun d => d.isAlphanum || d == '_')

/-- Modelled from the spec: `VariableNameGetIdx` (`util-var-name.c`, absent),
the spec's `getOrCreateIndex(category, name)`: the index of a registered pair,
else a fresh index one past the last. A name that breaks the naming rule gets
the reserved index 0 and registers nothing. -/
def VariableNameGetIdx (de_ctx : DetectEngineCtx) (name : String) (type : DetectType) :
    Nat × DetectEngineCtx :=
  if VariableNameValid name then
    match de_ctx.variable_names.indexOf? (type, name) with
    | some i => (i + 1, de_ctx)
    | none =>
      (de_ctx.variable_names.length + 1,
        { de_ctx with variable_names := de_ctx.variable_names ++ [(type, name)] })
  else (0, de_ctx)

/-- Modelled from the spec: `GenericVarAppend` (`util-var.c`, absent): the
record is linked in at the end of the chain. -/
def GenericVarAppend (list : List GenericVar) (gv : GenericVar) : List GenericVar :=
  list ++ [gv]

/-- The marker of a call to `exit`: the process ends, nothing is returned. -/
inductive ProcessExit where
  | EXIT_FAILURE
  deriving DecidableEq

/-! ## `flow-var.c` -/

/-- The read `fv->data.fv_int.value`. -/
def FlowVarData.fv_int_value (pun : Nat → Nat → Nat) : FlowVarData → Nat
  | .fv_int value => value
  | .fv_str value value_len => pun value value_len % 4294967296

/-- `FlowVarUpdateStr`: the buffer and its length are stored; `datatype` is
not written. -/
def FlowVarUpdateStr (fv : FlowVar) (value : Nat) (size : Nat) : FlowVar :=
  { fv with data := .fv_str value (size % 65536) }

/-- `FlowVarUpdateInt`: the value is stored; `datatype` is not written. -/
def FlowVarUpdateInt (fv : FlowVar) (value : Nat) : FlowVar :=
  { fv with data := .fv_int (value % 4294967296) }

/-- The loop of `FlowVarGet` over the chain, `idx` already a `uint8_t`. -/
def FlowVarGetLoop (idx : Nat) : List GenericVar → Option FlowVar
  | [] => none
  | gv :: next =>
    if gv.type = DetectType.DETECT_FLOWVAR ∧ gv.idx = idx then some gv
    else FlowVarGetLoop idx next

/-- `FlowVarGet`: the first record of the chain with type `DETECT_FLOWVAR`
and the given index. -/
def FlowVarGet (f : Flow) (idx : Nat) : Option FlowVar :=
  FlowVarGetLoop (idx % 256) f.flowvar

/-- A write through the pointer `FlowVarGet` returned: the first record of
the chain with type `DETECT_FLOWVAR` and index `idx` is replaced by `upd` of
it, in place. -/
def FlowVarWrite (idx : Nat) (upd : FlowVar → FlowVar) : List GenericVar → List GenericVar
  | [] => []
  | gv :: next =>
    if gv.type = DetectType.DETECT_FLOWVAR ∧ gv.idx = idx then upd gv :: next
    else gv :: FlowVarWrite idx upd next

/-- `FlowVarAddStr`: add a string flowvar to the flow, or update it. -/
def FlowVarAddStr (f : Flow) (idx : Nat) (value : Nat) (size : Nat) : Flow :=
  match FlowVarGet f (idx % 256) with
  | none =>
    let fv : FlowVar :=
      { type := DetectType.DETECT_FLOWVAR
        datatype := FlowVarType.FLOWVAR_TYPE_STR
        idx := idx % 256
        data := .fv_str value (size % 65536) }
    { f with flowvar := GenericVarAppend f.flowvar fv }
  | some _ =>
    { f with flowvar :=
        FlowVarWrite (idx % 256) (fun fv => FlowVarUpdateStr fv value (size % 65536)) f.flowvar }

/-- `FlowVarAddInt`: add an integer flowvar to the flow, or update it. -/
def FlowVarAddInt (f : Flow) (idx : Nat) (value : Nat) : Flow :=
  match FlowVarGet f (idx % 256) with
  | none =>
    let fv : FlowVar :=
      { type := DetectType.DETECT_FLOWVAR
        datatype := FlowVarType.FLOWVAR_TYPE_INT
        idx := idx % 256
        data := .fv_int (value % 4294967296) }
    { f with flowvar := GenericVarAppend f.flowvar fv }
  | some _ =>
    { f with flowvar :=
        FlowVarWrite (idx % 256) (fun fv => FlowVarUpdateInt fv (value % 4294967296)) f.flowvar }

/-! ## `detect-flowint.c`: evaluation -/

/-- What `DetectFlowintMatch` can change: the registry behind
`det_ctx->de_ctx`, the flow `p->flow` and the directive `m->ctx`. -/
structure MatchState where
  de_ctx : DetectEngineCtx
  flow : Flow
  sfd : DetectFlowintData
  deriving DecidableEq

/-- The sum of two `uint32_t`. -/
def uint32_add (a b : Nat) : Nat := (a + b) % 4294967296

/-- The difference of two `uint32_t`. -/
def uint32_sub (a b : Nat) : Nat := (((a : Int) - (b : Int)) % 4294967296).toNat

/-- The value of a C comparison. -/
def cbool (p : Prop) [Decidable p] : Int := if p then 1 else 0

/-- `DetectFlowintMatch` from the line after the target value is known
(lines 107 to 169): `targetval` is applied to the source variable. -/
def DetectFlowintMatchOp (pun : Nat → Nat → Nat) (targetval : Nat) (de_ctx : DetectEngineCtx)
    (flow : Flow) (sfd : DetectFlowintData) : Except ProcessExit (Int × MatchState) :=
  if sfd.modifier = FlowintModifier.FLOWINT_MODIFIER_SET then
    .ok (1, ⟨de_ctx, FlowVarAddInt flow sfd.idx targetval, sfd⟩)
  else
    match FlowVarGet flow sfd.idx with
    | some fv =>
      if fv.datatype = FlowVarType.FLOWVAR_TYPE_INT then
        if sfd.modifier = FlowintModifier.FLOWINT_MODIFIER_ADD then
          .ok (1, ⟨de_ctx,
            FlowVarAddInt flow sfd.idx (uint32_add (fv.data.fv_int_value pun) targetval), sfd⟩)
        else if sfd.modifier = FlowintModifier.FLOWINT_MODIFIER_SUB then
          .ok (1, ⟨de_ctx,
            FlowVarAddInt flow sfd.idx (uint32_sub (fv.data.fv_int_value pun) targetval), sfd⟩)
        else
          match sfd.modifier with
          | .FLOWINT_MODIFIER_EQ =>
            .ok (cbool (fv.data.fv_int_value pun = targetval), ⟨de_ctx, flow, sfd⟩)
          | .FLOWINT_MODIFIER_NE =>
            .ok (cbool (fv.data.fv_int_value pun ≠ targetval), ⟨de_ctx, flow, sfd⟩)
          | .FLOWINT_MODIFIER_LT =>
            .ok (cbool (fv.data.fv_int_value pun < targetval), ⟨de_ctx, flow, sfd⟩)
          | .FLOWINT_MODIFIER_LE =>
            .ok (cbool (fv.data.fv_int_value pun ≤ targetval), ⟨de_ctx, flow, sfd⟩)
          | .FLOWINT_MODIFIER_GT =>
            .ok (cbool (fv.data.fv_int_value pun > targetval), ⟨de_ctx, flow, sfd⟩)
          | .FLOWINT_MODIFIER_GE =>
            .ok (cbool (fv.data.fv_int_value pun ≥ targetval), ⟨de_ctx, flow, sfd⟩)
          | _ => .error ProcessExit.EXIT_FAILURE
      else .ok (0, ⟨de_ctx, flow, sfd⟩)
    | none => .ok (0, ⟨de_ctx, flow, sfd⟩)

/-- `DetectFlowintMatch`: `de_ctx` is `det_ctx->de_ctx`, `flow` is `p->flow`,
`sfd` is `m->ctx`. The result is the value returned together with the state
left behind, or the exit of the process. -/
def DetectFlowintMatch (pun : Nat → Nat → Nat) (de_ctx : DetectEngineCtx) (flow : Flow)
    (sfd : DetectFlowintData) : Except ProcessExit (Int × MatchState) :=
  if sfd.targettype = FlowintTarget.FLOWINT_TARGET_VAR then
    let r := VariableNameGetIdx de_ctx sfd.target.tvar.name DetectType.DETECT_FLOWINT
    let sfd1 : DetectFlowintData :=
      { sfd with target := { sfd.target with tvar := { sfd.target.tvar with idx := r.1 % 65536 } } }
    match FlowVarGet flow sfd1.target.tvar.idx with
    | none => .ok (0, ⟨r.2, flow, sfd1⟩)
    | some fvt => DetectFlowintMatchOp pun (fvt.data.fv_int_value pun) r.2 flow sfd1
  else
    DetectFlowintMatchOp pun sfd.target.value de_ctx flow sfd

/-! ## Sequences of calls -/

/-- Modelled from the spec: one matching pass of the surrounding engine (the
scheduler is not part of the sources). "Directives run in declaration order"
and "side effects of one Directive are visible to subsequently evaluated
Directives": `DetectFlowintMatch` is called on each directive in turn, on the
registry and flow the previous call left. The values returned are collected;
an exit of the process ends the pass. -/
def DetectFlowintMatchSeq (pun : Nat → Nat → Nat) :
    DetectEngineCtx → Flow → List DetectFlowintData →
      Except ProcessExit (List Int × DetectEngineCtx × Flow)
  | de_ctx, flow, [] => .ok ([], de_ctx, flow)
  | de_ctx, flow, sfd :: rest =>
    match DetectFlowintMatch pun de_ctx flow sfd with
    | .error e => .error e
    | .ok (r, st) =>
      match DetectFlowintMatchSeq pun st.de_ctx st.flow rest with
      | .error e => .error e
      | .ok (rs, d, f) => .ok (r :: rs, d, f)

/-- A call of one of the two writers of `flow-var.c`, with its arguments. -/
inductive FlowVarCall where
  | AddInt (idx : Nat) (value : Nat)
  | AddStr (idx : Nat) (value : Nat) (size : Nat)
  deriving DecidableEq

/-- The flow after one call of `FlowVarAddInt` or `FlowVarAddStr`. -/
def FlowVarCall.run (f : Flow) : FlowVarCall → Flow
  | .AddInt idx value => FlowVarAddInt f idx value
  | .AddStr idx value size => FlowVarAddStr f idx value size

/-! ## `detect-flowint.c`: the option grammar

`pcre_exec`, `pcre_get_substring` and `atoll` belong to libraries; they are
modelled here as far as `DetectFlowintParse` uses them. A C string is the
list of its characters before the terminator. The pattern has no `.`, so a
character outside ASCII fails every class just as each of its bytes would. -/

/-- The pattern language of PCRE as far as `PARSE_REGEX` uses it: a greedy
repetition `[...]{min,max}` of a character class (`max` absent for `*` and
`+`), a literal text, sequence, alternation, a capturing group with its
number, a greedy optional item `(...)?`, `^` and `$`. -/
inductive Regex where
  | cls (p : Char → Bool) (min : Nat) (max : Option Nat)
  | lit (s : List Char)
  | seq (a b : Regex)
  | alt (a b : Regex)
  | cap (n : Nat) (r : Regex)
  | opt (r : Regex)
  | bol
  | eol

/-- A point of a match: the offset in the subject, the subject from there on,
and the groups captured so far, each with the text it matched (the text
between the two offsets `pcre_exec` would put in `ov`), latest first. -/
structure RegexState where
  pos : Nat
  rest : List Char
  caps : List (Nat × List Char)
  deriving DecidableEq

/-- The point `k` characters further on. -/
def RegexState.advance (st : RegexState) (k : Nat) : RegexState :=
  { st with pos := st.pos + k, rest := st.rest.drop k }

/-- Backtracking matching: all the points the pattern can reach from `st`, in
the order PCRE tries them. A greedy repetition takes as many characters as it
can and gives them back one at a time; an alternation tries its branches
from left to right; an optional item is tried before it is skipped; `$`
holds at the end of the subject and before a newline that ends it. -/
def Regex.run : Regex → RegexState → List RegexState
  | .cls p min max, st =>
    let avail := (st.rest.takeWhile p).length
    let n := match max with
      | none => avail
      | some m => Nat.min avail m
    (List.range (n + 1 - min)).map (fun i => st.advance (n - i))
  | .lit s, st => if st.rest.take s.length = s then [st.advance s.length] else []
  | .seq a b, st => (a.run st).flatMap (fun st1 => b.run st1)
  | .alt a b, st => a.run st ++ b.run st
  | .cap n r, st =>
    (r.run st).map (fun st1 => { st1 with caps := (n, st.rest.take (st1.pos - st.pos)) :: st1.caps })
  | .opt r, st => r.run st ++ [st]
  | .bol, st => if st.pos = 0 then [st] else []
  | .eol, st => if st.rest = [] ∨ st.rest = ['\n'] then [st] else []

/-- `pcre_exec` without options: the first match of the pattern, tried from
each offset of the subject in turn; the result is the captured groups, or
nothing when there is no match (`PCRE_ERROR_NOMATCH`). -/
def pcre_exec (re : Regex) (subject : List Char) : Option (List (Nat × List Char)) :=
  (List.range (subject.length + 1)).findSome? (fun start =>
    ((re.run ⟨start, subject.drop start, []⟩).head?).map (fun st => st.caps))

/-- The value `pcre_exec` returns: -1 without a match, else one more than the
highest number of a group that captured. -/
def pcre_exec_ret : Option (List (Nat × List Char)) → Int
  | none => -1
  | some ov => ((ov.map (fun c => c.1)).foldl Nat.max 0 : Nat) + 1

/-- `pcre_get_substring`: the text of group `n`, empty for a group that did
not capture. -/
def pcre_get_substring (ov : List (Nat × List Char)) (n : Nat) : List Char :=
  match ov.lookup n with
  | some s => s
  | none => []

/-- `\s` of PCRE: HT, LF, FF, CR and space (VT joined the class in PCRE 8.34). -/
def pcre_space (c : Char) : Bool :=
  c == ' ' || c == '\t' || c == '\n' || c == '\x0c' || c == '\r'

/-- `\w` of PCRE: a letter, a digit or the underscore; `[\w\d_]` and `[\w\d]`
are the same class. -/
def pcre_word (c : Char) : Bool := c.isAlphanum || c == '_'

/-- The class `[+=-]`. -/
def pcre_setop (c : Char) : Bool := c == '+' || c == '=' || c == '-'

/-- The operators of `PARSE_REGEX`: `[+=-]{1}|==|!=|<|<=|>|>=|isset`. -/
def PARSE_REGEX_OP : Regex :=
  .alt (.cls pcre_setop 1 (some 1))
    (.alt (.lit ['=', '='])
      (.alt (.lit ['!', '='])
        (.alt (.lit ['<'])
          (.alt (.lit ['<', '='])
            (.alt (.lit ['>'])
              (.alt (.lit ['>', '=']) (.lit ['i', 's', 's', 'e', 't'])))))))

/-- The target of `PARSE_REGEX`: `[a-zA-Z][\w\d]+|[\d]{1,10}`. -/
def PARSE_REGEX_TARGET : Regex :=
  .alt (.seq (.cls Char.isAlpha 1 (some 1)) (.cls pcre_word 1 none))
    (.cls Char.isDigit 1 (some 10))

/-- `PARSE_REGEX` after the operator: `\s*,?\s*(TARGET)?\s*$`. -/
def PARSE_REGEX_TAIL : Regex :=
  .seq (.cls pcre_space 0 none)
    (.seq (.opt (.lit [',']))
      (.seq (.cls pcre_space 0 none)
        (.seq (.opt (.cap 3 PARSE_REGEX_TARGET))
          (.seq (.cls pcre_space 0 none) .eol))))

/-- `PARSE_REGEX`:
`^\s*([a-zA-Z][\w\d_]+),\s*([+=-]{1}|==|!=|<|<=|>|>=|isset)\s*,?\s*([a-zA-Z][\w\d]+|[\d]{1,10})?\s*$`. -/
def PARSE_REGEX : Regex :=
  .seq .bol
    (.seq (.cls pcre_space 0 none)
      (.seq (.cap 1 (.seq (.cls Char.isAlpha 1 (some 1)) (.cls pcre_word 1 none)))
        (.seq (.lit [','])
          (.seq (.cls pcre_space 0 none)
            (.seq (.cap 2 PARSE_REGEX_OP) PARSE_REGEX_TAIL)))))

/-- `atoll` on a text that starts with a digit, the only use the parser makes
of it: the value of the leading run of digits. -/
def atoll (s : List Char) : Nat :=
  (s.takeWhile Char.isDigit).foldl (fun acc c => acc * 10 + (c.toNat - 48)) 0

/-- Whether `str[0]` is a digit (`str[0] >= '0' && str[0] <= '9'`); the
terminator of an empty text is not. -/
def first_is_digit (str : List Char) : Bool :=
  match str with
  | [] => false
  | c :: _ => c.isDigit

/-- `DetectFlowintParse`, the classification of one target text (the body
shared by lines 266 to 277 and 279 to 290): `cls` is the text whose first
character decides, `varval` the text kept as the name. The result is the
target type, `value_long` and the target name, or nothing for a value above
`UINT32_MAX`. -/
def DetectFlowintParseClassify (cls varval : List Char) :
    Option (FlowintTarget × Nat × List Char) :=
  if first_is_digit cls then
    if atoll cls > 4294967295 then none
    else some (FlowintTarget.FLOWINT_TARGET_VAL, atoll cls, [])
  else some (FlowintTarget.FLOWINT_TARGET_VAR, 0, varval)

/-- `DetectFlowintParse`, lines 250 to 294: the target. For `isset` it is
`FLOWINT_TARGET_SELF`. Otherwise the third substring must not be empty; when
it begins and ends with a double quote, the text between the quotes is
classified (and the name kept is the text with its quotes), else the text
itself. (A text that is one quote alone makes the source write before its
copy; the pattern lets no quote into the substring.) -/
def DetectFlowintParseTarget (modifier : FlowintModifier) (varval : List Char) :
    Option (FlowintTarget × Nat × List Char) :=
  if modifier ≠ FlowintModifier.FLOWINT_MODIFIER_IS then
    if varval = [] then none
    else if varval.head? = some '\"' ∧ varval.getLast? = some '\"' then
      DetectFlowintParseClassify ((varval.drop 1).take (varval.length - 2)) varval
    else
      DetectFlowintParseClassify varval varval
  else some (FlowintTarget.FLOWINT_TARGET_SELF, 0, [])

/-- `DetectFlowintParse`, lines 218 to 239: the modifier of an operator text. -/
def DetectFlowintParseModifier (str_ptr : List Char) : FlowintModifier :=
  let modifier := FlowintModifier.FLOWINT_MODIFIER_UNKNOWN
  let modifier := if str_ptr = ['='] then FlowintModifier.FLOWINT_MODIFIER_SET else modifier
  let modifier := if str_ptr = ['+'] then FlowintModifier.FLOWINT_MODIFIER_ADD else modifier
  let modifier := if str_ptr = ['-'] then FlowintModifier.FLOWINT_MODIFIER_SUB else modifier
  let modifier := if str_ptr = ['<'] then FlowintModifier.FLOWINT_MODIFIER_LT else modifier
  let modifier := if str_ptr = ['<', '='] then FlowintModifier.FLOWINT_MODIFIER_LE else modifier
  let modifier := if str_ptr = ['!', '='] then FlowintModifier.FLOWINT_MODIFIER_NE else modifier
  let modifier := if str_ptr = ['=', '='] then FlowintModifier.FLOWINT_MODIFIER_EQ else modifier
  let modifier := if str_ptr = ['>', '='] then FlowintModifier.FLOWINT_MODIFIER_GE else modifier
  let modifier := if str_ptr = ['>'] then FlowintModifier.FLOWINT_MODIFIER_GT else modifier
  let modifier :=
    if str_ptr = ['i', 's', 's', 'e', 't'] then FlowintModifier.FLOWINT_MODIFIER_IS else modifier
  modifier

/-- `DetectFlowintParse` with a non-null `de_ctx`: the directive parsed from
`rawstr` and the registry after the name was looked up, or nothing (`NULL`).
Fields the source leaves unwritten (`target.tvar` of a target that is no
variable) are 0 and empty; `target.tvar.idx` of a variable target is 0, the
bytes of `target.value` that the last write to the union leaves there. -/
def DetectFlowintParse (de_ctx : DetectEngineCtx) (rawstr : String) :
    Option (DetectFlowintData × DetectEngineCtx) :=
  let m := pcre_exec PARSE_REGEX rawstr.toList
  let ret := pcre_exec_ret m
  if ret < 3 ∨ ret > 4 then none
  else
    match m with
    | none => none
    | some ov =>
      let varname := pcre_get_substring ov 1
      let modifier := DetectFlowintParseModifier (pcre_get_substring ov 2)
      if modifier = FlowintModifier.FLOWINT_MODIFIER_UNKNOWN then none
      else
        match DetectFlowintParseTarget modifier (pcre_get_substring ov 3) with
        | none => none
        | some (targettype, value_long, tname) =>
          let r := VariableNameGetIdx de_ctx (String.mk varname) DetectType.DETECT_FLOWINT
          some ({ name := String.mk varname
                  idx := r.1 % 65536
                  modifier := modifier
                  targettype := targettype
                  target := ⟨value_long % 4294967296, ⟨0, String.mk tname⟩⟩ }, r.2)

/-- The first point a pattern reaches from `st`: the head of `Regex.run`. -/
def Regex.Leads (r : Regex) (st y : RegexState) : Prop := ∃ T, r.run st = y :: T

/-! ## The words of the grammar -/

/-- A NAME as the pattern takes it: a letter followed by one or more letters,
digits or underscores. -/
def GrammarName : List Char → Bool
  | c :: d :: ds => c.isAlpha && (d :: ds).all (fun x => x.isAlphanum || x == '_')
  | _ => false

/-- A decimal literal of at most 10 digits. -/
def GrammarLiteral (s : List Char) : Bool :=
  !s.isEmpty && decide (s.length ≤ 10) && s.all Char.isDigit

/-- The nine operator tokens that take a target, each with its modifier. -/
def OperatorTokens : List (String × FlowintModifier) :=
  [("=", FlowintModifier.FLOWINT_MODIFIER_SET),
   ("+", FlowintModifier.FLOWINT_MODIFIER_ADD),
   ("-", FlowintModifier.FLOWINT_MODIFIER_SUB),
   ("==", FlowintModifier.FLOWINT_MODIFIER_EQ),
   ("!=", FlowintModifier.FLOWINT_MODIFIER_NE),
   ("<", FlowintModifier.FLOWINT_MODIFIER_LT),
   ("<=", FlowintModifier.FLOWINT_MODIFIER_LE),
   (">", FlowintModifier.FLOWINT_MODIFIER_GT),
   (">=", FlowintModifier.FLOWINT_MODIFIER_GE)]

/-- The ten operator texts of `PARSE_REGEX`. -/
def OperatorTexts : List (List Char) :=
  [['='], ['+'], ['-'], ['=', '='], ['!', '='], ['<'], ['<', '='], ['>'], ['>', '='],
   ['i', 's', 's', 'e', 't']]

/-- The shape of a text `T` that the pattern takes after the operator,
`\s*,?\s*(TARGET)?\s*$`: whitespace, at most one comma, whitespace, at most one
target, whitespace, and the end of the subject (or the newline that ends it);
`caps` is `caps0` with group 3 added when there is a target. -/
def TailParts (T : List Char) (caps0 caps : List (Nat × List Char)) : Prop :=
  ∃ ws2 cm ws3 tg ws4 nl, T = ws2 ++ (cm ++ (ws3 ++ (tg ++ (ws4 ++ nl)))) ∧
    (∀ c ∈ ws2, pcre_space c = true) ∧ (cm = [] ∨ cm = [',']) ∧
    (∀ c ∈ ws3, pcre_space c = true) ∧ (∀ c ∈ ws4, pcre_space c = true) ∧
    (nl = [] ∨ nl = ['\n']) ∧
    ((tg = [] ∧ caps = caps0) ∨
      ((GrammarName tg = true ∨ GrammarLiteral tg = true) ∧ caps = (3, tg) :: caps0))

/-- A pattern takes `X` off a subject and leaves `Y`: from every point where
the rest of the subject is `X`, one of its ways on ends where the rest is `Y`. -/
def Regex.Takes (r : Regex) (X Y : List Char) : Prop :=
  ∀ st : RegexState, st.rest = X → ∃ y, y ∈ r.run st ∧ y.rest = Y

/-! ## `detect-flowint.c`: the setup of a signature option -/

/-- Modelled from the spec: `SigMatch` of `detect.h` (absent), one option of a
signature, with the two fields the sources write: the keyword `type` and the
keyword's data `ctx`. The data of an option of another keyword, and of a
fresh option, is `none`. -/
structure SigMatch where
  type : DetectType
  ctx : Option DetectFlowintData
  deriving DecidableEq

/-- Modelled from the spec: the part of `Signature` (`detect.h`, absent) the
sources reach: the "per-signature option list", first option first. -/
structure Signature where
  sigmatches : List SigMatch
  deriving DecidableEq

/-- Modelled from the spec: `SigMatchAppend` (`detect-parse.c`, absent): the
new option is linked in behind `m`, the last option of the signature so far
(`NULL` for none), at the end of the option list. -/
def SigMatchAppend (s : Signature) (_m : Option SigMatch) (new : SigMatch) : Signature :=
  { s with sigmatches := s.sigmatches ++ [new] }

/-- `DetectFlowintSetup`: `SigMatchAlloc` is what the call of `SigMatchAlloc()`
returns (`none` for `NULL`). The result is the value returned, the registry
and the signature left behind. After a parse error nothing was registered and
nothing is appended; when the allocation fails the directive is freed and
nothing is appended. -/
def DetectFlowintSetup (SigMatchAlloc : Option SigMatch) (de_ctx : DetectEngineCtx)
    (s : Signature) (m : Option SigMatch) (rawstr : String) :
    Int × DetectEngineCtx × Signature :=
  match DetectFlowintParse de_ctx rawstr with
  | none => (-1, de_ctx, s)
  | some (sfd, de_ctx1) =>
    let r := VariableNameGetIdx de_ctx1 sfd.name DetectType.DETECT_FLOWINT
    let sfd1 : DetectFlowintData := { sfd with idx := r.1 % 65536 }
    match SigMatchAlloc with
    | none => (-1, r.2, s)
    | some sm =>
      let sm1 : SigMatch := { sm with type := DetectType.DETECT_FLOWINT, ctx := some sfd1 }
      (0, r.2, SigMatchAppend s m sm1)

/-! ## The flow's mutex, in program order -/

/-- What a function does to a flow, in program order: the calls on the flow's
mutex `f->m` and the accesses to the chain `f->flowvar`, a read being a walk
of `FlowVarGet` (and the reads through the pointer it returns), a write the
append or the update of a record. -/
inductive FlowAccess where
  | mutex_lock
  | mutex_unlock
  | chain_read (idx : Nat)
  | chain_write (idx : Nat)
  deriving DecidableEq

/-- `FlowVarGet`, what it does to the flow: it walks the chain and calls
nothing on the mutex. -/
def FlowVarGet_accesses (idx : Nat) : List FlowAccess :=
  [FlowAccess.chain_read (idx % 256)]

/-- `FlowVarAddInt`, what it does to the flow: `mutex_lock`, the lookup, the
append or the update of the record, `SCMutexUnlock`. -/
def FlowVarAddInt_accesses (idx : Nat) : List FlowAccess :=
  [FlowAccess.mutex_lock] ++ FlowVarGet_accesses (idx % 256) ++
    [FlowAccess.chain_write (idx % 256), FlowAccess.mutex_unlock]

/-- `DetectFlowintMatch` from line 107 on, what it does to the flow: for Set
the call of `FlowVarAddInt`; else the lookup of the source, and for Add and
Subtract on an integer record the call of `FlowVarAddInt`. -/
def DetectFlowintMatchOp_accesses (flow : Flow) (sfd : DetectFlowintData) : List FlowAccess :=
  if sfd.modifier = FlowintModifier.FLOWINT_MODIFIER_SET then
    FlowVarAddInt_accesses sfd.idx
  else
    FlowVarGet_accesses sfd.idx ++
      match FlowVarGet flow sfd.idx with
      | some fv =>
        if fv.datatype = FlowVarType.FLOWVAR_TYPE_INT then
          if sfd.modifier = FlowintModifier.FLOWINT_MODIFIER_ADD then
            FlowVarAddInt_accesses sfd.idx
          else if sfd.modifier = FlowintModifier.FLOWINT_MODIFIER_SUB then
            FlowVarAddInt_accesses sfd.idx
          else []
        else []
      | none => []

/-- `DetectFlowintMatch`, what it does to the flow: for a variable target the
lookup of the target (line 96) and, when it is found, the rest; else the
rest. The function itself calls nothing on the mutex. -/
def DetectFlowintMatch_accesses (de_ctx : DetectEngineCtx) (flow : Flow)
    (sfd : DetectFlowintData) : List FlowAccess :=
  if sfd.targettype = FlowintTarget.FLOWINT_TARGET_VAR then
    let r := VariableNameGetIdx de_ctx sfd.target.tvar.name DetectType.DETECT_FLOWINT
    let sfd1 : DetectFlowintData :=
      { sfd with target := { sfd.target with tvar := { sfd.target.tvar with idx := r.1 % 65536 } } }
    FlowVarGet_accesses sfd1.target.tvar.idx ++
      match FlowVarGet flow sfd1.target.tvar.idx with
      | none => []
      | some _ => DetectFlowintMatchOp_accesses flow sfd1
  else
    DetectFlowintMatchOp_accesses flow sfd

/-- The lock discipline on a run, `held` telling whether the mutex is held at
its start: every access to the chain happens with the mutex held, the mutex
is locked only when it is free and unlocked only when it is held. -/
def LockDiscipline : Bool → List FlowAccess → Bool
  | _, [] => true
  | held, FlowAccess.mutex_lock :: rest => !held && LockDiscipline true rest
  | held, FlowAccess.mutex_unlock :: rest => held && LockDiscipline false rest
  | held, FlowAccess.chain_read _ :: rest => held && LockDiscipline held rest
  | held, FlowAccess.chain_write _ :: rest => held && LockDiscipline held rest

/-! ## The chain: lookup after a write -/

theorem FlowVarGetLoop_some_spec (idx : Nat) (l : List GenericVar) (fv : FlowVar)
    (h : FlowVarGetLoop idx l = some fv) :
    fv ∈ l ∧ fv.type = DetectType.DETECT_FLOWVAR ∧ fv.idx = idx := by
  induction l with
  | nil => simp [FlowVarGetLoop] at h
  | cons gv next ih =>
    unfold FlowVarGetLoop at h
    split at h
    · rename_i hc
      cases h
      exact ⟨List.mem_cons_self _ _, hc.1, hc.2⟩
    · obtain ⟨h1, h2⟩ := ih h
      exact ⟨List.mem_cons_of_mem _ h1, h2⟩

theorem FlowVarGetLoop_append_of_none (idx : Nat) (l : List GenericVar) (gv : GenericVar)
    (h : FlowVarGetLoop idx l = none) :
    FlowVarGetLoop idx (l ++ [gv]) = FlowVarGetLoop idx [gv] := by
  induction l with
  | nil => rfl
  | cons a next ih =>
    unfold FlowVarGetLoop at h
    split at h
    · cases h
    · rename_i hc
      rw [List.cons_append]
      conv_lhs => unfold FlowVarGetLoop
      rw [if_neg hc]
      exact ih h

theorem FlowVarGetLoop_write (idx : Nat) (upd : FlowVar → FlowVar) (l : List GenericVar)
    (fv : FlowVar) (hupd : ∀ x : FlowVar, (upd x).type = x.type ∧ (upd x).idx = x.idx)
    (h : FlowVarGetLoop idx l = some fv) :
    FlowVarGetLoop idx (FlowVarWrite idx upd l) = some (upd fv) := by
  induction l with
  | nil => simp [FlowVarGetLoop] at h
  | cons a next ih =>
    unfold FlowVarGetLoop at h
    unfold FlowVarWrite
    split at h
    · rename_i hc
      rw [if_pos hc]
      unfold FlowVarGetLoop
      rw [if_pos (by rw [(hupd a).1, (hupd a).2]; exact hc)]
      exact congrArg (fun o => Option.map upd o) h
    · rename_i hc
      rw [if_neg hc]
      unfold FlowVarGetLoop
      rw [if_neg hc]
      exact ih h

theorem FlowVarGet_AddInt_of_none (f : Flow) (idx value : Nat) (h : FlowVarGet f idx = none) :
    FlowVarGet (FlowVarAddInt f idx value) idx =
      some ⟨DetectType.DETECT_FLOWVAR, idx % 256, FlowVarType.FLOWVAR_TYPE_INT,
        FlowVarData.fv_int (value % 4294967296)⟩ := by
  have h0 : FlowVarGet f (idx % 256) = none := by
    unfold FlowVarGet at h ⊢
    rw [Nat.mod_mod]; exact h
  unfold FlowVarAddInt
  rw [h0]
  unfold FlowVarGet at h ⊢
  simp only [GenericVarAppend]
  rw [FlowVarGetLoop_append_of_none _ _ _ h]
  simp [FlowVarGetLoop]

theorem FlowVarGet_AddInt_of_some (f : Flow) (idx value : Nat) (fv : FlowVar)
    (h : FlowVarGet f idx = some fv) :
    FlowVarGet (FlowVarAddInt f idx value) idx =
      some { fv with data := FlowVarData.fv_int (value % 4294967296) } := by
  have h0 : FlowVarGet f (idx % 256) = some fv := by
    unfold FlowVarGet at h ⊢
    rw [Nat.mod_mod]; exact h
  unfold FlowVarAddInt
  rw [h0]
  unfold FlowVarGet at h ⊢
  simp only
  rw [FlowVarGetLoop_write (idx % 256) (fun x => FlowVarUpdateInt x (value % 4294967296))
    f.flowvar fv (fun x => ⟨rfl, rfl⟩) h]
  simp [FlowVarUpdateInt]

theorem FlowVarGet_AddStr_of_none (f : Flow) (idx value size : Nat)
    (h : FlowVarGet f idx = none) :
    FlowVarGet (FlowVarAddStr f idx value size) idx =
      some ⟨DetectType.DETECT_FLOWVAR, idx % 256, FlowVarType.FLOWVAR_TYPE_STR,
        FlowVarData.fv_str value (size % 65536)⟩ := by
  have h0 : FlowVarGet f (idx % 256) = none := by
    unfold FlowVarGet at h ⊢
    rw [Nat.mod_mod]; exact h
  unfold FlowVarAddStr
  rw [h0]
  unfold FlowVarGet at h ⊢
  simp only [GenericVarAppend]
  rw [FlowVarGetLoop_append_of_none _ _ _ h]
  simp [FlowVarGetLoop]

theorem FlowVarGet_AddStr_of_some (f : Flow) (idx value size : Nat) (fv : FlowVar)
    (h : FlowVarGet f idx = some fv) :
    FlowVarGet (FlowVarAddStr f idx value size) idx =
      some { fv with data := FlowVarData.fv_str value (size % 65536) } := by
  have h0 : FlowVarGet f (idx % 256) = some fv := by
    unfold FlowVarGet at h ⊢
    rw [Nat.mod_mod]; exact h
  unfold FlowVarAddStr
  rw [h0]
  unfold FlowVarGet at h ⊢
  simp only
  rw [FlowVarGetLoop_write (idx % 256) (fun x => FlowVarUpdateStr x value (size % 65536))
    f.flowvar fv (fun x => ⟨rfl, rfl⟩) h]
  simp [FlowVarUpdateStr]

/-! ## Arithmetic on `uint32_t` -/

theorem uint32_sub_cast (a b : Nat) :
    ((uint32_sub a b : Nat) : Int) = ((a : Int) - (b : Int)) % 4294967296 := by
  unfold uint32_sub
  exact Int.toNat_of_nonneg (Int.emod_nonneg _ (by norm_num))

theorem uint32_sub_lt (a b : Nat) : uint32_sub a b < 4294967296 := by
  have h1 := uint32_sub_cast a b
  have h2 : ((a : Int) - (b : Int)) % 4294967296 < 4294967296 :=
    Int.emod_lt_of_pos _ (by norm_num)
  omega

/-! ## Evaluation: the steps of `DetectFlowintMatch` -/

theorem DetectFlowintMatch_of_not_var (pun : Nat → Nat → Nat) (de_ctx : DetectEngineCtx)
    (flow : Flow) (sfd : DetectFlowintData)
    (h : sfd.targettype ≠ FlowintTarget.FLOWINT_TARGET_VAR) :
    DetectFlowintMatch pun de_ctx flow sfd =
      DetectFlowintMatchOp pun sfd.target.value de_ctx flow sfd := by
  unfold DetectFlowintMatch
  rw [if_neg h]

theorem DetectFlowintMatchOp_no_source (pun : Nat → Nat → Nat) (targetval : Nat)
    (de_ctx : DetectEngineCtx) (flow : Flow) (sfd : DetectFlowintData)
    (hm : sfd.modifier ≠ FlowintModifier.FLOWINT_MODIFIER_SET)
    (hsrc : FlowVarGet flow sfd.idx = none ∨
      ∃ fv, FlowVarGet flow sfd.idx = some fv ∧ fv.datatype ≠ FlowVarType.FLOWVAR_TYPE_INT) :
    DetectFlowintMatchOp pun targetval de_ctx flow sfd = .ok (0, ⟨de_ctx, flow, sfd⟩) := by
  unfold DetectFlowintMatchOp
  rw [if_neg hm]
  rcases hsrc with h | ⟨fv, h, hk⟩
  · rw [h]
  · rw [h]
    simp only
    rw [if_neg hk]

theorem DetectFlowintMatchOp_isset_exit (pun : Nat → Nat → Nat) (targetval : Nat)
    (de_ctx : DetectEngineCtx) (flow : Flow) (sfd : DetectFlowintData) (fv : FlowVar)
    (hm : sfd.modifier = FlowintModifier.FLOWINT_MODIFIER_IS)
    (hsrc : FlowVarGet flow sfd.idx = some fv)
    (hk : fv.datatype = FlowVarType.FLOWVAR_TYPE_INT) :
    DetectFlowintMatchOp pun targetval de_ctx flow sfd = .error ProcessExit.EXIT_FAILURE := by
  unfold DetectFlowintMatchOp
  simp [hm, hsrc, hk]

/-! ## The claims -/

/-- C1: Add wraps modulo 2^32. When the record at the directive's source index
exists and is Integer-kind with value `s`, an Add directive with a literal
target `t < 2^32` returns 1 and afterwards the lookup of the source index
gives an Integer-kind record whose value is `(s + t) mod 2^32`. -/
theorem c1_add_wraps (pun : Nat → Nat → Nat) (de_ctx : DetectEngineCtx) (flow : Flow)
    (sfd : DetectFlowintData) (fv : FlowVar) (s t : Nat)
    (hop : sfd.modifier = FlowintModifier.FLOWINT_MODIFIER_ADD)
    (hlit : sfd.targettype = FlowintTarget.FLOWINT_TARGET_VAL)
    (ht : sfd.target.value = t) (_hr : t < 4294967296)
    (hsrc : FlowVarGet flow sfd.idx = some fv)
    (hk : fv.datatype = FlowVarType.FLOWVAR_TYPE_INT)
    (hs : fv.data.fv_int_value pun = s) :
    ∃ st fv1, DetectFlowintMatch pun de_ctx flow sfd = .ok (1, st) ∧
      FlowVarGet st.flow sfd.idx = some fv1 ∧
      fv1.datatype = FlowVarType.FLOWVAR_TYPE_INT ∧
      fv1.data.fv_int_value pun = (s + t) % 4294967296 := by
  refine ⟨⟨de_ctx, FlowVarAddInt flow sfd.idx (uint32_add s t), sfd⟩,
    { fv with data := FlowVarData.fv_int (uint32_add s t % 4294967296) }, ?_, ?_, hk, ?_⟩
  · rw [DetectFlowintMatch_of_not_var pun de_ctx flow sfd (by rw [hlit]; decide)]
    unfold DetectFlowintMatchOp
    simp [hop, hsrc, hk, hs, ht]
  · exact FlowVarGet_AddInt_of_some flow sfd.idx _ fv hsrc
  · simp [FlowVarData.fv_int_value, uint32_add]

/-- Witness of C1: a counter at 2^32 - 1 to which 2 is added wraps to 1. -/
theorem c1_add_wraps_witness :
    ∃ st fv1,
      DetectFlowintMatch (fun _ _ => 0) ⟨[]⟩
        ⟨[⟨DetectType.DETECT_FLOWVAR, 1, FlowVarType.FLOWVAR_TYPE_INT,
          FlowVarData.fv_int 4294967295⟩]⟩
        ⟨"myvar", 1, FlowintModifier.FLOWINT_MODIFIER_ADD, FlowintTarget.FLOWINT_TARGET_VAL,
          ⟨2, ⟨0, ""⟩⟩⟩ = .ok (1, st) ∧
      FlowVarGet st.flow 1 = some fv1 ∧
      fv1.datatype = FlowVarType.FLOWVAR_TYPE_INT ∧
      fv1.data.fv_int_value (fun _ _ => 0) = 1 :=
  c1_add_wraps (fun _ _ => 0) ⟨[]⟩
    ⟨[⟨DetectType.DETECT_FLOWVAR, 1, FlowVarType.FLOWVAR_TYPE_INT, FlowVarData.fv_int 4294967295⟩]⟩
    ⟨"myvar", 1, FlowintModifier.FLOWINT_MODIFIER_ADD, FlowintTarget.FLOWINT_TARGET_VAL,
      ⟨2, ⟨0, ""⟩⟩⟩
    ⟨DetectType.DETECT_FLOWVAR, 1, FlowVarType.FLOWVAR_TYPE_INT, FlowVarData.fv_int 4294967295⟩
    4294967295 2 rfl rfl rfl (by decide) rfl rfl rfl

/-- C2: Subtract wraps modulo 2^32 and never clamps. When the record at the
source index is Integer-kind with value `s`, a Subtract directive with a
literal target `t < 2^32` returns 1 and afterwards the stored value is
`(s - t) mod 2^32`, the difference taken over the integers. -/
theorem c2_sub_wraps (pun : Nat → Nat → Nat) (de_ctx : DetectEngineCtx) (flow : Flow)
    (sfd : DetectFlowintData) (fv : FlowVar) (s t : Nat)
    (hop : sfd.modifier = FlowintModifier.FLOWINT_MODIFIER_SUB)
    (hlit : sfd.targettype = FlowintTarget.FLOWINT_TARGET_VAL)
    (ht : sfd.target.value = t) (_hr : t < 4294967296)
    (hsrc : FlowVarGet flow sfd.idx = some fv)
    (hk : fv.datatype = FlowVarType.FLOWVAR_TYPE_INT)
    (hs : fv.data.fv_int_value pun = s) :
    ∃ st fv1, DetectFlowintMatch pun de_ctx flow sfd = .ok (1, st) ∧
      FlowVarGet st.flow sfd.idx = some fv1 ∧
      fv1.datatype = FlowVarType.FLOWVAR_TYPE_INT ∧
      ((fv1.data.fv_int_value pun : Nat) : Int) = ((s : Int) - (t : Int)) % 4294967296 := by
  refine ⟨⟨de_ctx, FlowVarAddInt flow sfd.idx (uint32_sub s t), sfd⟩,
    { fv with data := FlowVarData.fv_int (uint32_sub s t % 4294967296) }, ?_, ?_, hk, ?_⟩
  · rw [DetectFlowintMatch_of_not_var pun de_ctx flow sfd (by rw [hlit]; decide)]
    unfold DetectFlowintMatchOp
    simp [hop, hsrc, hk, hs, ht]
  · exact FlowVarGet_AddInt_of_some flow sfd.idx _ fv hsrc
  · simp only [FlowVarData.fv_int_value]
    rw [Nat.mod_eq_of_lt (uint32_sub_lt s t)]
    exact uint32_sub_cast s t

/-- Witness of C2: a counter at 0 from which 1 is subtracted holds 2^32 - 1. -/
theorem c2_sub_wraps_witness :
    ∃ st fv1,
      DetectFlowintMatch (fun _ _ => 0) ⟨[]⟩
        ⟨[⟨DetectType.DETECT_FLOWVAR, 1, FlowVarType.FLOWVAR_TYPE_INT, FlowVarData.fv_int 0⟩]⟩
        ⟨"c", 1, FlowintModifier.FLOWINT_MODIFIER_SUB, FlowintTarget.FLOWINT_TARGET_VAL,
          ⟨1, ⟨0, ""⟩⟩⟩ = .ok (1, st) ∧
      FlowVarGet st.flow 1 = some fv1 ∧
      fv1.datatype = FlowVarType.FLOWVAR_TYPE_INT ∧
      ((fv1.data.fv_int_value (fun _ _ => 0) : Nat) : Int) = 4294967295 :=
  c2_sub_wraps (fun _ _ => 0) ⟨[]⟩
    ⟨[⟨DetectType.DETECT_FLOWVAR, 1, FlowVarType.FLOWVAR_TYPE_INT, FlowVarData.fv_int 0⟩]⟩
    ⟨"c", 1, FlowintModifier.FLOWINT_MODIFIER_SUB, FlowintTarget.FLOWINT_TARGET_VAL,
      ⟨1, ⟨0, ""⟩⟩⟩
    ⟨DetectType.DETECT_FLOWVAR, 1, FlowVarType.FLOWVAR_TYPE_INT, FlowVarData.fv_int 0⟩
    0 1 rfl rfl rfl (by decide) rfl rfl rfl

/-- C3: comparisons are exact and free of side effects. When the source
record is Integer-kind with value `s` and the target value is `t` (a literal,
or the value read from the record of the target variable), each of the six
comparison operators returns 1 if `s OP t` holds and 0 if not, and the
variable chain of the flow after the call is the one before it. -/
theorem c3_compare_exact (pun : Nat → Nat → Nat) (de_ctx : DetectEngineCtx) (flow : Flow)
    (sfd : DetectFlowintData) (fv : FlowVar) (s t : Nat)
    (hop : sfd.modifier ∈ [FlowintModifier.FLOWINT_MODIFIER_EQ,
      FlowintModifier.FLOWINT_MODIFIER_NE, FlowintModifier.FLOWINT_MODIFIER_LT,
      FlowintModifier.FLOWINT_MODIFIER_LE, FlowintModifier.FLOWINT_MODIFIER_GT,
      FlowintModifier.FLOWINT_MODIFIER_GE])
    (ht : (sfd.targettype ≠ FlowintTarget.FLOWINT_TARGET_VAR ∧ sfd.target.value = t) ∨
      (sfd.targettype = FlowintTarget.FLOWINT_TARGET_VAR ∧
        ∃ fvt, FlowVarGet flow
            ((VariableNameGetIdx de_ctx sfd.target.tvar.name DetectType.DETECT_FLOWINT).1 % 65536)
            = some fvt ∧
          fvt.data.fv_int_value pun = t))
    (hsrc : FlowVarGet flow sfd.idx = some fv)
    (hk : fv.datatype = FlowVarType.FLOWVAR_TYPE_INT)
    (hs : fv.data.fv_int_value pun = s) :
    ∃ r st, DetectFlowintMatch pun de_ctx flow sfd = .ok (r, st) ∧
      st.flow = flow ∧ (r = 0 ∨ r = 1) ∧
      (sfd.modifier = FlowintModifier.FLOWINT_MODIFIER_EQ → (r = 1 ↔ s = t)) ∧
      (sfd.modifier = FlowintModifier.FLOWINT_MODIFIER_NE → (r = 1 ↔ s ≠ t)) ∧
      (sfd.modifier = FlowintModifier.FLOWINT_MODIFIER_LT → (r = 1 ↔ s < t)) ∧
      (sfd.modifier = FlowintModifier.FLOWINT_MODIFIER_LE → (r = 1 ↔ s ≤ t)) ∧
      (sfd.modifier = FlowintModifier.FLOWINT_MODIFIER_GT → (r = 1 ↔ s > t)) ∧
      (sfd.modifier = FlowintModifier.FLOWINT_MODIFIER_GE → (r = 1 ↔ s ≥ t)) := by
  have key : ∀ (d : DetectEngineCtx) (sfd1 : DetectFlowintData),
      sfd1.modifier = sfd.modifier → sfd1.idx = sfd.idx →
      ∃ r st, DetectFlowintMatchOp pun t d flow sfd1 = .ok (r, st) ∧
        st.flow = flow ∧ (r = 0 ∨ r = 1) ∧
        (sfd.modifier = FlowintModifier.FLOWINT_MODIFIER_EQ → (r = 1 ↔ s = t)) ∧
        (sfd.modifier = FlowintModifier.FLOWINT_MODIFIER_NE → (r = 1 ↔ s ≠ t)) ∧
        (sfd.modifier = FlowintModifier.FLOWINT_MODIFIER_LT → (r = 1 ↔ s < t)) ∧
        (sfd.modifier = FlowintModifier.FLOWINT_MODIFIER_LE → (r = 1 ↔ s ≤ t)) ∧
        (sfd.modifier = FlowintModifier.FLOWINT_MODIFIER_GT → (r = 1 ↔ s > t)) ∧
        (sfd.modifier = FlowintModifier.FLOWINT_MODIFIER_GE → (r = 1 ↔ s ≥ t)) := by
    intro d sfd1 hm hi
    unfold DetectFlowintMatchOp
    rw [hi, hsrc, hm]
    simp only [List.mem_cons, List.mem_singleton, List.not_mem_nil, or_false] at hop
    rcases hop with h | h | h | h | h | h <;> rw [h] <;>
      simp only [hk, hs, if_true, if_false, reduceCtorEq] <;>
      refine ⟨_, _, rfl, rfl, ?_⟩ <;>
      unfold cbool <;> split <;> simp <;> omega
  rcases ht with ⟨hnv, hv⟩ | ⟨hvar, fvt, hget, hv⟩
  · rw [DetectFlowintMatch_of_not_var pun de_ctx flow sfd hnv, hv]
    exact key de_ctx sfd rfl rfl
  · unfold DetectFlowintMatch
    rw [if_pos hvar]
    simp only
    rw [hget]
    simp only
    rw [hv]
    exact key _ _ rfl rfl

/-- Witness of C3: with `cntpackets` and `maxvar` both at 6, the directive
`cntpackets == maxvar` (a variable target) returns 1 and leaves the chain as
it was. -/
theorem c3_compare_exact_witness :
    ∃ r st,
      DetectFlowintMatch (fun _ _ => 0)
        ⟨[(DetectType.DETECT_FLOWINT, "myvar"), (DetectType.DETECT_FLOWINT, "maxvar"),
          (DetectType.DETECT_FLOWINT, "cntpackets")]⟩
        ⟨[⟨DetectType.DETECT_FLOWVAR, 2, FlowVarType.FLOWVAR_TYPE_INT, FlowVarData.fv_int 6⟩,
          ⟨DetectType.DETECT_FLOWVAR, 3, FlowVarType.FLOWVAR_TYPE_INT, FlowVarData.fv_int 6⟩]⟩
        ⟨"cntpackets", 3, FlowintModifier.FLOWINT_MODIFIER_EQ, FlowintTarget.FLOWINT_TARGET_VAR,
          ⟨0, ⟨0, "maxvar"⟩⟩⟩ = .ok (r, st) ∧
      st.flow =
        ⟨[⟨DetectType.DETECT_FLOWVAR, 2, FlowVarType.FLOWVAR_TYPE_INT, FlowVarData.fv_int 6⟩,
          ⟨DetectType.DETECT_FLOWVAR, 3, FlowVarType.FLOWVAR_TYPE_INT, FlowVarData.fv_int 6⟩]⟩ ∧
      (r = 0 ∨ r = 1) ∧
      (FlowintModifier.FLOWINT_MODIFIER_EQ = FlowintModifier.FLOWINT_MODIFIER_EQ →
        (r = 1 ↔ 6 = 6)) ∧
      (FlowintModifier.FLOWINT_MODIFIER_EQ = FlowintModifier.FLOWINT_MODIFIER_NE →
        (r = 1 ↔ 6 ≠ 6)) ∧
      (FlowintModifier.FLOWINT_MODIFIER_EQ = FlowintModifier.FLOWINT_MODIFIER_LT →
        (r = 1 ↔ 6 < 6)) ∧
      (FlowintModifier.FLOWINT_MODIFIER_EQ = FlowintModifier.FLOWINT_MODIFIER_LE →
        (r = 1 ↔ 6 ≤ 6)) ∧
      (FlowintModifier.FLOWINT_MODIFIER_EQ = FlowintModifier.FLOWINT_MODIFIER_GT →
        (r = 1 ↔ 6 > 6)) ∧
      (FlowintModifier.FLOWINT_MODIFIER_EQ = FlowintModifier.FLOWINT_MODIFIER_GE →
        (r = 1 ↔ 6 ≥ 6)) :=
  c3_compare_exact (fun _ _ => 0)
    ⟨[(DetectType.DETECT_FLOWINT, "myvar"), (DetectType.DETECT_FLOWINT, "maxvar"),
      (DetectType.DETECT_FLOWINT, "cntpackets")]⟩
    ⟨[⟨DetectType.DETECT_FLOWVAR, 2, FlowVarType.FLOWVAR_TYPE_INT, FlowVarData.fv_int 6⟩,
      ⟨DetectType.DETECT_FLOWVAR, 3, FlowVarType.FLOWVAR_TYPE_INT, FlowVarData.fv_int 6⟩]⟩
    ⟨"cntpackets", 3, FlowintModifier.FLOWINT_MODIFIER_EQ, FlowintTarget.FLOWINT_TARGET_VAR,
      ⟨0, ⟨0, "maxvar"⟩⟩⟩
    ⟨DetectType.DETECT_FLOWVAR, 3, FlowVarType.FLOWVAR_TYPE_INT, FlowVarData.fv_int 6⟩
    6 6 (by decide)
    (Or.inr ⟨rfl,
      ⟨DetectType.DETECT_FLOWVAR, 2, FlowVarType.FLOWVAR_TYPE_INT, FlowVarData.fv_int 6⟩,
      by decide, rfl⟩)
    rfl rfl rfl

/-- C4: Set with a literal target always succeeds. Whatever the flow holds at
the source index (nothing, an Integer-kind record or a ByteString-kind
record), a Set directive with a literal target returns 1, and the flow left
behind is the prior flow with `FlowVarAddInt` applied at the source index with
the literal; registry and directive are as before. -/
theorem c4_set_literal (pun : Nat → Nat → Nat) (de_ctx : DetectEngineCtx) (flow : Flow)
    (sfd : DetectFlowintData) (v : Nat)
    (hop : sfd.modifier = FlowintModifier.FLOWINT_MODIFIER_SET)
    (hlit : sfd.targettype = FlowintTarget.FLOWINT_TARGET_VAL)
    (hv : sfd.target.value = v) :
    DetectFlowintMatch pun de_ctx flow sfd =
      .ok (1, ⟨de_ctx, FlowVarAddInt flow sfd.idx v, sfd⟩) := by
  rw [DetectFlowintMatch_of_not_var pun de_ctx flow sfd (by rw [hlit]; decide)]
  unfold DetectFlowintMatchOp
  rw [if_pos hop, hv]

/-- Witness of C4: `myvar,=,1` on an empty flow returns 1 and leaves one
Integer-kind record with value 1. -/
theorem c4_set_literal_witness :
    DetectFlowintMatch (fun _ _ => 0) ⟨[(DetectType.DETECT_FLOWINT, "myvar")]⟩ ⟨[]⟩
        ⟨"myvar", 1, FlowintModifier.FLOWINT_MODIFIER_SET, FlowintTarget.FLOWINT_TARGET_VAL,
          ⟨1, ⟨0, ""⟩⟩⟩ =
      .ok (1, ⟨⟨[(DetectType.DETECT_FLOWINT, "myvar")]⟩,
        ⟨[⟨DetectType.DETECT_FLOWVAR, 1, FlowVarType.FLOWVAR_TYPE_INT, FlowVarData.fv_int 1⟩]⟩,
        ⟨"myvar", 1, FlowintModifier.FLOWINT_MODIFIER_SET, FlowintTarget.FLOWINT_TARGET_VAL,
          ⟨1, ⟨0, ""⟩⟩⟩⟩) :=
  c4_set_literal (fun _ _ => 0) ⟨[(DetectType.DETECT_FLOWINT, "myvar")]⟩ ⟨[]⟩
    ⟨"myvar", 1, FlowintModifier.FLOWINT_MODIFIER_SET, FlowintTarget.FLOWINT_TARGET_VAL,
      ⟨1, ⟨0, ""⟩⟩⟩ 1 rfl rfl rfl

/-- C5, as the code has it: `FlowVarAddInt` on an index that holds a
ByteString-kind record stores the value through `FlowVarUpdateInt` and leaves
`datatype` alone, so the lookup afterwards gives a record that carries the
value but is still ByteString-kind, not Integer-kind. -/
theorem c5_add_int_keeps_str_kind (f : Flow) (idx value : Nat) (fv : FlowVar)
    (h : FlowVarGet f idx = some fv)
    (hk : fv.datatype = FlowVarType.FLOWVAR_TYPE_STR) :
    ∃ fv1, FlowVarGet (FlowVarAddInt f idx value) idx = some fv1 ∧
      fv1.datatype = FlowVarType.FLOWVAR_TYPE_STR ∧
      fv1.datatype ≠ FlowVarType.FLOWVAR_TYPE_INT ∧
      fv1.data = FlowVarData.fv_int (value % 4294967296) := by
  refine ⟨{ fv with data := FlowVarData.fv_int (value % 4294967296) }, ?_, hk, ?_, rfl⟩
  · exact FlowVarGet_AddInt_of_some f idx value fv h
  · simp only [hk]
    decide

/-- The failing input of C5: the flow left by `FlowVarAddStr(f, 1, b, 3)` on
an empty flow (`b` at address 4096); after `FlowVarAddInt(f, 1, 7)` the record
found at index 1 is still ByteString-kind. -/
theorem c5_add_int_keeps_str_kind_witness :
    ∃ fv1,
      FlowVarGet (FlowVarAddInt (FlowVarAddStr ⟨[]⟩ 1 4096 3) 1 7) 1 = some fv1 ∧
      fv1.datatype = FlowVarType.FLOWVAR_TYPE_STR ∧
      fv1.datatype ≠ FlowVarType.FLOWVAR_TYPE_INT ∧
      fv1.data = FlowVarData.fv_int 7 :=
  c5_add_int_keeps_str_kind (FlowVarAddStr ⟨[]⟩ 1 4096 3) 1 7
    ⟨DetectType.DETECT_FLOWVAR, 1, FlowVarType.FLOWVAR_TYPE_STR, FlowVarData.fv_str 4096 3⟩
    rfl rfl

/-- C6, as the code has it: `FlowVarAddStr` on an index that holds an
Integer-kind record stores buffer and length through `FlowVarUpdateStr` and
leaves `datatype` alone, so the lookup afterwards gives a record that holds
the buffer but is still Integer-kind, not ByteString-kind. -/
theorem c6_add_str_keeps_int_kind (f : Flow) (idx value size : Nat) (fv : FlowVar)
    (h : FlowVarGet f idx = some fv)
    (hk : fv.datatype = FlowVarType.FLOWVAR_TYPE_INT) :
    ∃ fv1, FlowVarGet (FlowVarAddStr f idx value size) idx = some fv1 ∧
      fv1.datatype = FlowVarType.FLOWVAR_TYPE_INT ∧
      fv1.datatype ≠ FlowVarType.FLOWVAR_TYPE_STR ∧
      fv1.data = FlowVarData.fv_str value (size % 65536) := by
  refine ⟨{ fv with data := FlowVarData.fv_str value (size % 65536) }, ?_, hk, ?_, rfl⟩
  · exact FlowVarGet_AddStr_of_some f idx value size fv h
  · simp only [hk]
    decide

/-- The failing input of C6: the flow left by `FlowVarAddInt(f, 1, 7)` on an
empty flow; after `FlowVarAddStr(f, 1, b, 3)` with `b` at address 4096 the
record found at index 1 is still Integer-kind. -/
theorem c6_add_str_keeps_int_kind_witness :
    ∃ fv1,
      FlowVarGet (FlowVarAddStr (FlowVarAddInt ⟨[]⟩ 1 7) 1 4096 3) 1 = some fv1 ∧
      fv1.datatype = FlowVarType.FLOWVAR_TYPE_INT ∧
      fv1.datatype ≠ FlowVarType.FLOWVAR_TYPE_STR ∧
      fv1.data = FlowVarData.fv_str 4096 3 :=
  c6_add_str_keeps_int_kind (FlowVarAddInt ⟨[]⟩ 1 7) 1 4096 3
    ⟨DetectType.DETECT_FLOWVAR, 1, FlowVarType.FLOWVAR_TYPE_INT, FlowVarData.fv_int 7⟩
    rfl rfl

/-- C7, as the code has it, at the directive of `myvar, isset` (modifier
`FLOWINT_MODIFIER_IS`, target `FLOWINT_TARGET_SELF`, value 0): on the empty
flow it returns 0 and changes nothing; on the flow left by `myvar,=,5` the
switch of `DetectFlowintMatch` has no case for the modifier and the default
branch calls `exit (EXIT_FAILURE)` where the claim has the value 1. -/
theorem c7_isset_exits_after_set (pun : Nat → Nat → Nat) :
    DetectFlowintMatch pun ⟨[(DetectType.DETECT_FLOWINT, "myvar")]⟩ ⟨[]⟩
        ⟨"myvar", 1, FlowintModifier.FLOWINT_MODIFIER_IS, FlowintTarget.FLOWINT_TARGET_SELF,
          ⟨0, ⟨0, ""⟩⟩⟩ =
      .ok (0, ⟨⟨[(DetectType.DETECT_FLOWINT, "myvar")]⟩, ⟨[]⟩,
        ⟨"myvar", 1, FlowintModifier.FLOWINT_MODIFIER_IS, FlowintTarget.FLOWINT_TARGET_SELF,
          ⟨0, ⟨0, ""⟩⟩⟩⟩) ∧
    DetectFlowintMatch pun ⟨[(DetectType.DETECT_FLOWINT, "myvar")]⟩
        (FlowVarAddInt ⟨[]⟩ 1 5)
        ⟨"myvar", 1, FlowintModifier.FLOWINT_MODIFIER_IS, FlowintTarget.FLOWINT_TARGET_SELF,
          ⟨0, ⟨0, ""⟩⟩⟩ =
      .error ProcessExit.EXIT_FAILURE := by
  constructor <;> rfl

/-- C8, as the code has it: for a directive with modifier
`FLOWINT_MODIFIER_IS` and target `FLOWINT_TARGET_SELF` (what
`DetectFlowintParse` builds for `NAME, isset`) and every flow whose record at
the source index is Integer-kind, `DetectFlowintMatch` returns nothing: it
reaches the default branch of the switch, which ends the process with
`exit (EXIT_FAILURE)`. -/
theorem c8_isset_reaches_exit (pun : Nat → Nat → Nat) (de_ctx : DetectEngineCtx) (flow : Flow)
    (sfd : DetectFlowintData) (fv : FlowVar)
    (hop : sfd.modifier = FlowintModifier.FLOWINT_MODIFIER_IS)
    (hself : sfd.targettype = FlowintTarget.FLOWINT_TARGET_SELF)
    (hsrc : FlowVarGet flow sfd.idx = some fv)
    (hk : fv.datatype = FlowVarType.FLOWVAR_TYPE_INT) :
    DetectFlowintMatch pun de_ctx flow sfd = .error ProcessExit.EXIT_FAILURE := by
  rw [DetectFlowintMatch_of_not_var pun de_ctx flow sfd (by rw [hself]; decide)]
  exact DetectFlowintMatchOp_isset_exit pun _ de_ctx flow sfd fv hop hsrc hk

/-- The failing input of C8: the directive of `myvar, isset` on a flow in
which `myvar` (index 1) is an Integer-kind record with value 5. -/
theorem c8_isset_reaches_exit_witness :
    DetectFlowintMatch (fun _ _ => 0) ⟨[(DetectType.DETECT_FLOWINT, "myvar")]⟩
        ⟨[⟨DetectType.DETECT_FLOWVAR, 1, FlowVarType.FLOWVAR_TYPE_INT, FlowVarData.fv_int 5⟩]⟩
        ⟨"myvar", 1, FlowintModifier.FLOWINT_MODIFIER_IS, FlowintTarget.FLOWINT_TARGET_SELF,
          ⟨0, ⟨0, ""⟩⟩⟩ =
      .error ProcessExit.EXIT_FAILURE :=
  c8_isset_reaches_exit (fun _ _ => 0) ⟨[(DetectType.DETECT_FLOWINT, "myvar")]⟩
    ⟨[⟨DetectType.DETECT_FLOWVAR, 1, FlowVarType.FLOWVAR_TYPE_INT, FlowVarData.fv_int 5⟩]⟩
    ⟨"myvar", 1, FlowintModifier.FLOWINT_MODIFIER_IS, FlowintTarget.FLOWINT_TARGET_SELF,
      ⟨0, ⟨0, ""⟩⟩⟩
    ⟨DetectType.DETECT_FLOWVAR, 1, FlowVarType.FLOWVAR_TYPE_INT, FlowVarData.fv_int 5⟩
    rfl rfl rfl rfl

/-- A target variable the store does not find ends the evaluation. When the
target is a variable name and `FlowVarGet`, which takes the index the registry
gives that name as `uint8_t`, finds no record, `DetectFlowintMatch` returns 0
whatever the operator (Set, Add and Subtract included) and the variable chain
of the flow is unchanged. -/
theorem DetectFlowintMatch_target_not_found (pun : Nat → Nat → Nat) (de_ctx : DetectEngineCtx)
    (flow : Flow) (sfd : DetectFlowintData)
    (hvar : sfd.targettype = FlowintTarget.FLOWINT_TARGET_VAR)
    (habs : FlowVarGet flow
      ((VariableNameGetIdx de_ctx sfd.target.tvar.name DetectType.DETECT_FLOWINT).1 % 65536)
      = none) :
    ∃ st, DetectFlowintMatch pun de_ctx flow sfd = .ok (0, st) ∧ st.flow = flow := by
  unfold DetectFlowintMatch
  rw [if_pos hvar]
  simp only
  rw [habs]
  exact ⟨_, rfl, rfl⟩

/-- A source the store does not find, or finds ByteString-kind, gives no match
and no mutation. For Add, Subtract and the six comparisons, when `FlowVarGet`,
which takes the source index as `uint8_t`, finds no record or a ByteString-kind
record, `DetectFlowintMatch` returns 0 and the variable chain of the flow is
unchanged, whatever the target is. -/
theorem DetectFlowintMatch_source_not_int (pun : Nat → Nat → Nat) (de_ctx : DetectEngineCtx)
    (flow : Flow) (sfd : DetectFlowintData)
    (hop : sfd.modifier ∈ [FlowintModifier.FLOWINT_MODIFIER_ADD,
      FlowintModifier.FLOWINT_MODIFIER_SUB, FlowintModifier.FLOWINT_MODIFIER_EQ,
      FlowintModifier.FLOWINT_MODIFIER_NE, FlowintModifier.FLOWINT_MODIFIER_LT,
      FlowintModifier.FLOWINT_MODIFIER_LE, FlowintModifier.FLOWINT_MODIFIER_GT,
      FlowintModifier.FLOWINT_MODIFIER_GE])
    (hsrc : FlowVarGet flow sfd.idx = none ∨
      ∃ fv, FlowVarGet flow sfd.idx = some fv ∧
        fv.datatype = FlowVarType.FLOWVAR_TYPE_STR) :
    ∃ st, DetectFlowintMatch pun de_ctx flow sfd = .ok (0, st) ∧ st.flow = flow := by
  have hm : sfd.modifier ≠ FlowintModifier.FLOWINT_MODIFIER_SET := by
    intro h
    rw [h] at hop
    revert hop
    decide
  have hsrc1 : FlowVarGet flow sfd.idx = none ∨
      ∃ fv, FlowVarGet flow sfd.idx = some fv ∧
        fv.datatype ≠ FlowVarType.FLOWVAR_TYPE_INT := by
    rcases hsrc with h | ⟨fv, h, hk⟩
    · exact Or.inl h
    · exact Or.inr ⟨fv, h, by rw [hk]; decide⟩
  by_cases hvar : sfd.targettype = FlowintTarget.FLOWINT_TARGET_VAR
  · unfold DetectFlowintMatch
    rw [if_pos hvar]
    simp only
    split
    · exact ⟨_, rfl, rfl⟩
    · exact ⟨_, DetectFlowintMatchOp_no_source pun _ _ flow _ hm hsrc1, rfl⟩
  · rw [DetectFlowintMatch_of_not_var pun de_ctx flow sfd hvar,
      DetectFlowintMatchOp_no_source pun _ _ flow _ hm hsrc1]
    exact ⟨_, rfl, rfl⟩

/-! ## Evaluation: what the result depends on -/

/-- The value returned and the flow left behind. -/
theorem DetectFlowintMatchOp_congr (pun : Nat → Nat → Nat) (targetval : Nat)
    (d1 d2 : DetectEngineCtx) (flow : Flow) (s1 s2 : DetectFlowintData)
    (hm : s1.modifier = s2.modifier) (hi : s1.idx = s2.idx) :
    (DetectFlowintMatchOp pun targetval d1 flow s1).map (fun r => (r.1, r.2.flow)) =
      (DetectFlowintMatchOp pun targetval d2 flow s2).map (fun r => (r.1, r.2.flow)) := by
  unfold DetectFlowintMatchOp
  rw [hm, hi]
  by_cases h1 : s2.modifier = FlowintModifier.FLOWINT_MODIFIER_SET
  · simp only [if_pos h1]
    rfl
  · simp only [if_neg h1]
    cases hg : FlowVarGet flow s2.idx with
    | none => rfl
    | some fv =>
      simp only
      by_cases hk : fv.datatype = FlowVarType.FLOWVAR_TYPE_INT
      · simp only [if_pos hk]
        by_cases h2 : s2.modifier = FlowintModifier.FLOWINT_MODIFIER_ADD
        · simp only [if_pos h2]
          rfl
        · simp only [if_neg h2]
          by_cases h3 : s2.modifier = FlowintModifier.FLOWINT_MODIFIER_SUB
          · simp only [if_pos h3]
            rfl
          · simp only [if_neg h3]
            cases hmod : s2.modifier <;> rfl
      · simp only [if_neg hk]
        rfl

/-- C11, as the code has it: when the target is a variable whose record is
ByteString-kind, `DetectFlowintMatch` does not stop. It reads the union of
that record through `fv_int.value` as the target value, with no look at
`datatype`; for a Set directive it then returns 1 and writes that value to
the source variable, where the claim has 0 and no mutation. -/
theorem c11_str_target_read_as_int (pun : Nat → Nat → Nat) (de_ctx : DetectEngineCtx)
    (flow : Flow) (sfd : DetectFlowintData) (fvt : FlowVar)
    (hop : sfd.modifier = FlowintModifier.FLOWINT_MODIFIER_SET)
    (hvar : sfd.targettype = FlowintTarget.FLOWINT_TARGET_VAR)
    (htgt : FlowVarGet flow
      ((VariableNameGetIdx de_ctx sfd.target.tvar.name DetectType.DETECT_FLOWINT).1 % 65536)
      = some fvt)
    (_hk : fvt.datatype = FlowVarType.FLOWVAR_TYPE_STR) :
    ∃ st, DetectFlowintMatch pun de_ctx flow sfd = .ok (1, st) ∧
      st.flow = FlowVarAddInt flow sfd.idx (fvt.data.fv_int_value pun) := by
  unfold DetectFlowintMatch
  rw [if_pos hvar]
  simp only
  rw [htgt]
  simp only
  unfold DetectFlowintMatchOp
  rw [if_pos hop]
  exact ⟨_, rfl, rfl⟩

/-- The failing input of C11: `strvar` (index 2) is the ByteString-kind record
left by `FlowVarAddStr(f, 2, b, 3)`; `myvar,=,strvar` returns 1 and creates
`myvar` (index 1) with the value the platform reads from the union (here 77). -/
theorem c11_str_target_read_as_int_witness :
    ∃ st,
      DetectFlowintMatch (fun _ _ => 77)
        ⟨[(DetectType.DETECT_FLOWINT, "myvar"), (DetectType.DETECT_FLOWINT, "strvar")]⟩
        (FlowVarAddStr ⟨[]⟩ 2 4096 3)
        ⟨"myvar", 1, FlowintModifier.FLOWINT_MODIFIER_SET, FlowintTarget.FLOWINT_TARGET_VAR,
          ⟨0, ⟨0, "strvar"⟩⟩⟩ = .ok (1, st) ∧
      st.flow = FlowVarAddInt (FlowVarAddStr ⟨[]⟩ 2 4096 3) 1 77 :=
  c11_str_target_read_as_int (fun _ _ => 77)
    ⟨[(DetectType.DETECT_FLOWINT, "myvar"), (DetectType.DETECT_FLOWINT, "strvar")]⟩
    (FlowVarAddStr ⟨[]⟩ 2 4096 3)
    ⟨"myvar", 1, FlowintModifier.FLOWINT_MODIFIER_SET, FlowintTarget.FLOWINT_TARGET_VAR,
      ⟨0, ⟨0, "strvar"⟩⟩⟩
    ⟨DetectType.DETECT_FLOWVAR, 2, FlowVarType.FLOWVAR_TYPE_STR, FlowVarData.fv_str 4096 3⟩
    rfl rfl (by decide) rfl

/-- C12: a variable target contributes its current stored value. When the
target is a variable whose record is Integer-kind with value `t`, the
directive gives what the same directive with the literal `t` as target gives
on that flow: the same value returned and the same flow left behind (or, for
both, the same exit), whatever the operator. -/
theorem c12_var_target_as_literal (pun : Nat → Nat → Nat) (de_ctx : DetectEngineCtx)
    (flow : Flow) (sfd : DetectFlowintData) (fvt : FlowVar) (t : Nat)
    (hvar : sfd.targettype = FlowintTarget.FLOWINT_TARGET_VAR)
    (htgt : FlowVarGet flow
      ((VariableNameGetIdx de_ctx sfd.target.tvar.name DetectType.DETECT_FLOWINT).1 % 65536)
      = some fvt)
    (_hk : fvt.datatype = FlowVarType.FLOWVAR_TYPE_INT)
    (ht : fvt.data.fv_int_value pun = t) :
    (DetectFlowintMatch pun de_ctx flow sfd).map (fun r => (r.1, r.2.flow)) =
      (DetectFlowintMatch pun de_ctx flow
        { sfd with targettype := FlowintTarget.FLOWINT_TARGET_VAL
                   target := { sfd.target with value := t } }).map
        (fun r => (r.1, r.2.flow)) := by
  rw [DetectFlowintMatch_of_not_var pun de_ctx flow
    { sfd with targettype := FlowintTarget.FLOWINT_TARGET_VAL
               target := { sfd.target with value := t } }
    (fun h => FlowintTarget.noConfusion h)]
  unfold DetectFlowintMatch
  rw [if_pos hvar]
  simp only
  rw [htgt]
  simp only
  rw [ht]
  exact DetectFlowintMatchOp_congr pun t _ _ flow _ _ rfl rfl

/-- Witness of C12: with `cntpackets` at 5 and `maxvar` at 6,
`cntpackets,==,maxvar` and `cntpackets,==,6` both return 0 on the unchanged
flow. -/
theorem c12_var_target_as_literal_witness :
    (DetectFlowintMatch (fun _ _ => 0)
        ⟨[(DetectType.DETECT_FLOWINT, "myvar"), (DetectType.DETECT_FLOWINT, "maxvar"),
          (DetectType.DETECT_FLOWINT, "cntpackets")]⟩
        ⟨[⟨DetectType.DETECT_FLOWVAR, 2, FlowVarType.FLOWVAR_TYPE_INT, FlowVarData.fv_int 6⟩,
          ⟨DetectType.DETECT_FLOWVAR, 3, FlowVarType.FLOWVAR_TYPE_INT, FlowVarData.fv_int 5⟩]⟩
        ⟨"cntpackets", 3, FlowintModifier.FLOWINT_MODIFIER_EQ, FlowintTarget.FLOWINT_TARGET_VAR,
          ⟨0, ⟨0, "maxvar"⟩⟩⟩).map (fun r => (r.1, r.2.flow)) =
      (DetectFlowintMatch (fun _ _ => 0)
        ⟨[(DetectType.DETECT_FLOWINT, "myvar"), (DetectType.DETECT_FLOWINT, "maxvar"),
          (DetectType.DETECT_FLOWINT, "cntpackets")]⟩
        ⟨[⟨DetectType.DETECT_FLOWVAR, 2, FlowVarType.FLOWVAR_TYPE_INT, FlowVarData.fv_int 6⟩,
          ⟨DetectType.DETECT_FLOWVAR, 3, FlowVarType.FLOWVAR_TYPE_INT, FlowVarData.fv_int 5⟩]⟩
        ⟨"cntpackets", 3, FlowintModifier.FLOWINT_MODIFIER_EQ, FlowintTarget.FLOWINT_TARGET_VAL,
          ⟨6, ⟨0, "maxvar"⟩⟩⟩).map (fun r => (r.1, r.2.flow)) :=
  c12_var_target_as_literal (fun _ _ => 0)
    ⟨[(DetectType.DETECT_FLOWINT, "myvar"), (DetectType.DETECT_FLOWINT, "maxvar"),
      (DetectType.DETECT_FLOWINT, "cntpackets")]⟩
    ⟨[⟨DetectType.DETECT_FLOWVAR, 2, FlowVarType.FLOWVAR_TYPE_INT, FlowVarData.fv_int 6⟩,
      ⟨DetectType.DETECT_FLOWVAR, 3, FlowVarType.FLOWVAR_TYPE_INT, FlowVarData.fv_int 5⟩]⟩
    ⟨"cntpackets", 3, FlowintModifier.FLOWINT_MODIFIER_EQ, FlowintTarget.FLOWINT_TARGET_VAR,
      ⟨0, ⟨0, "maxvar"⟩⟩⟩
    ⟨DetectType.DETECT_FLOWVAR, 2, FlowVarType.FLOWVAR_TYPE_INT, FlowVarData.fv_int 6⟩
    6 rfl (by decide) rfl rfl

theorem DetectFlowintMatchOp_add (pun : Nat → Nat → Nat) (targetval : Nat)
    (de_ctx : DetectEngineCtx) (flow : Flow) (sfd : DetectFlowintData) (fv : FlowVar)
    (hm : sfd.modifier = FlowintModifier.FLOWINT_MODIFIER_ADD)
    (hsrc : FlowVarGet flow sfd.idx = some fv)
    (hk : fv.datatype = FlowVarType.FLOWVAR_TYPE_INT) :
    DetectFlowintMatchOp pun targetval de_ctx flow sfd =
      .ok (1, ⟨de_ctx,
        FlowVarAddInt flow sfd.idx (uint32_add (fv.data.fv_int_value pun) targetval), sfd⟩) := by
  unfold DetectFlowintMatchOp
  simp [hm, hsrc, hk]

theorem DetectFlowintMatchOp_set (pun : Nat → Nat → Nat) (targetval : Nat)
    (de_ctx : DetectEngineCtx) (flow : Flow) (sfd : DetectFlowintData)
    (hm : sfd.modifier = FlowintModifier.FLOWINT_MODIFIER_SET) :
    DetectFlowintMatchOp pun targetval de_ctx flow sfd =
      .ok (1, ⟨de_ctx, FlowVarAddInt flow sfd.idx targetval, sfd⟩) := by
  unfold DetectFlowintMatchOp
  rw [if_pos hm]

/-- C14: Set then Add on a fresh counter. On an empty flow, `c = a` followed
by `c += b` (literals below 2^32, the same source index) returns 1 both times
and leaves at that index an Integer-kind record with value
`(a + b) mod 2^32`. -/
theorem c14_set_then_add (pun : Nat → Nat → Nat) (de_ctx : DetectEngineCtx)
    (sset sadd : DetectFlowintData) (a b : Nat)
    (ha : a < 4294967296) (_hb : b < 4294967296)
    (hs1 : sset.modifier = FlowintModifier.FLOWINT_MODIFIER_SET)
    (hs2 : sset.targettype = FlowintTarget.FLOWINT_TARGET_VAL)
    (hs3 : sset.target.value = a)
    (ha1 : sadd.modifier = FlowintModifier.FLOWINT_MODIFIER_ADD)
    (ha2 : sadd.targettype = FlowintTarget.FLOWINT_TARGET_VAL)
    (ha3 : sadd.target.value = b)
    (hidx : sadd.idx = sset.idx) :
    ∃ st1 st2 fv,
      DetectFlowintMatch pun de_ctx ⟨[]⟩ sset = .ok (1, st1) ∧
      DetectFlowintMatch pun st1.de_ctx st1.flow sadd = .ok (1, st2) ∧
      FlowVarGet st2.flow sset.idx = some fv ∧
      fv.datatype = FlowVarType.FLOWVAR_TYPE_INT ∧
      fv.data.fv_int_value pun = (a + b) % 4294967296 := by
  have hget0 : FlowVarGet ⟨[]⟩ sset.idx = none := rfl
  have hget1 := FlowVarGet_AddInt_of_none ⟨[]⟩ sset.idx a hget0
  rw [Nat.mod_eq_of_lt ha] at hget1
  refine ⟨⟨de_ctx, FlowVarAddInt ⟨[]⟩ sset.idx a, sset⟩,
    ⟨de_ctx, FlowVarAddInt (FlowVarAddInt ⟨[]⟩ sset.idx a) sset.idx (uint32_add a b), sadd⟩,
    _, ?_, ?_, FlowVarGet_AddInt_of_some _ sset.idx _ _ hget1, rfl, ?_⟩
  · rw [DetectFlowintMatch_of_not_var pun de_ctx _ sset (by rw [hs2]; decide),
      DetectFlowintMatchOp_set pun _ de_ctx _ sset hs1, hs3]
  · rw [DetectFlowintMatch_of_not_var pun de_ctx _ sadd (by rw [ha2]; decide),
      DetectFlowintMatchOp_add pun _ de_ctx _ sadd _ ha1 (by rw [hidx]; exact hget1) rfl,
      ha3, hidx]
    rfl
  · simp [FlowVarData.fv_int_value, uint32_add]

/-- Witness of C14: `c = 1` then `c += 2` on an empty flow leaves 3. -/
theorem c14_set_then_add_witness :
    ∃ st1 st2 fv,
      DetectFlowintMatch (fun _ _ => 0) ⟨[(DetectType.DETECT_FLOWINT, "cc")]⟩ ⟨[]⟩
        ⟨"cc", 1, FlowintModifier.FLOWINT_MODIFIER_SET, FlowintTarget.FLOWINT_TARGET_VAL,
          ⟨1, ⟨0, ""⟩⟩⟩ = .ok (1, st1) ∧
      DetectFlowintMatch (fun _ _ => 0) st1.de_ctx st1.flow
        ⟨"cc", 1, FlowintModifier.FLOWINT_MODIFIER_ADD, FlowintTarget.FLOWINT_TARGET_VAL,
          ⟨2, ⟨0, ""⟩⟩⟩ = .ok (1, st2) ∧
      FlowVarGet st2.flow 1 = some fv ∧
      fv.datatype = FlowVarType.FLOWVAR_TYPE_INT ∧
      fv.data.fv_int_value (fun _ _ => 0) = 3 :=
  c14_set_then_add (fun _ _ => 0) ⟨[(DetectType.DETECT_FLOWINT, "cc")]⟩
    ⟨"cc", 1, FlowintModifier.FLOWINT_MODIFIER_SET, FlowintTarget.FLOWINT_TARGET_VAL,
      ⟨1, ⟨0, ""⟩⟩⟩
    ⟨"cc", 1, FlowintModifier.FLOWINT_MODIFIER_ADD, FlowintTarget.FLOWINT_TARGET_VAL,
      ⟨2, ⟨0, ""⟩⟩⟩
    1 2 (by decide) (by decide) rfl rfl rfl rfl rfl rfl rfl

/-! ## The chain: one record per index -/

theorem FlowVarGetLoop_none_spec (idx : Nat) (l : List GenericVar)
    (h : FlowVarGetLoop idx l = none) :
    ∀ gv ∈ l, ¬ (gv.type = DetectType.DETECT_FLOWVAR ∧ gv.idx = idx) := by
  induction l with
  | nil => intro gv hgv; cases hgv
  | cons a next ih =>
    unfold FlowVarGetLoop at h
    split at h
    · cases h
    · rename_i hc
      intro gv hgv
      rcases List.mem_cons.mp hgv with rfl | hin
      · exact hc
      · exact ih h gv hin

theorem FlowVarGetLoop_of_mem (idx : Nat) (l : List GenericVar) (gv : GenericVar)
    (hin : gv ∈ l) (ht : gv.type = DetectType.DETECT_FLOWVAR) (hi : gv.idx = idx) :
    ∃ fv, FlowVarGetLoop idx l = some fv := by
  cases h : FlowVarGetLoop idx l with
  | some fv => exact ⟨fv, rfl⟩
  | none => exact absurd ⟨ht, hi⟩ (FlowVarGetLoop_none_spec idx l h gv hin)

theorem FlowVarWrite_map_idx (idx : Nat) (upd : FlowVar → FlowVar)
    (hupd : ∀ x : FlowVar, (upd x).type = x.type ∧ (upd x).idx = x.idx)
    (l : List GenericVar) :
    (FlowVarWrite idx upd l).map (fun gv => gv.idx) = l.map (fun gv => gv.idx) ∧
    ((∀ gv ∈ l, gv.type = DetectType.DETECT_FLOWVAR) →
      ∀ gv ∈ FlowVarWrite idx upd l, gv.type = DetectType.DETECT_FLOWVAR) := by
  induction l with
  | nil => exact ⟨rfl, fun _ gv hgv => by cases hgv⟩
  | cons a next ih =>
    unfold FlowVarWrite
    split
    · refine ⟨by simp [(hupd a).2], ?_⟩
      intro hall gv hgv
      rcases List.mem_cons.mp hgv with rfl | hin
      · rw [(hupd a).1]; exact hall a (List.mem_cons_self _ _)
      · exact hall gv (List.mem_cons_of_mem _ hin)
    · refine ⟨by simp [ih.1], ?_⟩
      intro hall gv hgv
      rcases List.mem_cons.mp hgv with rfl | hin
      · exact hall _ (List.mem_cons_self _ _)
      · exact ih.2 (fun g hg => hall g (List.mem_cons_of_mem _ hg)) gv hin

/-- The invariant of the chain: every record is a flow variable and no index
occurs twice. -/
theorem FlowVarCall_run_invariant (f : Flow) (c : FlowVarCall)
    (hty : ∀ gv ∈ f.flowvar, gv.type = DetectType.DETECT_FLOWVAR)
    (hnd : (f.flowvar.map (fun gv => gv.idx)).Nodup) :
    (∀ gv ∈ (c.run f).flowvar, gv.type = DetectType.DETECT_FLOWVAR) ∧
    ((c.run f).flowvar.map (fun gv => gv.idx)).Nodup := by
  have fresh : ∀ idx : Nat, FlowVarGet f (idx % 256) = none →
      idx % 256 ∉ f.flowvar.map (fun gv => gv.idx) := by
    intro idx hnone hmem
    obtain ⟨gv, hgv, hi⟩ := List.mem_map.mp hmem
    unfold FlowVarGet at hnone
    rw [Nat.mod_mod] at hnone
    exact FlowVarGetLoop_none_spec _ _ hnone gv hgv ⟨hty gv hgv, hi⟩
  cases c with
  | AddInt idx value =>
    simp only [FlowVarCall.run]
    unfold FlowVarAddInt
    cases hg : FlowVarGet f (idx % 256) with
    | none =>
      simp only [GenericVarAppend]
      refine ⟨?_, ?_⟩
      · intro gv hgv
        rcases List.mem_append.mp hgv with h | h
        · exact hty gv h
        · rw [List.mem_singleton.mp h]
      · rw [List.map_append]
        exact List.Nodup.append hnd (List.nodup_singleton _)
          (by
            intro x hx hx2
            rw [List.map_singleton, List.mem_singleton] at hx2
            have hx3 : x = idx % 256 := hx2
            rw [hx3] at hx
            exact fresh idx hg hx)
    | some fv =>
      simp only
      have hw := FlowVarWrite_map_idx (idx % 256)
        (fun x => FlowVarUpdateInt x (value % 4294967296)) (fun x => ⟨rfl, rfl⟩) f.flowvar
      exact ⟨hw.2 hty, by rw [hw.1]; exact hnd⟩
  | AddStr idx value size =>
    simp only [FlowVarCall.run]
    unfold FlowVarAddStr
    cases hg : FlowVarGet f (idx % 256) with
    | none =>
      simp only [GenericVarAppend]
      refine ⟨?_, ?_⟩
      · intro gv hgv
        rcases List.mem_append.mp hgv with h | h
        · exact hty gv h
        · rw [List.mem_singleton.mp h]
      · rw [List.map_append]
        exact List.Nodup.append hnd (List.nodup_singleton _)
          (by
            intro x hx hx2
            rw [List.map_singleton, List.mem_singleton] at hx2
            have hx3 : x = idx % 256 := hx2
            rw [hx3] at hx
            exact fresh idx hg hx)
    | some fv =>
      simp only
      have hw := FlowVarWrite_map_idx (idx % 256)
        (fun x => FlowVarUpdateStr x value (size % 65536)) (fun x => ⟨rfl, rfl⟩) f.flowvar
      exact ⟨hw.2 hty, by rw [hw.1]; exact hnd⟩

theorem FlowVarCall_foldl_invariant (calls : List FlowVarCall) (f : Flow)
    (hty : ∀ gv ∈ f.flowvar, gv.type = DetectType.DETECT_FLOWVAR)
    (hnd : (f.flowvar.map (fun gv => gv.idx)).Nodup) :
    (∀ gv ∈ (calls.foldl FlowVarCall.run f).flowvar, gv.type = DetectType.DETECT_FLOWVAR) ∧
    ((calls.foldl FlowVarCall.run f).flowvar.map (fun gv => gv.idx)).Nodup := by
  induction calls generalizing f with
  | nil => exact ⟨hty, hnd⟩
  | cons c rest ih =>
    have h := FlowVarCall_run_invariant f c hty hnd
    exact ih (c.run f) h.1 h.2

/-- C15: at most one record per index. Starting from an empty flow, after any
finite sequence of `FlowVarAddInt` and `FlowVarAddStr` calls, with arbitrary
indices and values, no two records of the chain have the same index. -/
theorem c15_one_record_per_index (calls : List FlowVarCall) :
    (calls.foldl FlowVarCall.run ⟨[]⟩).flowvar.Pairwise (fun a b => a.idx ≠ b.idx) := by
  have h := (FlowVarCall_foldl_invariant calls ⟨[]⟩ (fun gv hgv => by cases hgv)
    List.nodup_nil).2
  exact List.pairwise_map.mp h

/-- C16: get is an exact lookup. For every flow and every index of type
`uint8_t`, `FlowVarGet` returns a record exactly when the chain holds a record
of type `DETECT_FLOWVAR` with that index; the record returned is one of the
chain and carries that index; on the empty chain nothing is returned. (The
function only reads: in the model it has the flow as argument and no flow as
result.) -/
theorem c16_get_exact (f : Flow) (idx : Nat) (hidx : idx < 256) :
    ((∃ fv, FlowVarGet f idx = some fv) ↔
      ∃ gv ∈ f.flowvar, gv.type = DetectType.DETECT_FLOWVAR ∧ gv.idx = idx) ∧
    (∀ fv, FlowVarGet f idx = some fv →
      fv ∈ f.flowvar ∧ fv.type = DetectType.DETECT_FLOWVAR ∧ fv.idx = idx) ∧
    FlowVarGet ⟨[]⟩ idx = none := by
  have hmod : idx % 256 = idx := Nat.mod_eq_of_lt hidx
  unfold FlowVarGet
  rw [hmod]
  refine ⟨⟨?_, ?_⟩, ?_, rfl⟩
  · rintro ⟨fv, h⟩
    obtain ⟨h1, h2, h3⟩ := FlowVarGetLoop_some_spec idx f.flowvar fv h
    exact ⟨fv, h1, h2, h3⟩
  · rintro ⟨gv, hin, ht, hi⟩
    exact FlowVarGetLoop_of_mem idx f.flowvar gv hin ht hi
  · intro fv h
    exact FlowVarGetLoop_some_spec idx f.flowvar fv h

/-- Witness of C16: in a chain with a flowbit-like record at index 2 and flow
variables at 2 and 3, the lookup of 2 finds the flow variable. -/
theorem c16_get_exact_witness :
    ((∃ fv, FlowVarGet
        ⟨[⟨DetectType.other 0, 2, FlowVarType.FLOWVAR_TYPE_INT, FlowVarData.fv_int 0⟩,
          ⟨DetectType.DETECT_FLOWVAR, 2, FlowVarType.FLOWVAR_TYPE_INT, FlowVarData.fv_int 6⟩,
          ⟨DetectType.DETECT_FLOWVAR, 3, FlowVarType.FLOWVAR_TYPE_STR,
            FlowVarData.fv_str 4096 3⟩]⟩ 2 = some fv) ↔
      ∃ gv ∈ (⟨[⟨DetectType.other 0, 2, FlowVarType.FLOWVAR_TYPE_INT, FlowVarData.fv_int 0⟩,
          ⟨DetectType.DETECT_FLOWVAR, 2, FlowVarType.FLOWVAR_TYPE_INT, FlowVarData.fv_int 6⟩,
          ⟨DetectType.DETECT_FLOWVAR, 3, FlowVarType.FLOWVAR_TYPE_STR,
            FlowVarData.fv_str 4096 3⟩]⟩ : Flow).flowvar,
        gv.type = DetectType.DETECT_FLOWVAR ∧ gv.idx = 2) ∧
    (∀ fv, FlowVarGet
        ⟨[⟨DetectType.other 0, 2, FlowVarType.FLOWVAR_TYPE_INT, FlowVarData.fv_int 0⟩,
          ⟨DetectType.DETECT_FLOWVAR, 2, FlowVarType.FLOWVAR_TYPE_INT, FlowVarData.fv_int 6⟩,
          ⟨DetectType.DETECT_FLOWVAR, 3, FlowVarType.FLOWVAR_TYPE_STR,
            FlowVarData.fv_str 4096 3⟩]⟩ 2 = some fv →
      fv ∈ (⟨[⟨DetectType.other 0, 2, FlowVarType.FLOWVAR_TYPE_INT, FlowVarData.fv_int 0⟩,
          ⟨DetectType.DETECT_FLOWVAR, 2, FlowVarType.FLOWVAR_TYPE_INT, FlowVarData.fv_int 6⟩,
          ⟨DetectType.DETECT_FLOWVAR, 3, FlowVarType.FLOWVAR_TYPE_STR,
            FlowVarData.fv_str 4096 3⟩]⟩ : Flow).flowvar ∧
      fv.type = DetectType.DETECT_FLOWVAR ∧ fv.idx = 2) ∧
    FlowVarGet ⟨[]⟩ 2 = none :=
  c16_get_exact
    ⟨[⟨DetectType.other 0, 2, FlowVarType.FLOWVAR_TYPE_INT, FlowVarData.fv_int 0⟩,
      ⟨DetectType.DETECT_FLOWVAR, 2, FlowVarType.FLOWVAR_TYPE_INT, FlowVarData.fv_int 6⟩,
      ⟨DetectType.DETECT_FLOWVAR, 3, FlowVarType.FLOWVAR_TYPE_STR, FlowVarData.fv_str 4096 3⟩]⟩
    2 (by decide)

set_option maxRecDepth 100000 in
set_option maxHeartbeats 4000000 in
/-- C13, as the code has it. With `myvar`, `maxvar`, `cntpackets` at the
indices 1, 2, 3 the scenario runs as claimed: every step returns 1, `myvar`
ends at 3 and `cntpackets` at 6 = `maxvar`. With `maxvar` at index 257 (the
registry's index for the 257th name, distinct from 1 as a 16-bit value) the
store, which takes its index as `uint8_t`, finds `myvar`'s record for it:
`maxvar,=,6` overwrites `myvar`, the Add makes it 8 and `myvar,==,3` returns 0. -/
theorem c13_scenario_index_collision (pun : Nat → Nat → Nat) :
    DetectFlowintMatchSeq pun
      ⟨[(DetectType.DETECT_FLOWINT, "myvar"), (DetectType.DETECT_FLOWINT, "maxvar"),
        (DetectType.DETECT_FLOWINT, "cntpackets")]⟩ ⟨[]⟩
      ([⟨"myvar", 1, FlowintModifier.FLOWINT_MODIFIER_SET, FlowintTarget.FLOWINT_TARGET_VAL,
          ⟨1, ⟨0, ""⟩⟩⟩,
        ⟨"maxvar", 2, FlowintModifier.FLOWINT_MODIFIER_SET, FlowintTarget.FLOWINT_TARGET_VAL,
          ⟨6, ⟨0, ""⟩⟩⟩,
        ⟨"myvar", 1, FlowintModifier.FLOWINT_MODIFIER_ADD, FlowintTarget.FLOWINT_TARGET_VAL,
          ⟨2, ⟨0, ""⟩⟩⟩,
        ⟨"myvar", 1, FlowintModifier.FLOWINT_MODIFIER_EQ, FlowintTarget.FLOWINT_TARGET_VAL,
          ⟨3, ⟨0, ""⟩⟩⟩,
        ⟨"cntpackets", 3, FlowintModifier.FLOWINT_MODIFIER_SET, FlowintTarget.FLOWINT_TARGET_VAL,
          ⟨0, ⟨0, ""⟩⟩⟩] ++
        List.replicate 6
          ⟨"cntpackets", 3, FlowintModifier.FLOWINT_MODIFIER_ADD,
            FlowintTarget.FLOWINT_TARGET_VAL, ⟨1, ⟨0, ""⟩⟩⟩ ++
        [⟨"cntpackets", 3, FlowintModifier.FLOWINT_MODIFIER_EQ, FlowintTarget.FLOWINT_TARGET_VAR,
          ⟨0, ⟨0, "maxvar"⟩⟩⟩]) =
      .ok ([1, 1, 1, 1, 1, 1, 1, 1, 1, 1, 1, 1],
        ⟨[(DetectType.DETECT_FLOWINT, "myvar"), (DetectType.DETECT_FLOWINT, "maxvar"),
          (DetectType.DETECT_FLOWINT, "cntpackets")]⟩,
        ⟨[⟨DetectType.DETECT_FLOWVAR, 1, FlowVarType.FLOWVAR_TYPE_INT, FlowVarData.fv_int 3⟩,
          ⟨DetectType.DETECT_FLOWVAR, 2, FlowVarType.FLOWVAR_TYPE_INT, FlowVarData.fv_int 6⟩,
          ⟨DetectType.DETECT_FLOWVAR, 3, FlowVarType.FLOWVAR_TYPE_INT, FlowVarData.fv_int 6⟩]⟩) ∧
    (VariableNameGetIdx
      ⟨(DetectType.DETECT_FLOWINT, "myvar") ::
        ((List.range 255).map (fun i => (DetectType.other i, "pad")) ++
          [(DetectType.DETECT_FLOWINT, "maxvar"), (DetectType.DETECT_FLOWINT, "cntpackets")])⟩
      "maxvar" DetectType.DETECT_FLOWINT).1 = 257 ∧
    DetectFlowintMatchSeq pun
      ⟨(DetectType.DETECT_FLOWINT, "myvar") ::
        ((List.range 255).map (fun i => (DetectType.other i, "pad")) ++
          [(DetectType.DETECT_FLOWINT, "maxvar"), (DetectType.DETECT_FLOWINT, "cntpackets")])⟩
      ⟨[]⟩
      [⟨"myvar", 1, FlowintModifier.FLOWINT_MODIFIER_SET, FlowintTarget.FLOWINT_TARGET_VAL,
          ⟨1, ⟨0, ""⟩⟩⟩,
        ⟨"maxvar", 257, FlowintModifier.FLOWINT_MODIFIER_SET, FlowintTarget.FLOWINT_TARGET_VAL,
          ⟨6, ⟨0, ""⟩⟩⟩,
        ⟨"myvar", 1, FlowintModifier.FLOWINT_MODIFIER_ADD, FlowintTarget.FLOWINT_TARGET_VAL,
          ⟨2, ⟨0, ""⟩⟩⟩,
        ⟨"myvar", 1, FlowintModifier.FLOWINT_MODIFIER_EQ, FlowintTarget.FLOWINT_TARGET_VAL,
          ⟨3, ⟨0, ""⟩⟩⟩] =
      .ok ([1, 1, 1, 0],
        ⟨(DetectType.DETECT_FLOWINT, "myvar") ::
          ((List.range 255).map (fun i => (DetectType.other i, "pad")) ++
            [(DetectType.DETECT_FLOWINT, "maxvar"), (DetectType.DETECT_FLOWINT, "cntpackets")])⟩,
        ⟨[⟨DetectType.DETECT_FLOWVAR, 1, FlowVarType.FLOWVAR_TYPE_INT,
          FlowVarData.fv_int 8⟩]⟩) := by
  refine ⟨?_, ?_, ?_⟩
  · rfl
  · rfl
  · rfl

/-! ## The pattern: matching lemmas -/

theorem RegexState.advance_zero (st : RegexState) : st.advance 0 = st := rfl

theorem Regex.leads_seq {a b : Regex} {st x y : RegexState}
    (h1 : a.Leads st x) (h2 : b.Leads x y) : (Regex.seq a b).Leads st y := by
  obtain ⟨T1, h1⟩ := h1
  obtain ⟨T2, h2⟩ := h2
  refine ⟨T2 ++ T1.flatMap (fun s => b.run s), ?_⟩
  simp [Regex.run, h1, h2]

theorem Regex.run_seq_single {a b : Regex} {st x : RegexState}
    (h1 : a.run st = [x]) : (Regex.seq a b).run st = b.run x := by
  simp [Regex.run, h1]

theorem Regex.run_seq_nil {a b : Regex} {st : RegexState}
    (h1 : a.run st = []) : (Regex.seq a b).run st = [] := by
  simp [Regex.run, h1]

theorem Regex.leads_cap {r : Regex} {st x : RegexState} (n : Nat)
    (h : r.Leads st x) :
    (Regex.cap n r).Leads st { x with caps := (n, st.rest.take (x.pos - st.pos)) :: x.caps } := by
  obtain ⟨T, h⟩ := h
  refine ⟨T.map (fun st1 =>
    { st1 with caps := (n, st.rest.take (st1.pos - st.pos)) :: st1.caps }), ?_⟩
  simp only [Regex.run, h, List.map_cons]

theorem Regex.leads_opt {r : Regex} {st y : RegexState} (h : r.Leads st y) :
    (Regex.opt r).Leads st y := by
  obtain ⟨T, h⟩ := h
  exact ⟨T ++ [st], by simp [Regex.run, h]⟩

theorem Regex.run_opt_nil {r : Regex} {st : RegexState} (h : r.run st = []) :
    (Regex.opt r).run st = [st] := by
  simp [Regex.run, h]

theorem Regex.leads_alt_left {a b : Regex} {st y : RegexState} (h : a.Leads st y) :
    (Regex.alt a b).Leads st y := by
  obtain ⟨T, h⟩ := h
  exact ⟨T ++ b.run st, by simp [Regex.run, h]⟩

theorem Regex.run_alt_nil_left {a b : Regex} {st : RegexState} (h : a.run st = []) :
    (Regex.alt a b).run st = b.run st := by
  simp [Regex.run, h]

theorem Regex.run_cls_stop (p : Char → Bool) (max : Option Nat) (st : RegexState)
    (h : st.rest.takeWhile p = []) : (Regex.cls p 0 max).run st = [st] := by
  cases max <;> simp [Regex.run, h, RegexState.advance]

theorem Regex.run_cls_one_nil (p : Char → Bool) (max : Option Nat) (st : RegexState)
    (h : st.rest.takeWhile p = []) : (Regex.cls p 1 max).run st = [] := by
  cases max <;> simp [Regex.run, h]

theorem Regex.leads_cls (p : Char → Bool) (min : Nat) (max : Option Nat) (st : RegexState)
    (xs ys : List Char) (hr : st.rest = xs ++ ys) (htw : (xs ++ ys).takeWhile p = xs)
    (hmin : min ≤ xs.length) (hmax : ∀ m, max = some m → xs.length ≤ m) :
    (Regex.cls p min max).Leads st ⟨st.pos + xs.length, ys, st.caps⟩ := by
  have hk : xs.length + 1 - min = (xs.length - min) + 1 := by omega
  have hadv : st.advance xs.length = ⟨st.pos + xs.length, ys, st.caps⟩ := by
    simp [RegexState.advance, hr]
  unfold Regex.Leads
  cases max with
  | none =>
    simp only [Regex.run, hr, htw]
    rw [hk, List.range_succ_eq_map, List.map_cons, Nat.sub_zero, hadv]
    exact ⟨_, rfl⟩
  | some m =>
    have hm : Nat.min xs.length m = xs.length := Nat.min_eq_left (hmax m rfl)
    simp only [Regex.run, hr, htw, hm]
    rw [hk, List.range_succ_eq_map, List.map_cons, Nat.sub_zero, hadv]
    exact ⟨_, rfl⟩
theorem char_digit_not_alpha (c : Char) (h : c.isDigit = true) : c.isAlpha = false := by
  simp only [Char.isDigit, Char.isAlpha, Char.isUpper, Char.isLower, Bool.and_eq_true,
    Bool.or_eq_false_iff, Bool.and_eq_false_iff, decide_eq_true_eq, decide_eq_false_iff_not,
    ge_iff_le, UInt32.le_def, BitVec.le_def] at h ⊢
  have h1 : (UInt32.toBitVec 48).toNat = 48 := rfl
  have h2 : (UInt32.toBitVec 57).toNat = 57 := rfl
  have h3 : (UInt32.toBitVec 65).toNat = 65 := rfl
  have h4 : (UInt32.toBitVec 97).toNat = 97 := rfl
  rw [h1, h2] at h
  rw [h3, h4]
  omega

theorem char_alpha_not_space (c : Char) (h : c.isAlpha = true) : pcre_space c = false := by
  cases hs : pcre_space c with
  | false => rfl
  | true =>
    simp only [pcre_space, Bool.or_eq_true, beq_iff_eq] at hs
    rcases hs with (((hs | hs) | hs) | hs) | hs <;> subst hs <;> exact absurd h (by decide)

theorem char_digit_not_space (c : Char) (h : c.isDigit = true) : pcre_space c = false := by
  cases hs : pcre_space c with
  | false => rfl
  | true =>
    simp only [pcre_space, Bool.or_eq_true, beq_iff_eq] at hs
    rcases hs with (((hs | hs) | hs) | hs) | hs <;> subst hs <;> exact absurd h (by decide)

theorem char_alpha_ne_quote (c : Char) (h : c.isAlpha = true) : c ≠ '\"' := by
  intro hc; subst hc; exact absurd h (by decide)

theorem char_digit_ne_quote (c : Char) (h : c.isDigit = true) : c ≠ '\"' := by
  intro hc; subst hc; exact absurd h (by decide)
theorem takeWhile_append_stop {α : Type} (p : α → Bool) (xs ys : List α)
    (hx : ∀ x ∈ xs, p x = true) (hy : ys.takeWhile p = []) :
    (xs ++ ys).takeWhile p = xs := by
  rw [List.takeWhile_append_of_pos hx, hy, List.append_nil]

theorem Regex.leads_of_run {r : Regex} {st x : RegexState} (h : r.run st = [x]) :
    r.Leads st x := ⟨[], h⟩

theorem Regex.run_cls_one (p : Char → Bool) (st : RegexState) (c : Char) (tl : List Char)
    (hr : st.rest = c :: tl) (hp : p c = true) :
    (Regex.cls p 1 (some 1)).run st = [⟨st.pos + 1, tl, st.caps⟩] := by
  have h1 : Nat.min ((List.takeWhile p tl).length + 1) 1 = 1 := Nat.min_eq_right (by omega)
  have h2 : List.range 1 = [0] := rfl
  simp [Regex.run, hr, List.takeWhile, hp, h1, h2, RegexState.advance]

theorem Regex.run_lit_cons (s : List Char) (st : RegexState) (tl : List Char)
    (hr : st.rest = s ++ tl) :
    (Regex.lit s).run st = [⟨st.pos + s.length, tl, st.caps⟩] := by
  simp [Regex.run, hr, RegexState.advance]

theorem range_one_eq : List.range 1 = [0] := rfl

theorem GrammarName_spec (s : List Char) (h : GrammarName s = true) :
    ∃ c cs, s = c :: cs ∧ c.isAlpha = true ∧ cs ≠ [] ∧ ∀ d ∈ cs, pcre_word d = true := by
  match s, h with
  | c :: d :: ds, h =>
    simp only [GrammarName, Bool.and_eq_true, List.all_eq_true] at h
    exact ⟨c, d :: ds, rfl, h.1, List.cons_ne_nil _ _, fun x hx => h.2 x hx⟩

theorem GrammarLiteral_spec (s : List Char) (h : GrammarLiteral s = true) :
    s ≠ [] ∧ s.length ≤ 10 ∧ ∀ d ∈ s, d.isDigit = true := by
  simp only [GrammarLiteral, Bool.and_eq_true, List.all_eq_true, decide_eq_true_eq,
    Bool.not_eq_true', List.isEmpty_eq_false] at h
  exact ⟨h.1.1, h.1.2, h.2⟩

theorem Regex.run_cap_nil {r : Regex} {st : RegexState} (n : Nat) (h : r.run st = []) :
    (Regex.cap n r).run st = [] := by
  simp only [Regex.run, h, List.map_nil]

theorem PARSE_REGEX_TARGET_nil (st : RegexState) (h : st.rest = []) :
    PARSE_REGEX_TARGET.run st = [] := by
  simp [PARSE_REGEX_TARGET, Regex.run, h]

theorem PARSE_REGEX_TARGET_fail (st : RegexState) (c : Char) (tl : List Char)
    (hr : st.rest = c :: tl) (h3 : c.isAlpha = false) (h4 : c.isDigit = false) :
    PARSE_REGEX_TARGET.run st = [] := by
  simp [PARSE_REGEX_TARGET, Regex.run, hr, List.takeWhile, h3, h4]

theorem PARSE_REGEX_TAIL_fail (st : RegexState) (c : Char) (tl : List Char)
    (hr : st.rest = c :: tl) (h1 : pcre_space c = false) (h2 : c ≠ ',')
    (h3 : c.isAlpha = false) (h4 : c.isDigit = false) :
    PARSE_REGEX_TAIL.run st = [] := by
  have hws : (Regex.cls pcre_space 0 none).run st = [st] :=
    Regex.run_cls_stop _ _ _ (by rw [hr]; simp [List.takeWhile, h1])
  have hcomma : (Regex.opt (Regex.lit [','])).run st = [st] :=
    Regex.run_opt_nil (by simp [Regex.run, hr, h2])
  have hopt : (Regex.opt (Regex.cap 3 PARSE_REGEX_TARGET)).run st = [st] :=
    Regex.run_opt_nil (Regex.run_cap_nil 3 (PARSE_REGEX_TARGET_fail st c tl hr h3 h4))
  have hnl : c ≠ '\n' := by
    intro hc; subst hc; exact absurd h1 (by decide)
  have heol : Regex.eol.run st = [] := by
    simp [Regex.run, hr, hnl]
  unfold PARSE_REGEX_TAIL
  rw [Regex.run_seq_single hws, Regex.run_seq_single hcomma, Regex.run_seq_single hws,
    Regex.run_seq_single hopt, Regex.run_seq_single hws]
  exact heol

theorem PARSE_REGEX_TAIL_end (st : RegexState) (hr : st.rest = []) :
    PARSE_REGEX_TAIL.run st = [st] := by
  have hws : (Regex.cls pcre_space 0 none).run st = [st] :=
    Regex.run_cls_stop _ _ _ (by rw [hr]; rfl)
  have hcomma : (Regex.opt (Regex.lit [','])).run st = [st] :=
    Regex.run_opt_nil (by simp [Regex.run, hr])
  have hopt : (Regex.opt (Regex.cap 3 PARSE_REGEX_TARGET)).run st = [st] :=
    Regex.run_opt_nil (Regex.run_cap_nil 3 (PARSE_REGEX_TARGET_nil st hr))
  have heol : Regex.eol.run st = [st] := by
    simp [Regex.run, hr]
  unfold PARSE_REGEX_TAIL
  rw [Regex.run_seq_single hws, Regex.run_seq_single hcomma, Regex.run_seq_single hws,
    Regex.run_seq_single hopt, Regex.run_seq_single hws]
  exact heol

/-- A target the pattern takes: a name or a literal of at most 10 digits. -/
theorem PARSE_REGEX_TARGET_leads (st : RegexState) (target : List Char)
    (hr : st.rest = target)
    (ht : GrammarName target = true ∨ GrammarLiteral target = true) :
    PARSE_REGEX_TARGET.Leads st ⟨st.pos + target.length, [], st.caps⟩ := by
  unfold PARSE_REGEX_TARGET
  rcases ht with hn | hl
  · obtain ⟨c, cs, rfl, hc, hne, hw⟩ := GrammarName_spec target hn
    apply Regex.leads_alt_left
    have h1 := Regex.run_cls_one Char.isAlpha st c cs hr hc
    have h2 := Regex.leads_cls pcre_word 1 none ⟨st.pos + 1, cs, st.caps⟩ cs [] (by simp)
      (takeWhile_append_stop _ _ _ hw rfl)
      (by cases cs with
        | nil => exact absurd rfl hne
        | cons a l => simp)
      (by intro m hm; cases hm)
    have h3 := Regex.leads_seq (Regex.leads_of_run h1) h2
    have e : st.pos + 1 + cs.length = st.pos + (c :: cs).length := by
      simp only [List.length_cons]; omega
    simp only [e] at h3
    exact h3
  · obtain ⟨hne, hlen, hd⟩ := GrammarLiteral_spec target hl
    have hfail : (Regex.seq (Regex.cls Char.isAlpha 1 (some 1))
        (Regex.cls pcre_word 1 none)).run st = [] := by
      apply Regex.run_seq_nil
      apply Regex.run_cls_one_nil
      cases target with
      | nil => exact absurd rfl hne
      | cons c cs =>
        rw [hr]
        simp [List.takeWhile, char_digit_not_alpha c (hd c (List.mem_cons_self _ _))]
    unfold Regex.Leads
    rw [Regex.run_alt_nil_left hfail]
    exact Regex.leads_cls Char.isDigit 1 (some 10) st target [] (by simp [hr])
      (takeWhile_append_stop _ _ _ hd rfl)
      (by cases target with
        | nil => exact absurd rfl hne
        | cons a l => simp)
      (by intro m hm; cases hm; exact hlen)

theorem target_head_facts (target : List Char)
    (ht : GrammarName target = true ∨ GrammarLiteral target = true) :
    ∃ c cs, target = c :: cs ∧ pcre_space c = false ∧ c ≠ '\"' ∧
      (GrammarName target = true → c.isDigit = false) ∧
      (GrammarLiteral target = true → c.isDigit = true) := by
  rcases ht with hn | hl
  · obtain ⟨c, cs, rfl, hc, _, _⟩ := GrammarName_spec target hn
    refine ⟨c, cs, rfl, char_alpha_not_space c hc, char_alpha_ne_quote c hc, ?_, ?_⟩
    · intro _
      cases hd : c.isDigit with
      | false => rfl
      | true => rw [char_digit_not_alpha c hd] at hc; cases hc
    · intro hl
      exact (GrammarLiteral_spec _ hl).2.2 c (List.mem_cons_self _ _)
  · obtain ⟨hne, _, hd⟩ := GrammarLiteral_spec target hl
    cases target with
    | nil => exact absurd rfl hne
    | cons c cs =>
      have hdc := hd c (List.mem_cons_self _ _)
      refine ⟨c, cs, rfl, char_digit_not_space c hdc, char_digit_ne_quote c hdc, ?_, fun _ => hdc⟩
      intro hn
      obtain ⟨c2, cs2, he, hc2, _, _⟩ := GrammarName_spec _ hn
      cases he
      rw [char_digit_not_alpha c hdc] at hc2
      cases hc2

theorem PARSE_REGEX_TAIL_target (st : RegexState) (target : List Char)
    (hr : st.rest = ',' :: target)
    (ht : GrammarName target = true ∨ GrammarLiteral target = true) :
    PARSE_REGEX_TAIL.Leads st ⟨st.pos + 1 + target.length, [], (3, target) :: st.caps⟩ := by
  obtain ⟨c, cs, hc, hsp, _, _, _⟩ := target_head_facts target ht
  have hws : (Regex.cls pcre_space 0 none).run st = [st] :=
    Regex.run_cls_stop _ _ _ (by rw [hr]; rfl)
  have hcomma : (Regex.opt (Regex.lit [','])).Leads st ⟨st.pos + 1, target, st.caps⟩ :=
    Regex.leads_opt (Regex.leads_of_run (Regex.run_lit_cons [','] st target hr))
  have hws2 : (Regex.cls pcre_space 0 none).run ⟨st.pos + 1, target, st.caps⟩ =
      [⟨st.pos + 1, target, st.caps⟩] :=
    Regex.run_cls_stop _ _ _ (by rw [hc]; simp [List.takeWhile, hsp])
  have htg := Regex.leads_opt (Regex.leads_cap 3
    (PARSE_REGEX_TARGET_leads ⟨st.pos + 1, target, st.caps⟩ target rfl ht))
  have hcap : List.take (st.pos + 1 + target.length - (st.pos + 1)) target = target := by
    rw [Nat.add_sub_cancel_left]; exact List.take_length target
  simp only [hcap] at htg
  have hend := PARSE_REGEX_TAIL_end
  have hws3 : (Regex.cls pcre_space 0 none).run
      ⟨st.pos + 1 + target.length, [], (3, target) :: st.caps⟩ =
      [⟨st.pos + 1 + target.length, [], (3, target) :: st.caps⟩] :=
    Regex.run_cls_stop _ _ _ rfl
  have heol : Regex.eol.run ⟨st.pos + 1 + target.length, [], (3, target) :: st.caps⟩ =
      [⟨st.pos + 1 + target.length, [], (3, target) :: st.caps⟩] := by
    simp [Regex.run]
  unfold PARSE_REGEX_TAIL
  exact Regex.leads_seq (Regex.leads_of_run hws)
    (Regex.leads_seq hcomma
      (Regex.leads_seq (Regex.leads_of_run hws2)
        (Regex.leads_seq htg
          (Regex.leads_seq (Regex.leads_of_run hws3) (Regex.leads_of_run heol)))))
theorem Regex.leads_seq_two {a b : Regex} {st x1 x2 y : RegexState}
    (h : a.run st = [x1, x2]) (h1 : b.run x1 = []) (h2 : b.Leads x2 y) :
    (Regex.seq a b).Leads st y := by
  obtain ⟨T, h2⟩ := h2
  exact ⟨T, by simp [Regex.run, h, h1, h2]⟩

/-- The operator and what follows it, for the nine operators that take a
target. -/
theorem PARSE_REGEX_op_tail (st : RegexState) (op target : List Char)
    (hop : op ∈ [['='], ['+'], ['-'], ['=', '='], ['!', '='], ['<'], ['<', '='], ['>'],
      ['>', '=']])
    (hr : st.rest = op ++ ',' :: target)
    (ht : GrammarName target = true ∨ GrammarLiteral target = true) :
    (Regex.seq (Regex.cap 2 PARSE_REGEX_OP) PARSE_REGEX_TAIL).Leads st
      ⟨st.pos + op.length + 1 + target.length, [], (3, target) :: (2, op) :: st.caps⟩ := by
  have single : ∀ c : Char, op = [c] →
      (Regex.cap 2 PARSE_REGEX_OP).run st = [⟨st.pos + 1, ',' :: target, (2, [c]) :: st.caps⟩] →
      (Regex.seq (Regex.cap 2 PARSE_REGEX_OP) PARSE_REGEX_TAIL).Leads st
        ⟨st.pos + op.length + 1 + target.length, [], (3, target) :: (2, op) :: st.caps⟩ := by
    intro c hc h
    subst hc
    unfold Regex.Leads
    rw [Regex.run_seq_single h]
    exact PARSE_REGEX_TAIL_target ⟨st.pos + 1, ',' :: target, (2, [c]) :: st.caps⟩ target rfl ht
  have double : ∀ c : Char, op = [c, '='] →
      (Regex.cap 2 PARSE_REGEX_OP).run st =
        [⟨st.pos + 1, '=' :: ',' :: target, (2, [c]) :: st.caps⟩,
         ⟨st.pos + 2, ',' :: target, (2, [c, '=']) :: st.caps⟩] →
      (Regex.seq (Regex.cap 2 PARSE_REGEX_OP) PARSE_REGEX_TAIL).Leads st
        ⟨st.pos + op.length + 1 + target.length, [], (3, target) :: (2, op) :: st.caps⟩ := by
    intro c hc h
    subst hc
    exact Regex.leads_seq_two h
      (PARSE_REGEX_TAIL_fail _ '=' (',' :: target) rfl (by decide) (by decide) (by decide)
        (by decide))
      (PARSE_REGEX_TAIL_target ⟨st.pos + 2, ',' :: target, (2, [c, '=']) :: st.caps⟩ target
        rfl ht)
  simp only [List.mem_cons, List.mem_singleton, List.not_mem_nil, or_false] at hop
  rcases hop with h | h | h | h | h | h | h | h | h
  · refine single '=' h ?_
    subst h
    simp [PARSE_REGEX_OP, Regex.run, hr, pcre_setop, RegexState.advance, List.takeWhile,
      range_one_eq]
  · refine single '+' h ?_
    subst h
    simp [PARSE_REGEX_OP, Regex.run, hr, pcre_setop, RegexState.advance, List.takeWhile,
      range_one_eq]
  · refine single '-' h ?_
    subst h
    simp [PARSE_REGEX_OP, Regex.run, hr, pcre_setop, RegexState.advance, List.takeWhile,
      range_one_eq]
  · refine double '=' h ?_
    subst h
    simp [PARSE_REGEX_OP, Regex.run, hr, pcre_setop, RegexState.advance, List.takeWhile,
      range_one_eq]
  · subst h
    have h : (Regex.cap 2 PARSE_REGEX_OP).run st =
        [⟨st.pos + 2, ',' :: target, (2, ['!', '=']) :: st.caps⟩] := by
      simp [PARSE_REGEX_OP, Regex.run, hr, pcre_setop, RegexState.advance, List.takeWhile,
        range_one_eq]
    unfold Regex.Leads
    rw [Regex.run_seq_single h]
    exact PARSE_REGEX_TAIL_target ⟨st.pos + 2, ',' :: target, (2, ['!', '=']) :: st.caps⟩
      target rfl ht
  · refine single '<' h ?_
    subst h
    simp [PARSE_REGEX_OP, Regex.run, hr, pcre_setop, RegexState.advance, List.takeWhile,
      range_one_eq]
  · refine double '<' h ?_
    subst h
    simp [PARSE_REGEX_OP, Regex.run, hr, pcre_setop, RegexState.advance, List.takeWhile,
      range_one_eq]
  · refine single '>' h ?_
    subst h
    simp [PARSE_REGEX_OP, Regex.run, hr, pcre_setop, RegexState.advance, List.takeWhile,
      range_one_eq]
  · refine double '>' h ?_
    subst h
    simp [PARSE_REGEX_OP, Regex.run, hr, pcre_setop, RegexState.advance, List.takeWhile,
      range_one_eq]

/-- The operator `isset` at the end of the text. -/
theorem PARSE_REGEX_isset_tail (st : RegexState)
    (hr : st.rest = ['i', 's', 's', 'e', 't']) :
    (Regex.seq (Regex.cap 2 PARSE_REGEX_OP) PARSE_REGEX_TAIL).Leads st
      ⟨st.pos + 5, [], (2, ['i', 's', 's', 'e', 't']) :: st.caps⟩ := by
  have h : (Regex.cap 2 PARSE_REGEX_OP).run st =
      [⟨st.pos + 5, [], (2, ['i', 's', 's', 'e', 't']) :: st.caps⟩] := by
    simp [PARSE_REGEX_OP, Regex.run, hr, pcre_setop, RegexState.advance, List.takeWhile,
      range_one_eq]
  unfold Regex.Leads
  rw [Regex.run_seq_single h]
  exact ⟨[], PARSE_REGEX_TAIL_end _ rfl⟩

/-- The pattern up to the operator: a name, a comma, whitespace `ws`. -/
theorem PARSE_REGEX_front (name ws ys : List Char) (y : RegexState)
    (hn : GrammarName name = true)
    (hws : ∀ x ∈ ws, pcre_space x = true) (hys : ys.takeWhile pcre_space = [])
    (hK : (Regex.seq (Regex.cap 2 PARSE_REGEX_OP) PARSE_REGEX_TAIL).Leads
      ⟨name.length + 1 + ws.length, ys, [(1, name)]⟩ y) :
    PARSE_REGEX.Leads ⟨0, name ++ ',' :: (ws ++ ys), []⟩ y := by
  obtain ⟨c, cs, rfl, hc, hne, hw⟩ := GrammarName_spec name hn
  have hbol : Regex.bol.run ⟨0, c :: cs ++ ',' :: (ws ++ ys), []⟩ =
      [⟨0, c :: cs ++ ',' :: (ws ++ ys), []⟩] := by
    simp [Regex.run]
  have hws0 : (Regex.cls pcre_space 0 none).run ⟨0, c :: cs ++ ',' :: (ws ++ ys), []⟩ =
      [⟨0, c :: cs ++ ',' :: (ws ++ ys), []⟩] :=
    Regex.run_cls_stop _ _ _ (by simp [List.takeWhile, char_alpha_not_space c hc])
  have h1 := Regex.run_cls_one Char.isAlpha ⟨0, c :: cs ++ ',' :: (ws ++ ys), []⟩ c
    (cs ++ ',' :: (ws ++ ys)) rfl hc
  have h2 := Regex.leads_cls pcre_word 1 none ⟨0 + 1, cs ++ ',' :: (ws ++ ys), []⟩ cs
    (',' :: (ws ++ ys)) rfl
    (takeWhile_append_stop _ _ _ hw
      (by rw [List.takeWhile, show pcre_word ',' = false from by decide]))
    (by cases cs with
      | nil => exact absurd rfl hne
      | cons a l => simp)
    (by intro m hm; cases hm)
  have hcap := Regex.leads_cap 1 (Regex.leads_seq (Regex.leads_of_run h1) h2)
  have htake : List.take (0 + 1 + cs.length - 0) (c :: cs ++ ',' :: (ws ++ ys)) = c :: cs := by
    have e : 0 + 1 + cs.length - 0 = (c :: cs).length := by simp only [List.length_cons]; omega
    rw [e, List.take_left']
    rfl
  simp only [htake] at hcap
  have hcomma := Regex.run_lit_cons [','] ⟨0 + 1 + cs.length, ',' :: (ws ++ ys), [(1, c :: cs)]⟩
    (ws ++ ys) rfl
  have hws1 := Regex.leads_cls pcre_space 0 none
    ⟨0 + 1 + cs.length + [','].length, ws ++ ys, [(1, c :: cs)]⟩ ws ys rfl
    (takeWhile_append_stop _ _ _ hws hys) (Nat.zero_le _) (by intro m hm; cases hm)
  have e2 : 0 + 1 + cs.length + [','].length + ws.length = (c :: cs).length + 1 + ws.length := by
    simp only [List.length_cons, List.length_nil]; omega
  simp only [e2] at hws1
  unfold PARSE_REGEX
  exact Regex.leads_seq (Regex.leads_of_run hbol)
    (Regex.leads_seq (Regex.leads_of_run hws0)
      (Regex.leads_seq hcap
        (Regex.leads_seq (Regex.leads_of_run hcomma) (Regex.leads_seq hws1 hK))))

theorem pcre_exec_of_leads (re : Regex) (subject : List Char) (y : RegexState)
    (h : re.Leads ⟨0, subject, []⟩ y) : pcre_exec re subject = some y.caps := by
  obtain ⟨T, h⟩ := h
  unfold pcre_exec
  rw [List.range_succ_eq_map, List.findSome?_cons]
  simp [h]

/-! ## The parser on the texts of the grammar -/

theorem OperatorTokens_spec (tok : String) (m : FlowintModifier)
    (h : (tok, m) ∈ OperatorTokens) :
    tok.toList ∈ [['='], ['+'], ['-'], ['=', '='], ['!', '='], ['<'], ['<', '='], ['>'],
      ['>', '=']] ∧
    DetectFlowintParseModifier tok.toList = m ∧
    m ≠ FlowintModifier.FLOWINT_MODIFIER_IS ∧ m ≠ FlowintModifier.FLOWINT_MODIFIER_UNKNOWN ∧
    tok.toList.takeWhile pcre_space = [] := by
  simp only [OperatorTokens, List.mem_cons, List.mem_singleton, List.not_mem_nil, or_false,
    Prod.mk.injEq] at h
  rcases h with h | h | h | h | h | h | h | h | h <;> obtain ⟨rfl, rfl⟩ := h <;> decide

theorem pcre_exec_op_target (name target : List Char) (tok : String) (m : FlowintModifier)
    (hn : GrammarName name = true) (hop : (tok, m) ∈ OperatorTokens)
    (ht : GrammarName target = true ∨ GrammarLiteral target = true) :
    pcre_exec PARSE_REGEX (name ++ ',' :: (tok.toList ++ ',' :: target)) =
      some [(3, target), (2, tok.toList), (1, name)] := by
  obtain ⟨hmem, _, _, _, hsp⟩ := OperatorTokens_spec tok m hop
  have hys : (tok.toList ++ ',' :: target).takeWhile pcre_space = [] := by
    cases htl : tok.toList with
    | nil =>
      rw [htl] at hmem
      exact absurd hmem (by decide)
    | cons a l =>
      rw [htl] at hsp
      simp only [List.cons_append, List.takeWhile] at hsp ⊢
      cases hpa : pcre_space a with
      | false => rfl
      | true => rw [hpa] at hsp; cases hsp
  have hK := PARSE_REGEX_op_tail ⟨name.length + 1 + ([] : List Char).length,
    tok.toList ++ ',' :: target, [(1, name)]⟩ tok.toList target hmem rfl ht
  have h := pcre_exec_of_leads _ _ _
    (PARSE_REGEX_front name [] (tok.toList ++ ',' :: target) _ hn
      (by intro x hx; cases hx) hys hK)
  simpa using h

theorem pcre_exec_isset (name ws : List Char) (hn : GrammarName name = true)
    (hws : ∀ x ∈ ws, pcre_space x = true) :
    pcre_exec PARSE_REGEX (name ++ ',' :: (ws ++ ['i', 's', 's', 'e', 't'])) =
      some [(2, ['i', 's', 's', 'e', 't']), (1, name)] := by
  have hK := PARSE_REGEX_isset_tail ⟨name.length + 1 + ws.length,
    ['i', 's', 's', 'e', 't'], [(1, name)]⟩ rfl
  exact pcre_exec_of_leads _ _ _
    (PARSE_REGEX_front name ws ['i', 's', 's', 'e', 't'] _ hn hws (by decide) hK)

theorem atoll_foldl (s : List Char) (acc : Nat) :
    s.foldl (fun a c => a * 10 + (c.toNat - 48)) acc =
      acc * 10 ^ s.length + Nat.ofDigits 10 (s.reverse.map (fun c => c.toNat - 48)) := by
  induction s generalizing acc with
  | nil => simp
  | cons c cs ih =>
    rw [List.foldl_cons, ih, List.reverse_cons, List.map_append, Nat.ofDigits_append]
    simp only [List.length_map, List.length_reverse, List.map_cons, List.map_nil,
      Nat.ofDigits_singleton, List.length_cons]
    ring

theorem atoll_of_digits (s : List Char) (hd : ∀ d ∈ s, d.isDigit = true) :
    atoll s = Nat.ofDigits 10 (s.reverse.map (fun c => c.toNat - 48)) := by
  have htw : s.takeWhile Char.isDigit = s := by
    have := takeWhile_append_stop Char.isDigit s [] hd rfl
    simpa using this
  unfold atoll
  rw [htw, atoll_foldl]
  simp

theorem DetectFlowintParseTarget_plain (m : FlowintModifier) (target : List Char)
    (hm : m ≠ FlowintModifier.FLOWINT_MODIFIER_IS)
    (ht : GrammarName target = true ∨ GrammarLiteral target = true) :
    DetectFlowintParseTarget m target = DetectFlowintParseClassify target target := by
  obtain ⟨c, cs, rfl, _, hq, _, _⟩ := target_head_facts target ht
  unfold DetectFlowintParseTarget
  rw [if_pos hm, if_neg (List.cons_ne_nil _ _), if_neg]
  intro h
  simp only [List.head?_cons, Option.some.injEq] at h
  exact hq h.1

/-- The parse of `NAME,OP,TARGET`, up to the classification of the target. -/
theorem DetectFlowintParse_op_target (de_ctx : DetectEngineCtx) (NAME TARGET tok : String)
    (m : FlowintModifier)
    (hn : GrammarName NAME.toList = true) (hop : (tok, m) ∈ OperatorTokens)
    (ht : GrammarName TARGET.toList = true ∨ GrammarLiteral TARGET.toList = true) :
    DetectFlowintParse de_ctx (NAME ++ "," ++ tok ++ "," ++ TARGET) =
      match DetectFlowintParseClassify TARGET.toList TARGET.toList with
      | none => none
      | some (targettype, value_long, tname) =>
        some ({ name := NAME
                idx := (VariableNameGetIdx de_ctx NAME DetectType.DETECT_FLOWINT).1 % 65536
                modifier := m
                targettype := targettype
                target := ⟨value_long % 4294967296, ⟨0, String.mk tname⟩⟩ },
          (VariableNameGetIdx de_ctx NAME DetectType.DETECT_FLOWINT).2) := by
  have hraw : (NAME ++ "," ++ tok ++ "," ++ TARGET).toList =
      NAME.toList ++ ',' :: (tok.toList ++ ',' :: TARGET.toList) := by
    simp [String.toList, String.data_append]
  obtain ⟨_, hmod, hnis, hnun, _⟩ := OperatorTokens_spec tok m hop
  unfold DetectFlowintParse
  rw [hraw, pcre_exec_op_target NAME.toList TARGET.toList tok m hn hop ht]
  have hret : pcre_exec_ret (some [(3, TARGET.toList), (2, tok.toList), (1, NAME.toList)]) = 4 :=
    rfl
  have hs1 : pcre_get_substring [(3, TARGET.toList), (2, tok.toList), (1, NAME.toList)] 1 =
      NAME.toList := rfl
  have hs2 : pcre_get_substring [(3, TARGET.toList), (2, tok.toList), (1, NAME.toList)] 2 =
      tok.toList := rfl
  have hs3 : pcre_get_substring [(3, TARGET.toList), (2, tok.toList), (1, NAME.toList)] 3 =
      TARGET.toList := rfl
  simp only [hret, hs1, hs2, hs3, hmod, if_neg hnun, DetectFlowintParseTarget_plain m _ hnis ht]
  rw [if_neg (by decide)]
  rfl
theorem DetectFlowintParseClassify_name (target : List Char)
    (hn : GrammarName target = true) :
    DetectFlowintParseClassify target target =
      some (FlowintTarget.FLOWINT_TARGET_VAR, 0, target) := by
  obtain ⟨c, cs, rfl, _, _, hnd, _⟩ := target_head_facts target (Or.inl hn)
  unfold DetectFlowintParseClassify first_is_digit
  simp [hnd hn]

theorem DetectFlowintParseClassify_literal (target : List Char) (v : Nat)
    (hl : GrammarLiteral target = true)
    (hv : Nat.ofDigits 10 (target.reverse.map (fun c => c.toNat - 48)) = v)
    (hr : v ≤ 4294967295) :
    DetectFlowintParseClassify target target =
      some (FlowintTarget.FLOWINT_TARGET_VAL, v, []) := by
  obtain ⟨c, cs, rfl, _, _, _, hd⟩ := target_head_facts target (Or.inr hl)
  have hat := atoll_of_digits (c :: cs) (GrammarLiteral_spec _ hl).2.2
  rw [hv] at hat
  unfold DetectFlowintParseClassify first_is_digit
  simp only [hd hl, if_true, hat]
  rw [if_neg (by omega)]

theorem DetectFlowintParseTarget_kind (m : FlowintModifier) (varval : List Char)
    (tt : FlowintTarget) (v : Nat) (n : List Char)
    (hm : m ≠ FlowintModifier.FLOWINT_MODIFIER_IS)
    (h : DetectFlowintParseTarget m varval = some (tt, v, n)) :
    (tt = FlowintTarget.FLOWINT_TARGET_VAL ↔
      first_is_digit
        (if varval.head? = some '\"' ∧ varval.getLast? = some '\"'
          then (varval.drop 1).take (varval.length - 2) else varval) = true) ∧
    (tt = FlowintTarget.FLOWINT_TARGET_VAR ↔
      first_is_digit
        (if varval.head? = some '\"' ∧ varval.getLast? = some '\"'
          then (varval.drop 1).take (varval.length - 2) else varval) = false) := by
  have key : ∀ cls : List Char,
      DetectFlowintParseClassify cls varval = some (tt, v, n) →
      (tt = FlowintTarget.FLOWINT_TARGET_VAL ↔ first_is_digit cls = true) ∧
      (tt = FlowintTarget.FLOWINT_TARGET_VAR ↔ first_is_digit cls = false) := by
    intro cls hc
    unfold DetectFlowintParseClassify at hc
    cases hd : first_is_digit cls with
    | true =>
      rw [hd] at hc
      simp only [if_true] at hc
      split at hc
      · cases hc
      · simp only [Option.some.injEq, Prod.mk.injEq] at hc
        rw [← hc.1]
        simp
    | false =>
      rw [hd] at hc
      simp only [Bool.false_eq_true, if_false, Option.some.injEq, Prod.mk.injEq] at hc
      rw [← hc.1]
      simp
  unfold DetectFlowintParseTarget at h
  rw [if_pos hm] at h
  split at h
  · cases h
  · split at h
    · rename_i hq
      rw [if_pos hq]
      exact key _ h
    · rename_i hq
      rw [if_neg hq]
      exact key _ h

theorem DetectFlowintParse_kind (de_ctx : DetectEngineCtx) (rawstr : String)
    (ov : List (Nat × List Char)) (sfd : DetectFlowintData) (e : DetectEngineCtx)
    (hex : pcre_exec PARSE_REGEX rawstr.toList = some ov)
    (hp : DetectFlowintParse de_ctx rawstr = some (sfd, e))
    (hm : sfd.modifier ≠ FlowintModifier.FLOWINT_MODIFIER_IS) :
    (sfd.targettype = FlowintTarget.FLOWINT_TARGET_VAL ↔
      first_is_digit
        (if (pcre_get_substring ov 3).head? = some '\"' ∧
            (pcre_get_substring ov 3).getLast? = some '\"'
          then ((pcre_get_substring ov 3).drop 1).take ((pcre_get_substring ov 3).length - 2)
          else pcre_get_substring ov 3) = true) ∧
    (sfd.targettype = FlowintTarget.FLOWINT_TARGET_VAR ↔
      first_is_digit
        (if (pcre_get_substring ov 3).head? = some '\"' ∧
            (pcre_get_substring ov 3).getLast? = some '\"'
          then ((pcre_get_substring ov 3).drop 1).take ((pcre_get_substring ov 3).length - 2)
          else pcre_get_substring ov 3) = false) := by
  unfold DetectFlowintParse at hp
  rw [hex] at hp
  simp only at hp
  split at hp
  · cases hp
  · split at hp
    · cases hp
    · cases hT : DetectFlowintParseTarget
          (DetectFlowintParseModifier (pcre_get_substring ov 2)) (pcre_get_substring ov 3) with
      | none => rw [hT] at hp; cases hp
      | some r =>
        obtain ⟨tt, v, n⟩ := r
        rw [hT] at hp
        simp only [Option.some.injEq, Prod.mk.injEq] at hp
        obtain ⟨hs, _⟩ := hp
        subst hs
        exact DetectFlowintParseTarget_kind _ _ tt v n hm hT

/-- The directive of `myvar, isset` on a fresh registry: the one the
evaluation theorems on `isset` start from. -/
theorem DetectFlowintParse_myvar_isset :
    DetectFlowintParse ⟨[]⟩ "myvar, isset" =
      some (⟨"myvar", 1, FlowintModifier.FLOWINT_MODIFIER_IS, FlowintTarget.FLOWINT_TARGET_SELF,
        ⟨0, ⟨0, ""⟩⟩⟩, ⟨[(DetectType.DETECT_FLOWINT, "myvar")]⟩) := by
  decide

/-- C17: operator tokens map one-to-one to operators. For every NAME (a
letter followed by one or more letters, digits or underscores), every valid
TARGET (such a name, or a literal of at most 10 digits with value at most
2^32 - 1) and each of the tokens `= + - == != < <= > >=`, the parse of
`NAME,TOKEN,TARGET` succeeds with the modifier of that token (so `<=`, `>=`
and `==` are not read as `<`, `>` or `=`) and with the name NAME. -/
theorem c17_operator_tokens (de_ctx : DetectEngineCtx) (NAME TARGET tok : String)
    (m : FlowintModifier)
    (hn : GrammarName NAME.toList = true)
    (ht : GrammarName TARGET.toList = true ∨
      (GrammarLiteral TARGET.toList = true ∧
        Nat.ofDigits 10 (TARGET.toList.reverse.map (fun c => c.toNat - 48)) ≤ 4294967295))
    (hop : (tok, m) ∈ OperatorTokens) :
    ∃ sfd e, DetectFlowintParse de_ctx (NAME ++ "," ++ tok ++ "," ++ TARGET) = some (sfd, e) ∧
      sfd.modifier = m ∧ sfd.name = NAME := by
  rcases ht with hname | ⟨hlit, hv⟩
  · rw [DetectFlowintParse_op_target de_ctx NAME TARGET tok m hn hop (Or.inl hname),
      DetectFlowintParseClassify_name _ hname]
    exact ⟨_, _, rfl, rfl, rfl⟩
  · rw [DetectFlowintParse_op_target de_ctx NAME TARGET tok m hn hop (Or.inr hlit),
      DetectFlowintParseClassify_literal _ _ hlit rfl hv]
    exact ⟨_, _, rfl, rfl, rfl⟩

/-- Witness of C17: `myvar,<=,targetvar` parses as LessEqual on `myvar`. -/
theorem c17_operator_tokens_witness :
    ∃ sfd e, DetectFlowintParse ⟨[]⟩ "myvar,<=,targetvar" = some (sfd, e) ∧
      sfd.modifier = FlowintModifier.FLOWINT_MODIFIER_LE ∧ sfd.name = "myvar" :=
  c17_operator_tokens ⟨[]⟩ "myvar" "targetvar" "<=" FlowintModifier.FLOWINT_MODIFIER_LE
    (by decide) (Or.inl (by decide)) (by decide)

/-- C18: a literal target is stored as its numeric value. For every NAME,
every operator other than `isset` and every decimal literal `d` of at most 10
digits whose value `v` is at most 2^32 - 1, the parse of `NAME,OP,d` succeeds
with target type `FLOWINT_TARGET_VAL` and target value `v`. -/
theorem c18_literal_target (de_ctx : DetectEngineCtx) (NAME d tok : String)
    (m : FlowintModifier) (v : Nat)
    (hn : GrammarName NAME.toList = true)
    (hop : (tok, m) ∈ OperatorTokens)
    (hd : GrammarLiteral d.toList = true)
    (hv : Nat.ofDigits 10 (d.toList.reverse.map (fun c => c.toNat - 48)) = v)
    (hr : v ≤ 4294967295) :
    ∃ sfd e, DetectFlowintParse de_ctx (NAME ++ "," ++ tok ++ "," ++ d) = some (sfd, e) ∧
      sfd.targettype = FlowintTarget.FLOWINT_TARGET_VAL ∧ sfd.target.value = v ∧
      sfd.modifier = m ∧ sfd.name = NAME := by
  rw [DetectFlowintParse_op_target de_ctx NAME d tok m hn hop (Or.inr hd),
    DetectFlowintParseClassify_literal _ v hd hv hr]
  exact ⟨_, _, rfl, rfl, Nat.mod_eq_of_lt (by omega), rfl, rfl⟩

/-- Witness of C18: `myvar,=,35` gives Set, the literal 35 and the name
`myvar`. -/
theorem c18_literal_target_witness :
    ∃ sfd e, DetectFlowintParse ⟨[]⟩ "myvar,=,35" = some (sfd, e) ∧
      sfd.targettype = FlowintTarget.FLOWINT_TARGET_VAL ∧ sfd.target.value = 35 ∧
      sfd.modifier = FlowintModifier.FLOWINT_MODIFIER_SET ∧ sfd.name = "myvar" :=
  c18_literal_target ⟨[]⟩ "myvar" "35" "=" FlowintModifier.FLOWINT_MODIFIER_SET 35
    (by decide) (by decide) (by decide) (by decide) (by decide)

/-- C19: a name target is kept as text. For every NAME, every operator other
than `isset` and every target text `t` that is a name, the parse of
`NAME,OP,t` succeeds with target type `FLOWINT_TARGET_VAR` and target name
`t`. And for every text the parser accepts with an operator other than
`isset`, the target is a literal exactly when the first character of the
target text (the text between the quotes, were it quoted) is a decimal
digit, and a variable name exactly when it is not. -/
theorem c19_name_target (de_ctx : DetectEngineCtx) (NAME t tok : String)
    (m : FlowintModifier)
    (hn : GrammarName NAME.toList = true)
    (hop : (tok, m) ∈ OperatorTokens)
    (ht : GrammarName t.toList = true) :
    (∃ sfd e, DetectFlowintParse de_ctx (NAME ++ "," ++ tok ++ "," ++ t) = some (sfd, e) ∧
      sfd.targettype = FlowintTarget.FLOWINT_TARGET_VAR ∧ sfd.target.tvar.name = t ∧
      sfd.modifier = m ∧ sfd.name = NAME) ∧
    (∀ (rawstr : String) (ov : List (Nat × List Char)) (sfd : DetectFlowintData)
        (e : DetectEngineCtx),
      pcre_exec PARSE_REGEX rawstr.toList = some ov →
      DetectFlowintParse de_ctx rawstr = some (sfd, e) →
      sfd.modifier ≠ FlowintModifier.FLOWINT_MODIFIER_IS →
      (sfd.targettype = FlowintTarget.FLOWINT_TARGET_VAL ↔
        first_is_digit
          (if (pcre_get_substring ov 3).head? = some '\"' ∧
              (pcre_get_substring ov 3).getLast? = some '\"'
            then ((pcre_get_substring ov 3).drop 1).take ((pcre_get_substring ov 3).length - 2)
            else pcre_get_substring ov 3) = true) ∧
      (sfd.targettype = FlowintTarget.FLOWINT_TARGET_VAR ↔
        first_is_digit
          (if (pcre_get_substring ov 3).head? = some '\"' ∧
              (pcre_get_substring ov 3).getLast? = some '\"'
            then ((pcre_get_substring ov 3).drop 1).take ((pcre_get_substring ov 3).length - 2)
            else pcre_get_substring ov 3) = false)) := by
  refine ⟨?_, fun rawstr ov sfd e hex hp hm => DetectFlowintParse_kind de_ctx rawstr ov sfd e hex hp hm⟩
  rw [DetectFlowintParse_op_target de_ctx NAME t tok m hn hop (Or.inl ht),
    DetectFlowintParseClassify_name _ ht]
  exact ⟨_, _, rfl, rfl, rfl, rfl, rfl⟩

/-- Witness of C19: `myvar,+,targetvar` gives Add with the variable name
`targetvar`. -/
theorem c19_name_target_witness :
    ∃ sfd e, DetectFlowintParse ⟨[]⟩ "myvar,+,targetvar" = some (sfd, e) ∧
      sfd.targettype = FlowintTarget.FLOWINT_TARGET_VAR ∧
      sfd.target.tvar.name = "targetvar" ∧
      sfd.modifier = FlowintModifier.FLOWINT_MODIFIER_ADD ∧ sfd.name = "myvar" :=
  (c19_name_target ⟨[]⟩ "myvar" "targetvar" "+" FlowintModifier.FLOWINT_MODIFIER_ADD
    (by decide) (by decide) (by decide)).1

/-- C20: `isset` parses without a target. For every NAME, the parse of
`NAME, isset` and of `NAME,isset` succeeds with modifier
`FLOWINT_MODIFIER_IS`, target type `FLOWINT_TARGET_SELF` and the name NAME. -/
theorem c20_isset_parses (de_ctx : DetectEngineCtx) (NAME : String)
    (hn : GrammarName NAME.toList = true) :
    (∃ sfd e, DetectFlowintParse de_ctx (NAME ++ ", isset") = some (sfd, e) ∧
      sfd.modifier = FlowintModifier.FLOWINT_MODIFIER_IS ∧
      sfd.targettype = FlowintTarget.FLOWINT_TARGET_SELF ∧ sfd.name = NAME) ∧
    (∃ sfd e, DetectFlowintParse de_ctx (NAME ++ ",isset") = some (sfd, e) ∧
      sfd.modifier = FlowintModifier.FLOWINT_MODIFIER_IS ∧
      sfd.targettype = FlowintTarget.FLOWINT_TARGET_SELF ∧ sfd.name = NAME) := by
  have h1 : (NAME ++ ", isset").toList =
      NAME.toList ++ ',' :: ([' '] ++ ['i', 's', 's', 'e', 't']) := by
    simp [String.toList, String.data_append]
  have h2 : (NAME ++ ",isset").toList =
      NAME.toList ++ ',' :: ([] ++ ['i', 's', 's', 'e', 't']) := by
    simp [String.toList, String.data_append]
  have hret : pcre_exec_ret (some [(2, ['i', 's', 's', 'e', 't']), (1, NAME.toList)]) = 3 := rfl
  have hs1 : pcre_get_substring [(2, ['i', 's', 's', 'e', 't']), (1, NAME.toList)] 1 =
      NAME.toList := rfl
  have hs2 : pcre_get_substring [(2, ['i', 's', 's', 'e', 't']), (1, NAME.toList)] 2 =
      ['i', 's', 's', 'e', 't'] := rfl
  have hmod : DetectFlowintParseModifier ['i', 's', 's', 'e', 't'] =
      FlowintModifier.FLOWINT_MODIFIER_IS := by decide
  constructor
  · unfold DetectFlowintParse
    rw [h1, pcre_exec_isset NAME.toList [' '] hn (by decide)]
    simp only [hret, hs1, hs2, hmod]
    rw [if_neg (by decide), if_neg (by decide)]
    exact ⟨_, _, rfl, rfl, rfl, rfl⟩
  · unfold DetectFlowintParse
    rw [h2, pcre_exec_isset NAME.toList [] hn (by decide)]
    simp only [hret, hs1, hs2, hmod]
    rw [if_neg (by decide), if_neg (by decide)]
    exact ⟨_, _, rfl, rfl, rfl, rfl⟩

/-- Witness of C20: `myvar, isset` and `myvar,isset`. -/
theorem c20_isset_parses_witness :
    (∃ sfd e, DetectFlowintParse ⟨[]⟩ "myvar, isset" = some (sfd, e) ∧
      sfd.modifier = FlowintModifier.FLOWINT_MODIFIER_IS ∧
      sfd.targettype = FlowintTarget.FLOWINT_TARGET_SELF ∧ sfd.name = "myvar") ∧
    (∃ sfd e, DetectFlowintParse ⟨[]⟩ "myvar,isset" = some (sfd, e) ∧
      sfd.modifier = FlowintModifier.FLOWINT_MODIFIER_IS ∧
      sfd.targettype = FlowintTarget.FLOWINT_TARGET_SELF ∧ sfd.name = "myvar") :=
  c20_isset_parses ⟨[]⟩ "myvar" (by decide)

/-! ## The pattern: what a match looks like -/

theorem Regex.mem_run_cls {p : Char → Bool} {min : Nat} {max : Option Nat} {st y : RegexState}
    (h : y ∈ (Regex.cls p min max).run st) :
    ∃ xs, st.rest = xs ++ y.rest ∧ (∀ x ∈ xs, p x = true) ∧ min ≤ xs.length ∧
      (∀ m, max = some m → xs.length ≤ m) ∧ y.pos = st.pos + xs.length ∧ y.caps = st.caps := by
  have main : ∀ n i : Nat, n ≤ (st.rest.takeWhile p).length → i < n + 1 - min →
      (∀ m, max = some m → n ≤ m) → y = st.advance (n - i) →
      ∃ xs, st.rest = xs ++ y.rest ∧ (∀ x ∈ xs, p x = true) ∧ min ≤ xs.length ∧
        (∀ m, max = some m → xs.length ≤ m) ∧ y.pos = st.pos + xs.length ∧
        y.caps = st.caps := by
    intro n i hn hi hmax hy
    have hk : n - i ≤ (st.rest.takeWhile p).length := by omega
    have hlen : (st.rest.take (n - i)).length = n - i := by
      rw [List.length_take]
      have := (List.takeWhile_prefix (l := st.rest) p).length_le
      omega
    refine ⟨st.rest.take (n - i), ?_, ?_, ?_, ?_, ?_, ?_⟩
    · rw [hy]; exact (List.take_append_drop _ _).symm
    · intro x hx
      have e : st.rest.take (n - i) = (st.rest.takeWhile p).take (n - i) := by
        conv_lhs => rw [← List.takeWhile_append_dropWhile p st.rest]
        exact List.take_append_of_le_length hk
      rw [e] at hx
      exact List.mem_takeWhile_imp (List.mem_of_mem_take hx)
    · rw [hlen]; omega
    · intro m hm; rw [hlen]; have := hmax m hm; omega
    · rw [hlen, hy]; rfl
    · rw [hy]; rfl
  cases max with
  | none =>
    simp only [Regex.run, List.mem_map, List.mem_range] at h
    obtain ⟨i, hi, hy⟩ := h
    exact main _ i (Nat.le_refl _) hi (by intro m hm; cases hm) hy.symm
  | some m0 =>
    simp only [Regex.run, List.mem_map, List.mem_range] at h
    obtain ⟨i, hi, hy⟩ := h
    exact main _ i (Nat.min_le_left _ _) hi
      (by intro m hm; cases hm; exact Nat.min_le_right _ _) hy.symm

theorem Regex.mem_run_lit {s : List Char} {st y : RegexState}
    (h : y ∈ (Regex.lit s).run st) :
    st.rest = s ++ y.rest ∧ y.pos = st.pos + s.length ∧ y.caps = st.caps := by
  simp only [Regex.run] at h
  split at h
  · rename_i hs
    rw [List.mem_singleton] at h
    subst h
    refine ⟨?_, rfl, rfl⟩
    conv_lhs => rw [← List.take_append_drop s.length st.rest, hs]
    rfl
  · cases h

theorem Regex.mem_run_seq {a b : Regex} {st y : RegexState}
    (h : y ∈ (Regex.seq a b).run st) : ∃ x, x ∈ a.run st ∧ y ∈ b.run x := by
  simpa [Regex.run, List.mem_flatMap] using h

theorem Regex.mem_run_alt {a b : Regex} {st y : RegexState}
    (h : y ∈ (Regex.alt a b).run st) : y ∈ a.run st ∨ y ∈ b.run st := by
  simpa [Regex.run] using h

theorem Regex.mem_run_opt {r : Regex} {st y : RegexState}
    (h : y ∈ (Regex.opt r).run st) : y ∈ r.run st ∨ y = st := by
  simpa [Regex.run] using h

theorem Regex.mem_run_cap {r : Regex} {n : Nat} {st y : RegexState}
    (h : y ∈ (Regex.cap n r).run st) :
    ∃ x, x ∈ r.run st ∧ y.pos = x.pos ∧ y.rest = x.rest ∧
      y.caps = (n, st.rest.take (x.pos - st.pos)) :: x.caps := by
  simp only [Regex.run, List.mem_map] at h
  obtain ⟨x, hx, rfl⟩ := h
  exact ⟨x, hx, rfl, rfl, rfl⟩

theorem Regex.mem_run_bol {st y : RegexState} (h : y ∈ Regex.bol.run st) :
    st.pos = 0 ∧ y = st := by
  simp only [Regex.run] at h
  split at h
  · rename_i hp
    exact ⟨hp, List.mem_singleton.mp h⟩
  · cases h

theorem Regex.mem_run_eol {st y : RegexState} (h : y ∈ Regex.eol.run st) :
    (st.rest = [] ∨ st.rest = ['\n']) ∧ y = st := by
  simp only [Regex.run] at h
  split at h
  · rename_i hp
    exact ⟨hp, List.mem_singleton.mp h⟩
  · cases h
theorem GrammarName_intro (c : Char) (cs : List Char) (hc : c.isAlpha = true)
    (hne : 1 ≤ cs.length) (hw : ∀ d ∈ cs, pcre_word d = true) :
    GrammarName (c :: cs) = true := by
  cases cs with
  | nil => simp at hne
  | cons d ds =>
    simp only [GrammarName, Bool.and_eq_true, List.all_eq_true]
    exact ⟨hc, fun x hx => hw x hx⟩

theorem GrammarLiteral_intro (s : List Char) (hne : 1 ≤ s.length) (hlen : s.length ≤ 10)
    (hd : ∀ d ∈ s, d.isDigit = true) : GrammarLiteral s = true := by
  cases s with
  | nil => simp at hne
  | cons d ds =>
    simp only [GrammarLiteral, Bool.and_eq_true, List.all_eq_true, decide_eq_true_eq,
      List.isEmpty_cons, Bool.not_false, true_and]
    exact ⟨hlen, hd⟩

theorem PARSE_REGEX_OP_mem {st y : RegexState} (h : y ∈ PARSE_REGEX_OP.run st) :
    ∃ op, op ∈ OperatorTexts ∧ st.rest = op ++ y.rest ∧ y.pos = st.pos + op.length ∧
      y.caps = st.caps := by
  have lit : ∀ s : List Char, s ∈ OperatorTexts → y ∈ (Regex.lit s).run st →
      ∃ op, op ∈ OperatorTexts ∧ st.rest = op ++ y.rest ∧ y.pos = st.pos + op.length ∧
        y.caps = st.caps := by
    intro s hs hy
    obtain ⟨h1, h2, h3⟩ := Regex.mem_run_lit hy
    exact ⟨s, hs, h1, h2, h3⟩
  unfold PARSE_REGEX_OP at h
  rcases Regex.mem_run_alt h with h | h
  · obtain ⟨xs, hr, hp, hmin, hmax, hpos, hcaps⟩ := Regex.mem_run_cls h
    have hlen : xs.length = 1 := Nat.le_antisymm (hmax 1 rfl) hmin
    match xs, hlen with
    | [x], _ =>
      have hx := hp x (List.mem_singleton.mpr rfl)
      simp only [pcre_setop, Bool.or_eq_true, beq_iff_eq] at hx
      refine ⟨[x], ?_, hr, hpos, hcaps⟩
      rcases hx with (hx | hx) | hx <;> subst hx <;> decide
  · rcases Regex.mem_run_alt h with h | h
    · exact lit _ (by decide) h
    rcases Regex.mem_run_alt h with h | h
    · exact lit _ (by decide) h
    rcases Regex.mem_run_alt h with h | h
    · exact lit _ (by decide) h
    rcases Regex.mem_run_alt h with h | h
    · exact lit _ (by decide) h
    rcases Regex.mem_run_alt h with h | h
    · exact lit _ (by decide) h
    rcases Regex.mem_run_alt h with h | h
    · exact lit _ (by decide) h
    · exact lit _ (by decide) h

theorem PARSE_REGEX_NAME_mem {r : Regex} {st y : RegexState}
    (hr : r = Regex.seq (Regex.cls Char.isAlpha 1 (some 1)) (Regex.cls pcre_word 1 none))
    (h : y ∈ r.run st) :
    ∃ nm, st.rest = nm ++ y.rest ∧ GrammarName nm = true ∧ y.pos = st.pos + nm.length ∧
      y.caps = st.caps := by
  subst hr
  obtain ⟨x, hx, hy⟩ := Regex.mem_run_seq h
  obtain ⟨xs1, hr1, hp1, hmin1, hmax1, hpos1, hcaps1⟩ := Regex.mem_run_cls hx
  obtain ⟨xs2, hr2, hp2, hmin2, _, hpos2, hcaps2⟩ := Regex.mem_run_cls hy
  have hlen : xs1.length = 1 := Nat.le_antisymm (hmax1 1 rfl) hmin1
  match xs1, hlen with
  | [c], _ =>
    refine ⟨c :: xs2, ?_, GrammarName_intro c xs2 (hp1 c (List.mem_singleton.mpr rfl)) hmin2 hp2,
      ?_, ?_⟩
    · rw [hr1, hr2]; rfl
    · rw [hpos2, hpos1]; simp only [List.length_cons, List.length_nil]; omega
    · rw [hcaps2, hcaps1]

theorem PARSE_REGEX_TARGET_mem {st y : RegexState} (h : y ∈ PARSE_REGEX_TARGET.run st) :
    ∃ tg, st.rest = tg ++ y.rest ∧ (GrammarName tg = true ∨ GrammarLiteral tg = true) ∧
      y.pos = st.pos + tg.length ∧ y.caps = st.caps := by
  unfold PARSE_REGEX_TARGET at h
  rcases Regex.mem_run_alt h with h | h
  · obtain ⟨nm, h1, h2, h3, h4⟩ := PARSE_REGEX_NAME_mem rfl h
    exact ⟨nm, h1, Or.inl h2, h3, h4⟩
  · obtain ⟨xs, hr, hp, hmin, hmax, hpos, hcaps⟩ := Regex.mem_run_cls h
    exact ⟨xs, hr, Or.inr (GrammarLiteral_intro xs hmin (hmax 10 rfl) hp), hpos, hcaps⟩

theorem PARSE_REGEX_TAIL_mem {st y : RegexState} (h : y ∈ PARSE_REGEX_TAIL.run st) :
    TailParts st.rest st.caps y.caps := by
  unfold PARSE_REGEX_TAIL at h
  obtain ⟨x1, hx1, h⟩ := Regex.mem_run_seq h
  obtain ⟨x2, hx2, h⟩ := Regex.mem_run_seq h
  obtain ⟨x3, hx3, h⟩ := Regex.mem_run_seq h
  obtain ⟨x4, hx4, h⟩ := Regex.mem_run_seq h
  obtain ⟨x5, hx5, h⟩ := Regex.mem_run_seq h
  obtain ⟨ws2, hr1, hp1, _, _, _, hc1⟩ := Regex.mem_run_cls hx1
  obtain ⟨ws3, hr3, hp3, _, _, _, hc3⟩ := Regex.mem_run_cls hx3
  obtain ⟨ws4, hr5, hp5, _, _, _, hc5⟩ := Regex.mem_run_cls hx5
  obtain ⟨hnl, hy⟩ := Regex.mem_run_eol h
  subst hy
  have hcm : ∃ cm, x1.rest = cm ++ x2.rest ∧ (cm = [] ∨ cm = [',']) ∧ x2.caps = x1.caps := by
    rcases Regex.mem_run_opt hx2 with hx2 | hx2
    · obtain ⟨h1, _, h3⟩ := Regex.mem_run_lit hx2
      exact ⟨[','], h1, Or.inr rfl, h3⟩
    · subst hx2
      exact ⟨[], rfl, Or.inl rfl, rfl⟩
  obtain ⟨cm, hr2, hcm, hc2⟩ := hcm
  have htg : ∃ tg, x3.rest = tg ++ x4.rest ∧
      ((tg = [] ∧ x4.caps = x3.caps) ∨
        ((GrammarName tg = true ∨ GrammarLiteral tg = true) ∧ x4.caps = (3, tg) :: x3.caps)) := by
    rcases Regex.mem_run_opt hx4 with hx4 | hx4
    · obtain ⟨z, hz, _, hzr, hzc⟩ := Regex.mem_run_cap hx4
      obtain ⟨tg, h1, h2, h3, h4⟩ := PARSE_REGEX_TARGET_mem hz
      refine ⟨tg, by rw [hzr]; exact h1, Or.inr ⟨h2, ?_⟩⟩
      rw [hzc, h4, h3, h1, Nat.add_sub_cancel_left, List.take_left']
      rfl
    · subst hx4
      exact ⟨[], rfl, Or.inl ⟨rfl, rfl⟩⟩
  obtain ⟨tg, hr4, htg⟩ := htg
  refine ⟨ws2, cm, ws3, tg, ws4, y.rest, ?_, hp1, hcm, hp3, hp5, hnl, ?_⟩
  · rw [hr1, hr2, hr3, hr4, hr5]
  · rcases htg with ⟨h1, h2⟩ | ⟨h1, h2⟩
    · exact Or.inl ⟨h1, by rw [hc5, h2, hc3, hc2, hc1]⟩
    · exact Or.inr ⟨h1, by rw [hc5, h2, hc3, hc2, hc1]⟩

/-- What a match of `PARSE_REGEX` says about the subject and the groups. -/
theorem PARSE_REGEX_mem {start : Nat} {s : List Char} {y : RegexState}
    (h : y ∈ PARSE_REGEX.run ⟨start, s, []⟩) :
    start = 0 ∧ ∃ ws0 nm ws1 op T, s = ws0 ++ (nm ++ ',' :: (ws1 ++ (op ++ T))) ∧
      (∀ c ∈ ws0, pcre_space c = true) ∧ GrammarName nm = true ∧
      (∀ c ∈ ws1, pcre_space c = true) ∧ op ∈ OperatorTexts ∧
      TailParts T [(2, op), (1, nm)] y.caps := by
  unfold PARSE_REGEX at h
  obtain ⟨x0, hx0, g1⟩ := Regex.mem_run_seq h
  obtain ⟨hstart, hx0⟩ := Regex.mem_run_bol hx0
  subst hx0
  obtain ⟨x1, hx1, g2⟩ := Regex.mem_run_seq g1
  obtain ⟨x2, hx2, g3⟩ := Regex.mem_run_seq g2
  obtain ⟨x3, hx3, g4⟩ := Regex.mem_run_seq g3
  obtain ⟨x4, hx4, g5⟩ := Regex.mem_run_seq g4
  obtain ⟨x5, hx5, g6⟩ := Regex.mem_run_seq g5
  obtain ⟨ws0, hr1, hp1, _, _, _, hc1⟩ := Regex.mem_run_cls hx1
  obtain ⟨z, hz, _, hzr, hzc⟩ := Regex.mem_run_cap hx2
  obtain ⟨nm, hn1, hn2, hn3, hn4⟩ := PARSE_REGEX_NAME_mem rfl hz
  obtain ⟨hl1, _, hl3⟩ := Regex.mem_run_lit hx3
  obtain ⟨ws1, hr4, hp4, _, _, _, hc4⟩ := Regex.mem_run_cls hx4
  obtain ⟨z2, hz2, _, hz2r, hz2c⟩ := Regex.mem_run_cap hx5
  obtain ⟨op, ho1, ho2, ho3, ho4⟩ := PARSE_REGEX_OP_mem hz2
  have hT := PARSE_REGEX_TAIL_mem g6
  refine ⟨hstart, ws0, nm, ws1, op, x5.rest, ?_, hp1, hn2, hp4, ho1, ?_⟩
  · have e : s = ws0 ++ x1.rest := hr1
    rw [e, hn1, ← hzr, hl1, hr4, ho2, hz2r]
    rfl
  · have e1 : x2.caps = [(1, nm)] := by
      rw [hzc, hn4, hn3, hn1, Nat.add_sub_cancel_left, List.take_left', hc1]
      rfl
    have e2 : x5.caps = [(2, op), (1, nm)] := by
      rw [hz2c, ho4, ho3, ho2, Nat.add_sub_cancel_left, List.take_left', hc4, hl3, e1]
      rfl
    rw [e2] at hT
    exact hT

theorem pcre_exec_sound (s : List Char) (ov : List (Nat × List Char))
    (h : pcre_exec PARSE_REGEX s = some ov) :
    ∃ ws0 nm ws1 op T, s = ws0 ++ (nm ++ ',' :: (ws1 ++ (op ++ T))) ∧
      (∀ c ∈ ws0, pcre_space c = true) ∧ GrammarName nm = true ∧
      (∀ c ∈ ws1, pcre_space c = true) ∧ op ∈ OperatorTexts ∧
      TailParts T [(2, op), (1, nm)] ov := by
  unfold pcre_exec at h
  obtain ⟨start, _, hs⟩ := List.exists_of_findSome?_eq_some h
  cases hrun : PARSE_REGEX.run ⟨start, s.drop start, []⟩ with
  | nil => rw [hrun] at hs; cases hs
  | cons y T =>
    rw [hrun] at hs
    simp only [List.head?_cons, Option.map_some', Option.some.injEq] at hs
    have hy : y ∈ PARSE_REGEX.run ⟨start, s.drop start, []⟩ := by
      rw [hrun]; exact List.mem_cons_self _ _
    obtain ⟨h0, ws0, nm, ws1, op, T, h1, h2, h3, h4, h5, h6⟩ := PARSE_REGEX_mem hy
    subst h0
    rw [hs] at h6
    exact ⟨ws0, nm, ws1, op, T, h1, h2, h3, h4, h5, h6⟩

/-! ## The characters of the words -/

theorem pcre_word_not_space (c : Char) (h : pcre_word c = true) : pcre_space c = false := by
  cases hs : pcre_space c with
  | false => rfl
  | true =>
    simp only [pcre_space, Bool.or_eq_true, beq_iff_eq] at hs
    rcases hs with (((hs | hs) | hs) | hs) | hs <;> subst hs <;> exact absurd h (by decide)

theorem pcre_word_ne_comma (c : Char) (h : pcre_word c = true) : c ≠ ',' := by
  intro hc; subst hc; exact absurd h (by decide)

theorem pcre_word_ne_eq (c : Char) (h : pcre_word c = true) : c ≠ '=' := by
  intro hc; subst hc; exact absurd h (by decide)

theorem pcre_word_ne_quote (c : Char) (h : pcre_word c = true) : c ≠ '\"' := by
  intro hc; subst hc; exact absurd h (by decide)

theorem pcre_space_ne_comma (c : Char) (h : pcre_space c = true) : c ≠ ',' := by
  intro hc; subst hc; exact absurd h (by decide)

theorem pcre_space_ne_eq (c : Char) (h : pcre_space c = true) : c ≠ '=' := by
  intro hc; subst hc; exact absurd h (by decide)

theorem char_alpha_word (c : Char) (h : c.isAlpha = true) : pcre_word c = true := by
  simp [pcre_word, Char.isAlphanum, h]

theorem char_digit_word (c : Char) (h : c.isDigit = true) : pcre_word c = true := by
  simp [pcre_word, Char.isAlphanum, h]

/-- A name or a literal is not empty and is made of word characters. -/
theorem token_chars (tg : List Char)
    (ht : GrammarName tg = true ∨ GrammarLiteral tg = true) :
    tg ≠ [] ∧ ∀ c ∈ tg, pcre_word c = true := by
  rcases ht with hn | hl
  · obtain ⟨c, cs, rfl, hc, _, hw⟩ := GrammarName_spec tg hn
    refine ⟨List.cons_ne_nil _ _, ?_⟩
    intro x hx
    rcases List.mem_cons.mp hx with hx | hx
    · rw [hx]; exact char_alpha_word c hc
    · exact hw x hx
  · obtain ⟨hne, _, hd⟩ := GrammarLiteral_spec tg hl
    exact ⟨hne, fun x hx => char_digit_word x (hd x hx)⟩

/-- An operator text is not empty and holds no whitespace and no comma. -/
theorem OperatorTexts_chars (op : List Char) (h : op ∈ OperatorTexts) :
    op ≠ [] ∧ ∀ c ∈ op, pcre_space c = false ∧ c ≠ ',' := by
  simp only [OperatorTexts, List.mem_cons, List.mem_singleton, List.not_mem_nil, or_false] at h
  rcases h with h | h | h | h | h | h | h | h | h | h <;> subst h <;> decide

/-- Of two operator texts that start the same text, one is the other or is
followed by `=`. -/
theorem OperatorTexts_prefix (op1 op2 A B : List Char) (h1 : op1 ∈ OperatorTexts)
    (h2 : op2 ∈ OperatorTexts) (h : op1 ++ A = op2 ++ B) :
    (op1 = op2 ∧ A = B) ∨ A.head? = some '=' ∨ B.head? = some '=' := by
  simp only [OperatorTexts, List.mem_cons, List.mem_singleton, List.not_mem_nil, or_false]
    at h1 h2
  rcases h1 with h1 | h1 | h1 | h1 | h1 | h1 | h1 | h1 | h1 | h1 <;>
  rcases h2 with h2 | h2 | h2 | h2 | h2 | h2 | h2 | h2 | h2 | h2 <;>
  subst h1 <;> subst h2 <;>
  simp only [List.cons_append, List.nil_append, List.cons.injEq, true_and] at h <;>
  first
  | exact Or.inl ⟨rfl, h⟩
  | (exfalso; revert h; simp; done)
  | (right; left; rw [h]; rfl)
  | (right; right; rw [← h]; rfl)

/-- A text splits in one way only into a run of characters with a property and
a rest that does not start with such a character. -/
theorem append_split_unique {α : Type} (P : α → Prop) (l1 l2 r1 r2 : List α)
    (hl1 : ∀ x ∈ l1, P x) (hl2 : ∀ x ∈ l2, P x)
    (hr1 : ∀ x, r1.head? = some x → ¬ P x) (hr2 : ∀ x, r2.head? = some x → ¬ P x)
    (h : l1 ++ r1 = l2 ++ r2) : l1 = l2 ∧ r1 = r2 := by
  induction l1 generalizing l2 with
  | nil =>
    cases l2 with
    | nil => exact ⟨rfl, h⟩
    | cons b l2 =>
      exfalso
      simp only [List.nil_append, List.cons_append] at h
      exact hr1 b (by rw [h]; rfl) (hl2 b (List.mem_cons_self _ _))
  | cons a l1 ih =>
    cases l2 with
    | nil =>
      exfalso
      simp only [List.nil_append, List.cons_append] at h
      exact hr2 a (by rw [← h]; rfl) (hl1 a (List.mem_cons_self _ _))
    | cons b l2 =>
      simp only [List.cons_append, List.cons.injEq] at h
      obtain ⟨hab, h⟩ := h
      obtain ⟨e1, e2⟩ := ih l2 (fun x hx => hl1 x (List.mem_cons_of_mem _ hx))
        (fun x hx => hl2 x (List.mem_cons_of_mem _ hx)) h
      exact ⟨by rw [hab, e1], e2⟩

/-! ## The pattern: reading a match back -/

/-- Every character of a text after the operator is whitespace, a comma or a
word character. -/
theorem TailParts_chars {T : List Char} {caps0 caps : List (Nat × List Char)}
    (h : TailParts T caps0 caps) :
    ∀ x ∈ T, pcre_space x = true ∨ x = ',' ∨ pcre_word x = true := by
  obtain ⟨ws2, cm, ws3, tg, ws4, nl, rfl, h2, hcm, h3, h4, hnl, htg⟩ := h
  intro x hx
  simp only [List.mem_append] at hx
  rcases hx with hx | hx | hx | hx | hx | hx
  · exact Or.inl (h2 x hx)
  · rcases hcm with hcm | hcm
    · rw [hcm] at hx; cases hx
    · rw [hcm] at hx; exact Or.inr (Or.inl (List.mem_singleton.mp hx))
  · exact Or.inl (h3 x hx)
  · rcases htg with ⟨htg, _⟩ | ⟨htg, _⟩
    · rw [htg] at hx; cases hx
    · exact Or.inr (Or.inr ((token_chars tg htg).2 x hx))
  · exact Or.inl (h4 x hx)
  · rcases hnl with hnl | hnl
    · rw [hnl] at hx; cases hx
    · rw [hnl] at hx; rw [List.mem_singleton.mp hx]; exact Or.inl (by decide)

theorem TailParts_head_ne_eq {T : List Char} {caps0 caps : List (Nat × List Char)}
    (h : TailParts T caps0 caps) : T.head? ≠ some '=' := by
  intro he
  cases T with
  | nil => cases he
  | cons a T =>
    simp only [List.head?_cons, Option.some.injEq] at he
    subst he
    rcases TailParts_chars h '=' (List.mem_cons_self _ _) with h1 | h1 | h1
    · exact absurd h1 (by decide)
    · exact absurd h1 (by decide)
    · exact absurd h1 (by decide)

/-- A match on a text with a comma after a comma-free start: the start is
whitespace and a name, and what follows the comma is whitespace, an operator
text and the rest of the pattern. -/
theorem pcre_exec_inv (N R : List Char) (ov : List (Nat × List Char))
    (hN : ∀ c ∈ N, c ≠ ',')
    (h : pcre_exec PARSE_REGEX (N ++ ',' :: R) = some ov) :
    ∃ ws0 nm ws1 op T, N = ws0 ++ nm ∧ R = ws1 ++ (op ++ T) ∧
      (∀ c ∈ ws0, pcre_space c = true) ∧ GrammarName nm = true ∧
      (∀ c ∈ ws1, pcre_space c = true) ∧ op ∈ OperatorTexts ∧
      TailParts T [(2, op), (1, nm)] ov := by
  obtain ⟨ws0, nm, ws1, op, T, hs, h0, hnm, h1, hop, hT⟩ := pcre_exec_sound _ _ h
  have hl : ∀ x ∈ ws0 ++ nm, x ≠ ',' := by
    intro x hx
    rcases List.mem_append.mp hx with hx | hx
    · exact pcre_space_ne_comma x (h0 x hx)
    · exact pcre_word_ne_comma x ((token_chars nm (Or.inl hnm)).2 x hx)
  have hcomma : ∀ (l : List Char) (x : Char), (',' :: l).head? = some x → ¬ x ≠ ',' := by
    intro l x hx
    simp only [List.head?_cons, Option.some.injEq] at hx
    exact fun hne => hne hx.symm
  have e : N ++ ',' :: R = (ws0 ++ nm) ++ ',' :: (ws1 ++ (op ++ T)) := by
    rw [hs, List.append_assoc]
  obtain ⟨e1, e2⟩ := append_split_unique (fun x => x ≠ ',') N (ws0 ++ nm) (',' :: R)
    (',' :: (ws1 ++ (op ++ T))) hN hl (hcomma _) (hcomma _) e
  exact ⟨ws0, nm, ws1, op, T, e1, (List.cons.inj e2).2, h0, hnm, h1, hop, hT⟩

/-- The head of a text that starts with a word or an operator text is no
whitespace. -/
theorem head_not_space (w A : List Char) (hne : w ≠ [])
    (hw : ∀ c ∈ w, pcre_space c = false) :
    ∀ x, (w ++ A).head? = some x → ¬ pcre_space x = true := by
  intro x hx
  cases w with
  | nil => exact absurd rfl hne
  | cons a w =>
    simp only [List.cons_append, List.head?_cons, Option.some.injEq] at hx
    subst hx
    rw [hw a (List.mem_cons_self _ _)]
    exact Bool.false_ne_true

theorem GrammarName_not_space (nm : List Char) (h : GrammarName nm = true) :
    nm ≠ [] ∧ ∀ c ∈ nm, pcre_space c = false :=
  ⟨(token_chars nm (Or.inl h)).1,
    fun c hc => pcre_word_not_space c ((token_chars nm (Or.inl h)).2 c hc)⟩

/-- A match on `NAME,OP` followed by a text that does not start with `=`: the
groups are NAME and OP, and the text is what the pattern takes after the
operator. -/
theorem pcre_exec_inv_words (w0 NAME w1 OP A : List Char) (ov : List (Nat × List Char))
    (h0 : ∀ c ∈ w0, pcre_space c = true) (hn : GrammarName NAME = true)
    (h1 : ∀ c ∈ w1, pcre_space c = true) (hop : OP ∈ OperatorTexts)
    (hA : A.head? ≠ some '=')
    (h : pcre_exec PARSE_REGEX (w0 ++ (NAME ++ ',' :: (w1 ++ (OP ++ A)))) = some ov) :
    TailParts A [(2, OP), (1, NAME)] ov := by
  have hN : ∀ c ∈ w0 ++ NAME, c ≠ ',' := by
    intro x hx
    rcases List.mem_append.mp hx with hx | hx
    · exact pcre_space_ne_comma x (h0 x hx)
    · exact pcre_word_ne_comma x ((token_chars NAME (Or.inl hn)).2 x hx)
  rw [← List.append_assoc] at h
  obtain ⟨ws0, nm, ws1, op, T, e1, e2, g0, gnm, g1, gop, gT⟩ := pcre_exec_inv _ _ ov hN h
  obtain ⟨a1, a2⟩ := append_split_unique (fun x => pcre_space x = true) w0 ws0 NAME nm h0 g0
    (by
      have := head_not_space NAME [] (GrammarName_not_space NAME hn).1
        (GrammarName_not_space NAME hn).2
      simpa using this)
    (by
      have := head_not_space nm [] (GrammarName_not_space nm gnm).1
        (GrammarName_not_space nm gnm).2
      simpa using this) e1
  obtain ⟨b1, b2⟩ := append_split_unique (fun x => pcre_space x = true) w1 ws1 (OP ++ A)
    (op ++ T) h1 g1
    (head_not_space OP A (OperatorTexts_chars OP hop).1
      (fun c hc => ((OperatorTexts_chars OP hop).2 c hc).1))
    (head_not_space op T (OperatorTexts_chars op gop).1
      (fun c hc => ((OperatorTexts_chars op gop).2 c hc).1)) e2
  rcases OperatorTexts_prefix OP op A T hop gop b2 with ⟨c1, c2⟩ | c | c
  · rw [a2, c1, c2]; exact gT
  · exact absurd c hA
  · exact absurd c (TailParts_head_ne_eq gT)

/-- A match on `NAME,TOK,...` where TOK holds no comma and no whitespace: TOK
is one of the ten operator texts. -/
theorem pcre_exec_inv_optext (N TOK D : List Char) (ov : List (Nat × List Char))
    (hN : ∀ c ∈ N, c ≠ ',') (hT : ∀ c ∈ TOK, c ≠ ',' ∧ pcre_space c = false)
    (h : pcre_exec PARSE_REGEX (N ++ ',' :: (TOK ++ ',' :: D)) = some ov) :
    TOK ∈ OperatorTexts := by
  obtain ⟨ws0, nm, ws1, op, T, _, e2, _, _, g1, gop, gT⟩ := pcre_exec_inv _ _ ov hN h
  obtain ⟨ws2, cm, ws3, tg, ws4, nl, rfl, k2, kcm, k3, k4, knl, ktg⟩ := gT
  have hcomma : ∀ (l : List Char) (x : Char), (',' :: l).head? = some x → ¬ x ≠ ',' := by
    intro l x hx
    simp only [List.head?_cons, Option.some.injEq] at hx
    exact fun hne => hne hx.symm
  have hpre : ∀ x ∈ ws1 ++ (op ++ ws2), x ≠ ',' := by
    intro x hx
    simp only [List.mem_append] at hx
    rcases hx with hx | hx | hx
    · exact pcre_space_ne_comma x (g1 x hx)
    · exact ((OperatorTexts_chars op gop).2 x hx).2
    · exact pcre_space_ne_comma x (k2 x hx)
  have hrest : ∀ x ∈ ws3 ++ (tg ++ (ws4 ++ nl)), x ≠ ',' := by
    intro x hx
    simp only [List.mem_append] at hx
    rcases hx with hx | hx | hx | hx
    · exact pcre_space_ne_comma x (k3 x hx)
    · rcases ktg with ⟨ktg, _⟩ | ⟨ktg, _⟩
      · rw [ktg] at hx; cases hx
      · exact pcre_word_ne_comma x ((token_chars tg ktg).2 x hx)
    · exact pcre_space_ne_comma x (k4 x hx)
    · rcases knl with knl | knl
      · rw [knl] at hx; cases hx
      · rw [knl] at hx; rw [List.mem_singleton.mp hx]; decide
  rcases kcm with kcm | kcm
  · exfalso
    subst kcm
    have hmem : ',' ∈ TOK ++ ',' :: D := by simp
    rw [e2] at hmem
    simp only [List.mem_append, List.nil_append] at hmem
    rcases hmem with hm | hm | hm | hm
    · exact hpre ',' (by simp [hm]) rfl
    · exact hpre ',' (by simp [hm]) rfl
    · exact hpre ',' (by simp [hm]) rfl
    · exact hrest ',' (by simpa [List.mem_append] using hm) rfl
  · subst kcm
    have e : TOK ++ ',' :: D = (ws1 ++ (op ++ ws2)) ++ ',' :: (ws3 ++ (tg ++ (ws4 ++ nl))) := by
      rw [e2]; simp
    obtain ⟨a1, _⟩ := append_split_unique (fun x => x ≠ ',') TOK (ws1 ++ (op ++ ws2))
      (',' :: D) (',' :: (ws3 ++ (tg ++ (ws4 ++ nl)))) (fun x hx => (hT x hx).1) hpre
      (hcomma _) (hcomma _) e
    have hw1 : ws1 = [] := by
      cases ws1 with
      | nil => rfl
      | cons a l =>
        have := (hT a (by rw [a1]; simp)).2
        rw [g1 a (List.mem_cons_self _ _)] at this
        cases this
    have hw2 : ws2 = [] := by
      cases ws2 with
      | nil => rfl
      | cons a l =>
        have := (hT a (by rw [a1]; simp)).2
        rw [k2 a (List.mem_cons_self _ _)] at this
        cases this
    rw [a1, hw1, hw2]
    simpa using gop

theorem head_comma_not (l : List Char) (x : Char) (hx : (',' :: l).head? = some x) :
    ¬ x ≠ ',' := by
  simp only [List.head?_cons, Option.some.injEq] at hx
  exact fun hne => hne hx.symm

/-- The text after the operator, when it starts with a comma: whitespace, at
most one target, whitespace and the end. -/
theorem TailParts_after_comma {w2 D : List Char} {caps0 caps : List (Nat × List Char)}
    (h2 : ∀ c ∈ w2, pcre_space c = true) (h : TailParts (w2 ++ ',' :: D) caps0 caps) :
    ∃ ws3 tg ws4 nl, D = ws3 ++ (tg ++ (ws4 ++ nl)) ∧
      (∀ c ∈ ws3, pcre_space c = true) ∧ (∀ c ∈ ws4, pcre_space c = true) ∧
      (nl = [] ∨ nl = ['\n']) ∧
      ((tg = [] ∧ caps = caps0) ∨
        ((GrammarName tg = true ∨ GrammarLiteral tg = true) ∧ caps = (3, tg) :: caps0)) := by
  obtain ⟨ws2, cm, ws3, tg, ws4, nl, e, k2, kcm, k3, k4, knl, ktg⟩ := h
  have hrest : ∀ x ∈ ws3 ++ (tg ++ (ws4 ++ nl)), x ≠ ',' := by
    intro x hx
    simp only [List.mem_append] at hx
    rcases hx with hx | hx | hx | hx
    · exact pcre_space_ne_comma x (k3 x hx)
    · rcases ktg with ⟨ktg, _⟩ | ⟨ktg, _⟩
      · rw [ktg] at hx; cases hx
      · exact pcre_word_ne_comma x ((token_chars tg ktg).2 x hx)
    · exact pcre_space_ne_comma x (k4 x hx)
    · rcases knl with knl | knl
      · rw [knl] at hx; cases hx
      · rw [knl] at hx; rw [List.mem_singleton.mp hx]; decide
  rcases kcm with kcm | kcm
  · exfalso
    subst kcm
    have hmem : ',' ∈ w2 ++ ',' :: D := by simp
    rw [e] at hmem
    rcases List.mem_append.mp hmem with hm | hm
    · exact pcre_space_ne_comma ',' (k2 _ hm) rfl
    · exact hrest ',' (by simpa using hm) rfl
  · subst kcm
    obtain ⟨_, a2⟩ := append_split_unique (fun x => x ≠ ',') w2 ws2 (',' :: D)
      (',' :: (ws3 ++ (tg ++ (ws4 ++ nl)))) (fun x hx => pcre_space_ne_comma x (h2 x hx))
      (fun x hx => pcre_space_ne_comma x (k2 x hx)) (head_comma_not _) (head_comma_not _)
      (by rw [e]; rfl)
    exact ⟨ws3, tg, ws4, nl, (List.cons.inj a2).2, k3, k4, knl, ktg⟩

/-- The text after the operator, when it is whitespace, a comma, whitespace, a
word and whitespace: the word is the target, a name or a literal. -/
theorem TailParts_target {w2 w3 TARGET w4 : List Char} {caps0 caps : List (Nat × List Char)}
    (h2 : ∀ c ∈ w2, pcre_space c = true) (h3 : ∀ c ∈ w3, pcre_space c = true)
    (h4 : ∀ c ∈ w4, pcre_space c = true) (hne : TARGET ≠ [])
    (hw : ∀ c ∈ TARGET, pcre_word c = true)
    (h : TailParts (w2 ++ ',' :: (w3 ++ (TARGET ++ w4))) caps0 caps) :
    caps = (3, TARGET) :: caps0 ∧ (GrammarName TARGET = true ∨ GrammarLiteral TARGET = true) := by
  obtain ⟨ws3, tg, ws4, nl, e, k3, k4, knl, ktg⟩ := TailParts_after_comma h2 h
  have hsp : ∀ x ∈ ws4 ++ nl, pcre_space x = true := by
    intro x hx
    rcases List.mem_append.mp hx with hx | hx
    · exact k4 x hx
    · rcases knl with knl | knl
      · rw [knl] at hx; cases hx
      · rw [knl] at hx; rw [List.mem_singleton.mp hx]; decide
  have hT : ∀ x, (TARGET ++ w4).head? = some x → ¬ pcre_space x = true :=
    head_not_space TARGET w4 hne (fun c hc => pcre_word_not_space c (hw c hc))
  rcases ktg with ⟨ktg, _⟩ | ⟨ktg, kc⟩
  · exfalso
    subst ktg
    cases TARGET with
    | nil => exact hne rfl
    | cons a l =>
      have hmem : a ∈ w3 ++ ((a :: l) ++ w4) := by simp
      rw [e] at hmem
      have hs : pcre_space a = true := by
        simp only [List.nil_append, List.mem_append] at hmem
        rcases hmem with hm | hm | hm
        · exact k3 a hm
        · exact hsp a (List.mem_append_left _ hm)
        · exact hsp a (List.mem_append_right _ hm)
      rw [pcre_word_not_space a (hw a (List.mem_cons_self _ _))] at hs
      cases hs
  · obtain ⟨_, a2⟩ := append_split_unique (fun x => pcre_space x = true) w3 ws3 (TARGET ++ w4)
      (tg ++ (ws4 ++ nl)) h3 k3 hT
      (head_not_space tg (ws4 ++ nl) (token_chars tg ktg).1
        (fun c hc => pcre_word_not_space c ((token_chars tg ktg).2 c hc))) e
    have hstop : ∀ (l : List Char), (∀ x ∈ l, pcre_space x = true) →
        ∀ x, l.head? = some x → ¬ pcre_word x = true := by
      intro l hl x hx hwx
      cases l with
      | nil => cases hx
      | cons a l =>
        simp only [List.head?_cons, Option.some.injEq] at hx
        subst hx
        have := hl a (List.mem_cons_self _ _)
        rw [pcre_word_not_space a hwx] at this
        cases this
    obtain ⟨b1, _⟩ := append_split_unique (fun x => pcre_word x = true) TARGET tg w4
      (ws4 ++ nl) hw (token_chars tg ktg).2 (hstop w4 h4) (hstop _ hsp) a2
    rw [b1]
    exact ⟨kc, ktg⟩

/-- The text after the operator, when it holds whitespace and commas only: no
target. -/
theorem TailParts_no_target {A : List Char} {caps0 caps : List (Nat × List Char)}
    (hA : ∀ x ∈ A, pcre_space x = true ∨ x = ',') (h : TailParts A caps0 caps) :
    caps = caps0 := by
  obtain ⟨ws2, cm, ws3, tg, ws4, nl, e, _, _, _, _, _, ktg⟩ := h
  rcases ktg with ⟨_, kc⟩ | ⟨ktg, _⟩
  · exact kc
  · exfalso
    obtain ⟨hne, hw⟩ := token_chars tg ktg
    cases tg with
    | nil => exact hne rfl
    | cons a l =>
      have hwa := hw a (List.mem_cons_self _ _)
      rcases hA a (by rw [e]; simp) with h1 | h1
      · rw [pcre_word_not_space a hwa] at h1; cases h1
      · exact pcre_word_ne_comma a hwa h1

/-- The text after the operator, when a digit follows the comma: digits and
whitespace only. -/
theorem TailParts_digit_first {d : Char} {rest : List Char}
    {caps0 caps : List (Nat × List Char)} (hd : d.isDigit = true)
    (h : TailParts (',' :: d :: rest) caps0 caps) :
    ∀ x ∈ d :: rest, x.isDigit = true ∨ pcre_space x = true := by
  obtain ⟨ws3, tg, ws4, nl, e, k3, k4, knl, ktg⟩ :=
    @TailParts_after_comma [] (d :: rest) caps0 caps (by intro c hc; cases hc) h
  have hsp : ∀ x ∈ ws4 ++ nl, pcre_space x = true := by
    intro x hx
    rcases List.mem_append.mp hx with hx | hx
    · exact k4 x hx
    · rcases knl with knl | knl
      · rw [knl] at hx; cases hx
      · rw [knl] at hx; rw [List.mem_singleton.mp hx]; decide
  have hds := char_digit_not_space d hd
  have hw3 : ws3 = [] := by
    cases ws3 with
    | nil => rfl
    | cons a l =>
      simp only [List.cons_append, List.cons.injEq] at e
      have := k3 a (List.mem_cons_self _ _)
      rw [← e.1, hds] at this
      cases this
  subst hw3
  rw [List.nil_append] at e
  have htg : ∀ x ∈ tg, x.isDigit = true := by
    rcases ktg with ⟨ktg, _⟩ | ⟨ktg | ktg, _⟩
    · intro x hx; rw [ktg] at hx; cases hx
    · exfalso
      obtain ⟨c, cs, hc, hal, _, _⟩ := GrammarName_spec tg ktg
      rw [hc] at e
      simp only [List.cons_append, List.cons.injEq] at e
      rw [← e.1, char_digit_not_alpha d hd] at hal
      cases hal
    · exact (GrammarLiteral_spec tg ktg).2.2
  intro x hx
  rw [e] at hx
  rcases List.mem_append.mp hx with hx | hx
  · exact Or.inl (htg x hx)
  · exact Or.inr (hsp x hx)

/-! ## The pattern: finding a match -/

theorem Regex.takes_cls (p : Char → Bool) (min : Nat) (max : Option Nat) (xs Y : List Char)
    (hp : ∀ x ∈ xs, p x = true) (hmin : min ≤ xs.length)
    (hmax : ∀ m, max = some m → xs.length ≤ m) :
    (Regex.cls p min max).Takes (xs ++ Y) Y := by
  intro st hst
  have havail : xs.length ≤ (st.rest.takeWhile p).length := by
    rw [hst, List.takeWhile_append_of_pos hp, List.length_append]
    omega
  have hadv : (st.advance xs.length).rest = Y := by
    simp [RegexState.advance, hst]
  have main : ∀ n : Nat, xs.length ≤ n →
      st.advance xs.length ∈ (List.range (n + 1 - min)).map (fun i => st.advance (n - i)) := by
    intro n hn
    refine List.mem_map.mpr ⟨n - xs.length, List.mem_range.mpr (by omega), ?_⟩
    have : n - (n - xs.length) = xs.length := by omega
    rw [this]
  refine ⟨st.advance xs.length, ?_, hadv⟩
  cases max with
  | none => exact main _ havail
  | some m =>
    have hm := hmax m rfl
    exact main _ (Nat.le_min.mpr ⟨havail, hm⟩)

theorem Regex.takes_lit (s Y : List Char) : (Regex.lit s).Takes (s ++ Y) Y := by
  intro st hst
  refine ⟨st.advance s.length, ?_, by simp [RegexState.advance, hst]⟩
  simp [Regex.run, hst]

theorem Regex.takes_seq {a b : Regex} {X Y Z : List Char} (ha : a.Takes X Y)
    (hb : b.Takes Y Z) : (Regex.seq a b).Takes X Z := by
  intro st hst
  obtain ⟨x, hx, hxr⟩ := ha st hst
  obtain ⟨y, hy, hyr⟩ := hb x hxr
  exact ⟨y, by simp only [Regex.run, List.mem_flatMap]; exact ⟨x, hx, hy⟩, hyr⟩

theorem Regex.takes_alt_left {a b : Regex} {X Y : List Char} (ha : a.Takes X Y) :
    (Regex.alt a b).Takes X Y := by
  intro st hst
  obtain ⟨y, hy, hyr⟩ := ha st hst
  exact ⟨y, by simp only [Regex.run, List.mem_append]; exact Or.inl hy, hyr⟩

theorem Regex.takes_alt_right {a b : Regex} {X Y : List Char} (hb : b.Takes X Y) :
    (Regex.alt a b).Takes X Y := by
  intro st hst
  obtain ⟨y, hy, hyr⟩ := hb st hst
  exact ⟨y, by simp only [Regex.run, List.mem_append]; exact Or.inr hy, hyr⟩

theorem Regex.takes_opt {r : Regex} {X Y : List Char} (h : r.Takes X Y) :
    (Regex.opt r).Takes X Y := by
  intro st hst
  obtain ⟨y, hy, hyr⟩ := h st hst
  exact ⟨y, by simp only [Regex.run, List.mem_append]; exact Or.inl hy, hyr⟩

theorem Regex.takes_opt_skip (r : Regex) (X : List Char) : (Regex.opt r).Takes X X := by
  intro st hst
  exact ⟨st, by simp [Regex.run], hst⟩

theorem Regex.takes_cap {r : Regex} {X Y : List Char} (n : Nat) (h : r.Takes X Y) :
    (Regex.cap n r).Takes X Y := by
  intro st hst
  obtain ⟨y, hy, hyr⟩ := h st hst
  refine ⟨{ y with caps := (n, st.rest.take (y.pos - st.pos)) :: y.caps }, ?_, hyr⟩
  simp only [Regex.run, List.mem_map]
  exact ⟨y, hy, rfl⟩

theorem Regex.takes_eol : Regex.eol.Takes [] [] := by
  intro st hst
  exact ⟨st, by simp [Regex.run, hst], hst⟩

theorem Regex.takes_space (ws Y : List Char) (h : ∀ c ∈ ws, pcre_space c = true) :
    (Regex.cls pcre_space 0 none).Takes (ws ++ Y) Y :=
  Regex.takes_cls pcre_space 0 none ws Y h (Nat.zero_le _) (by intro m hm; cases hm)

theorem Regex.takes_name (nm Y : List Char) (h : GrammarName nm = true) :
    (Regex.seq (Regex.cls Char.isAlpha 1 (some 1)) (Regex.cls pcre_word 1 none)).Takes
      (nm ++ Y) Y := by
  obtain ⟨c, cs, rfl, hc, hne, hw⟩ := GrammarName_spec nm h
  have h1 : (Regex.cls Char.isAlpha 1 (some 1)).Takes ([c] ++ (cs ++ Y)) (cs ++ Y) :=
    Regex.takes_cls _ _ _ [c] _ (by intro x hx; rw [List.mem_singleton.mp hx]; exact hc)
      (Nat.le_refl _) (by intro m hm; cases hm; exact Nat.le_refl _)
  have h2 : (Regex.cls pcre_word 1 none).Takes (cs ++ Y) Y :=
    Regex.takes_cls _ _ _ cs _ hw
      (by cases cs with
          | nil => exact absurd rfl hne
          | cons a l => simp)
      (by intro m hm; cases hm)
  exact Regex.takes_seq h1 h2

theorem PARSE_REGEX_OP_takes (op Y : List Char) (h : op ∈ OperatorTexts) :
    PARSE_REGEX_OP.Takes (op ++ Y) Y := by
  have hset : ∀ c : Char, pcre_setop c = true →
      (Regex.cls pcre_setop 1 (some 1)).Takes ([c] ++ Y) Y := by
    intro c hc
    exact Regex.takes_cls _ _ _ [c] _ (by intro x hx; rw [List.mem_singleton.mp hx]; exact hc)
      (Nat.le_refl _) (by intro m hm; cases hm; exact Nat.le_refl _)
  simp only [OperatorTexts, List.mem_cons, List.mem_singleton, List.not_mem_nil, or_false] at h
  unfold PARSE_REGEX_OP
  rcases h with h | h | h | h | h | h | h | h | h | h <;> subst h
  · exact Regex.takes_alt_left (hset '=' (by decide))
  · exact Regex.takes_alt_left (hset '+' (by decide))
  · exact Regex.takes_alt_left (hset '-' (by decide))
  · exact Regex.takes_alt_right (Regex.takes_alt_left (Regex.takes_lit _ _))
  · exact Regex.takes_alt_right (Regex.takes_alt_right (Regex.takes_alt_left
      (Regex.takes_lit _ _)))
  · exact Regex.takes_alt_right (Regex.takes_alt_right (Regex.takes_alt_right
      (Regex.takes_alt_left (Regex.takes_lit _ _))))
  · exact Regex.takes_alt_right (Regex.takes_alt_right (Regex.takes_alt_right
      (Regex.takes_alt_right (Regex.takes_alt_left (Regex.takes_lit _ _)))))
  · exact Regex.takes_alt_right (Regex.takes_alt_right (Regex.takes_alt_right
      (Regex.takes_alt_right (Regex.takes_alt_right (Regex.takes_alt_left
        (Regex.takes_lit _ _))))))
  · exact Regex.takes_alt_right (Regex.takes_alt_right (Regex.takes_alt_right
      (Regex.takes_alt_right (Regex.takes_alt_right (Regex.takes_alt_right
        (Regex.takes_alt_left (Regex.takes_lit _ _)))))))
  · exact Regex.takes_alt_right (Regex.takes_alt_right (Regex.takes_alt_right
      (Regex.takes_alt_right (Regex.takes_alt_right (Regex.takes_alt_right
        (Regex.takes_alt_right (Regex.takes_lit _ _)))))))

theorem PARSE_REGEX_TARGET_takes (tg Y : List Char)
    (h : GrammarName tg = true ∨ GrammarLiteral tg = true) :
    PARSE_REGEX_TARGET.Takes (tg ++ Y) Y := by
  unfold PARSE_REGEX_TARGET
  rcases h with h | h
  · exact Regex.takes_alt_left (Regex.takes_name tg Y h)
  · obtain ⟨hne, hlen, hd⟩ := GrammarLiteral_spec tg h
    refine Regex.takes_alt_right (Regex.takes_cls _ _ _ tg Y hd ?_ ?_)
    · cases tg with
      | nil => exact absurd rfl hne
      | cons a l => simp
    · intro m hm; cases hm; exact hlen

/-- The pattern after the operator takes whitespace, a comma or none,
whitespace, a target or none, and whitespace to the end of the subject. -/
theorem PARSE_REGEX_TAIL_takes (w2 cm w3 tg w4 : List Char)
    (h2 : ∀ c ∈ w2, pcre_space c = true) (hcm : cm = [] ∨ cm = [','])
    (h3 : ∀ c ∈ w3, pcre_space c = true)
    (htg : tg = [] ∨ GrammarName tg = true ∨ GrammarLiteral tg = true)
    (h4 : ∀ c ∈ w4, pcre_space c = true) :
    PARSE_REGEX_TAIL.Takes (w2 ++ (cm ++ (w3 ++ (tg ++ w4)))) [] := by
  unfold PARSE_REGEX_TAIL
  have k5 : (Regex.seq (Regex.cls pcre_space 0 none) Regex.eol).Takes w4 [] := by
    have := Regex.takes_space w4 [] h4
    rw [List.append_nil] at this
    exact Regex.takes_seq this Regex.takes_eol
  have k4 : (Regex.opt (Regex.cap 3 PARSE_REGEX_TARGET)).Takes (tg ++ w4) w4 := by
    rcases htg with htg | htg
    · rw [htg]; exact Regex.takes_opt_skip _ _
    · exact Regex.takes_opt (Regex.takes_cap 3 (PARSE_REGEX_TARGET_takes tg w4 htg))
  have k2 : (Regex.opt (Regex.lit [','])).Takes (cm ++ (w3 ++ (tg ++ w4))) (w3 ++ (tg ++ w4)) := by
    rcases hcm with hcm | hcm
    · rw [hcm]; exact Regex.takes_opt_skip _ _
    · rw [hcm]; exact Regex.takes_opt (Regex.takes_lit _ _)
  exact Regex.takes_seq (Regex.takes_space w2 _ h2) (Regex.takes_seq k2
    (Regex.takes_seq (Regex.takes_space w3 _ h3) (Regex.takes_seq k4 k5)))

/-- The pattern matches whitespace, a name, a comma, whitespace, an operator
text and a text that the rest of the pattern takes to the end. -/
theorem pcre_exec_complete (w0 NAME w1 OP A : List Char)
    (h0 : ∀ c ∈ w0, pcre_space c = true) (hn : GrammarName NAME = true)
    (h1 : ∀ c ∈ w1, pcre_space c = true) (hop : OP ∈ OperatorTexts)
    (hA : PARSE_REGEX_TAIL.Takes A []) :
    ∃ ov, pcre_exec PARSE_REGEX (w0 ++ (NAME ++ ',' :: (w1 ++ (OP ++ A)))) = some ov := by
  have hrest : (Regex.seq (Regex.cls pcre_space 0 none)
      (Regex.seq (Regex.cap 1 (Regex.seq (Regex.cls Char.isAlpha 1 (some 1))
        (Regex.cls pcre_word 1 none)))
        (Regex.seq (Regex.lit [','])
          (Regex.seq (Regex.cls pcre_space 0 none)
            (Regex.seq (Regex.cap 2 PARSE_REGEX_OP) PARSE_REGEX_TAIL))))).Takes
      (w0 ++ (NAME ++ ',' :: (w1 ++ (OP ++ A)))) [] :=
    Regex.takes_seq (Regex.takes_space w0 _ h0)
      (Regex.takes_seq (Regex.takes_cap 1 (Regex.takes_name NAME _ hn))
        (Regex.takes_seq (Regex.takes_lit [','] _)
          (Regex.takes_seq (Regex.takes_space w1 _ h1)
            (Regex.takes_seq (Regex.takes_cap 2 (PARSE_REGEX_OP_takes OP A hop)) hA))))
  obtain ⟨y, hy, _⟩ := hrest ⟨0, w0 ++ (NAME ++ ',' :: (w1 ++ (OP ++ A))), []⟩ rfl
  have hrun : y ∈ PARSE_REGEX.run ⟨0, w0 ++ (NAME ++ ',' :: (w1 ++ (OP ++ A))), []⟩ := by
    unfold PARSE_REGEX
    simp only [Regex.run, List.mem_flatMap]
    refine ⟨⟨0, w0 ++ (NAME ++ ',' :: (w1 ++ (OP ++ A))), []⟩, by simp, ?_⟩
    simpa only [Regex.run, List.mem_flatMap] using hy
  unfold pcre_exec
  rw [List.range_succ_eq_map, List.findSome?_cons]
  cases hr : PARSE_REGEX.run ⟨0, w0 ++ (NAME ++ ',' :: (w1 ++ (OP ++ A))), []⟩ with
  | nil => rw [hr] at hrun; cases hrun
  | cons z T => exact ⟨z.caps, by simp [hr]⟩

/-! ## The parser, from the groups of the match -/

theorem head_space_comma_ne_eq (w l : List Char) (hw : ∀ c ∈ w, pcre_space c = true) :
    (w ++ ',' :: l).head? ≠ some '=' := by
  cases w with
  | nil => simp
  | cons a w =>
    simp only [List.cons_append, List.head?_cons, ne_eq, Option.some.injEq]
    exact pcre_space_ne_eq a (hw a (List.mem_cons_self _ _))

/-- The groups of a match on a text with a word after the second comma. -/
theorem pcre_exec_target_groups (w0 NAME w1 OP w2 w3 TARGET w4 : List Char)
    (ov : List (Nat × List Char))
    (h0 : ∀ c ∈ w0, pcre_space c = true) (hn : GrammarName NAME = true)
    (h1 : ∀ c ∈ w1, pcre_space c = true) (hop : OP ∈ OperatorTexts)
    (h2 : ∀ c ∈ w2, pcre_space c = true) (h3 : ∀ c ∈ w3, pcre_space c = true)
    (hne : TARGET ≠ []) (hw : ∀ c ∈ TARGET, pcre_word c = true)
    (h4 : ∀ c ∈ w4, pcre_space c = true)
    (h : pcre_exec PARSE_REGEX
      (w0 ++ (NAME ++ ',' :: (w1 ++ (OP ++ (w2 ++ ',' :: (w3 ++ (TARGET ++ w4))))))) = some ov) :
    ov = [(3, TARGET), (2, OP), (1, NAME)] ∧
      (GrammarName TARGET = true ∨ GrammarLiteral TARGET = true) :=
  TailParts_target h2 h3 h4 hne hw
    (pcre_exec_inv_words w0 NAME w1 OP _ ov h0 hn h1 hop (head_space_comma_ne_eq w2 _ h2) h)

/-- The match of a text with a target, whitespace around the words. -/
theorem pcre_exec_words_target (w0 NAME w1 OP w2 w3 TARGET w4 : List Char)
    (h0 : ∀ c ∈ w0, pcre_space c = true) (hn : GrammarName NAME = true)
    (h1 : ∀ c ∈ w1, pcre_space c = true) (hop : OP ∈ OperatorTexts)
    (h2 : ∀ c ∈ w2, pcre_space c = true) (h3 : ∀ c ∈ w3, pcre_space c = true)
    (ht : GrammarName TARGET = true ∨ GrammarLiteral TARGET = true)
    (h4 : ∀ c ∈ w4, pcre_space c = true) :
    pcre_exec PARSE_REGEX
      (w0 ++ (NAME ++ ',' :: (w1 ++ (OP ++ (w2 ++ ',' :: (w3 ++ (TARGET ++ w4))))))) =
      some [(3, TARGET), (2, OP), (1, NAME)] := by
  obtain ⟨ov, hov⟩ := pcre_exec_complete w0 NAME w1 OP (w2 ++ ',' :: (w3 ++ (TARGET ++ w4)))
    h0 hn h1 hop
    (PARSE_REGEX_TAIL_takes w2 [','] w3 TARGET w4 h2 (Or.inr rfl) h3 (Or.inr ht) h4)
  rw [hov, (pcre_exec_target_groups w0 NAME w1 OP w2 w3 TARGET w4 ov h0 hn h1 hop h2 h3
    (token_chars TARGET ht).1 (token_chars TARGET ht).2 h4 hov).1]

/-- The groups of a match on a text with whitespace and commas only after the
operator. -/
theorem pcre_exec_no_target_groups (w0 NAME w1 OP A : List Char) (ov : List (Nat × List Char))
    (h0 : ∀ c ∈ w0, pcre_space c = true) (hn : GrammarName NAME = true)
    (h1 : ∀ c ∈ w1, pcre_space c = true) (hop : OP ∈ OperatorTexts)
    (hA : ∀ x ∈ A, pcre_space x = true ∨ x = ',')
    (h : pcre_exec PARSE_REGEX (w0 ++ (NAME ++ ',' :: (w1 ++ (OP ++ A)))) = some ov) :
    ov = [(2, OP), (1, NAME)] := by
  have hh : A.head? ≠ some '=' := by
    cases A with
    | nil => simp
    | cons a l =>
      simp only [List.head?_cons, ne_eq, Option.some.injEq]
      rcases hA a (List.mem_cons_self _ _) with h | h
      · exact pcre_space_ne_eq a h
      · rw [h]; decide
  exact TailParts_no_target hA (pcre_exec_inv_words w0 NAME w1 OP A ov h0 hn h1 hop hh h)

/-- The match of a text without a target, whitespace around the words. -/
theorem pcre_exec_words_no_target (w0 NAME w1 OP w2 : List Char)
    (h0 : ∀ c ∈ w0, pcre_space c = true) (hn : GrammarName NAME = true)
    (h1 : ∀ c ∈ w1, pcre_space c = true) (hop : OP ∈ OperatorTexts)
    (h2 : ∀ c ∈ w2, pcre_space c = true) :
    pcre_exec PARSE_REGEX (w0 ++ (NAME ++ ',' :: (w1 ++ (OP ++ w2)))) =
      some [(2, OP), (1, NAME)] := by
  have hT := PARSE_REGEX_TAIL_takes w2 [] [] [] [] h2 (Or.inl rfl) (by intro c hc; cases hc)
    (Or.inl rfl) (by intro c hc; cases hc)
  simp only [List.append_nil] at hT
  obtain ⟨ov, hov⟩ := pcre_exec_complete w0 NAME w1 OP w2 h0 hn h1 hop hT
  rw [hov, pcre_exec_no_target_groups w0 NAME w1 OP w2 ov h0 hn h1 hop
    (fun x hx => Or.inl (h2 x hx)) hov]

theorem DetectFlowintParse_of_no_match (de_ctx : DetectEngineCtx) (rawstr : String)
    (h : pcre_exec PARSE_REGEX rawstr.toList = none) :
    DetectFlowintParse de_ctx rawstr = none := by
  unfold DetectFlowintParse
  rw [h]
  rfl

/-- The parser on a match with three groups. -/
theorem DetectFlowintParse_groups3 (de_ctx : DetectEngineCtx) (rawstr : String)
    (nm op tg : List Char)
    (h : pcre_exec PARSE_REGEX rawstr.toList = some [(3, tg), (2, op), (1, nm)]) :
    DetectFlowintParse de_ctx rawstr =
      if DetectFlowintParseModifier op = FlowintModifier.FLOWINT_MODIFIER_UNKNOWN then none
      else
        match DetectFlowintParseTarget (DetectFlowintParseModifier op) tg with
        | none => none
        | some (targettype, value_long, tname) =>
          some ({ name := String.mk nm
                  idx := (VariableNameGetIdx de_ctx (String.mk nm) DetectType.DETECT_FLOWINT).1
                    % 65536
                  modifier := DetectFlowintParseModifier op
                  targettype := targettype
                  target := ⟨value_long % 4294967296, ⟨0, String.mk tname⟩⟩ },
            (VariableNameGetIdx de_ctx (String.mk nm) DetectType.DETECT_FLOWINT).2) := by
  unfold DetectFlowintParse
  rw [h]
  have hret : pcre_exec_ret (some [(3, tg), (2, op), (1, nm)]) = 4 := rfl
  have hs1 : pcre_get_substring [(3, tg), (2, op), (1, nm)] 1 = nm := rfl
  have hs2 : pcre_get_substring [(3, tg), (2, op), (1, nm)] 2 = op := rfl
  have hs3 : pcre_get_substring [(3, tg), (2, op), (1, nm)] 3 = tg := rfl
  simp only [hret, hs1, hs2, hs3]
  rw [if_neg (by decide)]

/-- The parser on a match with two groups: the target text is empty. -/
theorem DetectFlowintParse_groups2 (de_ctx : DetectEngineCtx) (rawstr : String)
    (nm op : List Char)
    (h : pcre_exec PARSE_REGEX rawstr.toList = some [(2, op), (1, nm)]) :
    DetectFlowintParse de_ctx rawstr =
      if DetectFlowintParseModifier op = FlowintModifier.FLOWINT_MODIFIER_UNKNOWN then none
      else
        match DetectFlowintParseTarget (DetectFlowintParseModifier op) [] with
        | none => none
        | some (targettype, value_long, tname) =>
          some ({ name := String.mk nm
                  idx := (VariableNameGetIdx de_ctx (String.mk nm) DetectType.DETECT_FLOWINT).1
                    % 65536
                  modifier := DetectFlowintParseModifier op
                  targettype := targettype
                  target := ⟨value_long % 4294967296, ⟨0, String.mk tname⟩⟩ },
            (VariableNameGetIdx de_ctx (String.mk nm) DetectType.DETECT_FLOWINT).2) := by
  unfold DetectFlowintParse
  rw [h]
  have hret : pcre_exec_ret (some [(2, op), (1, nm)]) = 3 := rfl
  have hs1 : pcre_get_substring [(2, op), (1, nm)] 1 = nm := rfl
  have hs2 : pcre_get_substring [(2, op), (1, nm)] 2 = op := rfl
  have hs3 : pcre_get_substring [(2, op), (1, nm)] 3 = [] := rfl
  simp only [hret, hs1, hs2, hs3]
  rw [if_neg (by decide)]

theorem OperatorTokens_text (tok : String) (m : FlowintModifier)
    (h : (tok, m) ∈ OperatorTokens) : tok.toList ∈ OperatorTexts := by
  simp only [OperatorTokens, List.mem_cons, List.mem_singleton, List.not_mem_nil, or_false,
    Prod.mk.injEq] at h
  rcases h with h | h | h | h | h | h | h | h | h <;> obtain ⟨rfl, rfl⟩ := h <;> decide

/-- The modifier of each of the ten operator texts: never unknown, and IsSet
for `isset` only. -/
theorem OperatorTexts_modifier (op : List Char) (h : op ∈ OperatorTexts) :
    DetectFlowintParseModifier op ≠ FlowintModifier.FLOWINT_MODIFIER_UNKNOWN ∧
    (DetectFlowintParseModifier op = FlowintModifier.FLOWINT_MODIFIER_IS ↔
      op = ['i', 's', 's', 'e', 't']) := by
  simp only [OperatorTexts, List.mem_cons, List.mem_singleton, List.not_mem_nil, or_false] at h
  rcases h with h | h | h | h | h | h | h | h | h | h <;> subst h <;> decide

theorem DetectFlowintParseTarget_empty (m : FlowintModifier)
    (hm : m ≠ FlowintModifier.FLOWINT_MODIFIER_IS) : DetectFlowintParseTarget m [] = none := by
  unfold DetectFlowintParseTarget
  rw [if_pos hm, if_pos rfl]

theorem DetectFlowintParseTarget_isset (varval : List Char) :
    DetectFlowintParseTarget FlowintModifier.FLOWINT_MODIFIER_IS varval =
      some (FlowintTarget.FLOWINT_TARGET_SELF, 0, []) := by
  unfold DetectFlowintParseTarget
  rw [if_neg (by decide)]

theorem DetectFlowintParseTarget_unquoted (m : FlowintModifier) (varval : List Char)
    (hm : m ≠ FlowintModifier.FLOWINT_MODIFIER_IS) (hne : varval ≠ [])
    (hq : varval.head? ≠ some '\"') :
    DetectFlowintParseTarget m varval = DetectFlowintParseClassify varval varval := by
  unfold DetectFlowintParseTarget
  rw [if_pos hm, if_neg hne, if_neg (fun h => hq h.1)]

theorem head_word_ne_quote (w : List Char) (hw : ∀ c ∈ w, pcre_word c = true) :
    w.head? ≠ some '\"' := by
  cases w with
  | nil => simp
  | cons a l =>
    simp only [List.head?_cons, ne_eq, Option.some.injEq]
    exact pcre_word_ne_quote a (hw a (List.mem_cons_self _ _))

theorem not_mem_nil_space : ∀ c ∈ ([] : List Char), pcre_space c = true := by
  intro c hc; cases hc

/-! ## The claims on texts the parser rejects -/

/-- C21: an oversized literal is a hard parse error. For every NAME, every
operator other than `isset` and every text of decimal digits, of any length,
whose value exceeds 2^32 - 1, the parse of `NAME,OP,digits` gives nothing:
the value is neither saturated nor truncated. -/
theorem c21_oversized_literal (de_ctx : DetectEngineCtx) (NAME digits tok : String)
    (m : FlowintModifier)
    (hn : GrammarName NAME.toList = true)
    (hop : (tok, m) ∈ OperatorTokens)
    (hne : digits.toList ≠ [])
    (hd : ∀ c ∈ digits.toList, c.isDigit = true)
    (hv : 4294967295 < Nat.ofDigits 10 (digits.toList.reverse.map (fun c => c.toNat - 48))) :
    DetectFlowintParse de_ctx (NAME ++ "," ++ tok ++ "," ++ digits) = none := by
  have hraw : (NAME ++ "," ++ tok ++ "," ++ digits).toList =
      [] ++ (NAME.toList ++ ',' :: ([] ++ (tok.toList ++
        ([] ++ ',' :: ([] ++ (digits.toList ++ [])))))) := by
    simp [String.toList, String.data_append]
  obtain ⟨_, hmod, hnis, hnun, _⟩ := OperatorTokens_spec tok m hop
  have hw : ∀ c ∈ digits.toList, pcre_word c = true := fun c hc => char_digit_word c (hd c hc)
  cases hex : pcre_exec PARSE_REGEX (NAME ++ "," ++ tok ++ "," ++ digits).toList with
  | none => exact DetectFlowintParse_of_no_match de_ctx _ hex
  | some ov =>
    have hex2 := hex
    rw [hraw] at hex2
    obtain ⟨hov, _⟩ := pcre_exec_target_groups [] NAME.toList [] tok.toList [] []
      digits.toList [] ov not_mem_nil_space hn not_mem_nil_space (OperatorTokens_text tok m hop)
      not_mem_nil_space not_mem_nil_space hne hw not_mem_nil_space hex2
    rw [hov] at hex
    rw [DetectFlowintParse_groups3 de_ctx _ _ _ _ hex, hmod, if_neg hnun,
      DetectFlowintParseTarget_unquoted m _ hnis hne (head_word_ne_quote _ hw)]
    have hfd : first_is_digit digits.toList = true := by
      cases hl : digits.toList with
      | nil => exact absurd hl hne
      | cons a l => exact hd a (by rw [hl]; exact List.mem_cons_self _ _)
    unfold DetectFlowintParseClassify
    rw [hfd, if_pos rfl, atoll_of_digits _ hd, if_pos hv]

/-- Witness of C21: `myvar,=,9999999999`. -/
theorem c21_oversized_literal_witness :
    DetectFlowintParse ⟨[]⟩ "myvar,=,9999999999" = none :=
  c21_oversized_literal ⟨[]⟩ "myvar" "9999999999" "=" FlowintModifier.FLOWINT_MODIFIER_SET
    (by decide) (by decide) (by decide) (by decide) (by decide)

/-- C22: a missing required target is rejected. For every NAME and every
operator other than `isset`, the parse gives nothing for `NAME,OP`, for
`NAME,OP,`, for `NAME,` and for `NAME` alone. -/
theorem c22_missing_target (de_ctx : DetectEngineCtx) (NAME tok : String)
    (m : FlowintModifier)
    (hn : GrammarName NAME.toList = true)
    (hop : (tok, m) ∈ OperatorTokens) :
    DetectFlowintParse de_ctx (NAME ++ "," ++ tok) = none ∧
    DetectFlowintParse de_ctx (NAME ++ "," ++ tok ++ ",") = none ∧
    DetectFlowintParse de_ctx (NAME ++ ",") = none ∧
    DetectFlowintParse de_ctx NAME = none := by
  obtain ⟨_, hmod, hnis, hnun, _⟩ := OperatorTokens_spec tok m hop
  have hopt := OperatorTokens_text tok m hop
  have key : ∀ (rawstr : String) (A : List Char),
      rawstr.toList = [] ++ (NAME.toList ++ ',' :: ([] ++ (tok.toList ++ A))) →
      (∀ x ∈ A, pcre_space x = true ∨ x = ',') →
      DetectFlowintParse de_ctx rawstr = none := by
    intro rawstr A hraw hA
    cases hex : pcre_exec PARSE_REGEX rawstr.toList with
    | none => exact DetectFlowintParse_of_no_match de_ctx _ hex
    | some ov =>
      have hex2 := hex
      rw [hraw] at hex2
      have hov := pcre_exec_no_target_groups [] NAME.toList [] tok.toList A ov
        not_mem_nil_space hn not_mem_nil_space hopt hA hex2
      rw [hov] at hex
      rw [DetectFlowintParse_groups2 de_ctx _ _ _ hex, hmod, if_neg hnun,
        DetectFlowintParseTarget_empty m hnis]
  refine ⟨key _ [] (by simp [String.toList, String.data_append]) (by intro x hx; cases hx),
    key _ [','] (by simp [String.toList, String.data_append])
      (by intro x hx; exact Or.inr (List.mem_singleton.mp hx)), ?_, ?_⟩
  · cases hex : pcre_exec PARSE_REGEX (NAME ++ ",").toList with
    | none => exact DetectFlowintParse_of_no_match de_ctx _ hex
    | some ov =>
      exfalso
      have hraw : (NAME ++ ",").toList = NAME.toList ++ ',' :: [] := by
        simp [String.toList, String.data_append]
      rw [hraw] at hex
      obtain ⟨ws0, nm, ws1, op, T, _, e2, _, _, _, gop, _⟩ := pcre_exec_inv _ _ ov
        (fun c hc => pcre_word_ne_comma c ((token_chars _ (Or.inl hn)).2 c hc)) hex
      have hnil : op = [] := by
        have := congrArg List.length e2
        simp only [List.length_nil, List.length_append] at this
        exact List.length_eq_zero.mp (by omega)
      exact (OperatorTexts_chars op gop).1 hnil
  · cases hex : pcre_exec PARSE_REGEX NAME.toList with
    | none => exact DetectFlowintParse_of_no_match de_ctx _ hex
    | some ov =>
      exfalso
      obtain ⟨ws0, nm, ws1, op, T, hs, _, _, _, _, _⟩ := pcre_exec_sound _ _ hex
      have hmem : ',' ∈ NAME.toList := by rw [hs]; simp
      exact pcre_word_ne_comma ',' ((token_chars _ (Or.inl hn)).2 ',' hmem) rfl

/-- Witness of C22: `myvar,==`, `myvar,==,`, `myvar,` and `myvar`. -/
theorem c22_missing_target_witness :
    DetectFlowintParse ⟨[]⟩ "myvar,==" = none ∧
    DetectFlowintParse ⟨[]⟩ "myvar,==," = none ∧
    DetectFlowintParse ⟨[]⟩ "myvar," = none ∧
    DetectFlowintParse ⟨[]⟩ "myvar" = none :=
  c22_missing_target ⟨[]⟩ "myvar" "==" FlowintModifier.FLOWINT_MODIFIER_EQ
    (by decide) (by decide)

/-- C23: a name must start with a letter. For every text whose first
character after the leading whitespace, the place of the name, is a digit or
an underscore, the parse gives nothing, whatever follows. -/
theorem c23_name_starts_with_letter (de_ctx : DetectEngineCtx) (ws rest : List Char)
    (c : Char)
    (hws : ∀ x ∈ ws, pcre_space x = true)
    (hc : c.isDigit = true ∨ c = '_') :
    DetectFlowintParse de_ctx (String.mk (ws ++ c :: rest)) = none := by
  have hna : c.isAlpha = false := by
    rcases hc with hc | hc
    · exact char_digit_not_alpha c hc
    · rw [hc]; decide
  have hns : pcre_space c = false := by
    rcases hc with hc | hc
    · exact char_digit_not_space c hc
    · rw [hc]; decide
  cases hex : pcre_exec PARSE_REGEX (String.mk (ws ++ c :: rest)).toList with
  | none => exact DetectFlowintParse_of_no_match de_ctx _ hex
  | some ov =>
    exfalso
    obtain ⟨ws0, nm, ws1, op, T, hs, h0, hnm, _, _, _⟩ := pcre_exec_sound _ _ hex
    have hs2 : ws ++ ([c] ++ rest) = ws0 ++ (nm ++ ',' :: (ws1 ++ (op ++ T))) := hs
    obtain ⟨_, e2⟩ := append_split_unique (fun x => pcre_space x = true) ws ws0
      ([c] ++ rest) (nm ++ ',' :: (ws1 ++ (op ++ T))) hws h0
      (head_not_space [c] rest (List.cons_ne_nil _ _)
        (by intro x hx; rw [List.mem_singleton.mp hx]; exact hns))
      (head_not_space nm _ (GrammarName_not_space nm hnm).1 (GrammarName_not_space nm hnm).2)
      hs2
    obtain ⟨a, cs, hnm2, ha, _, _⟩ := GrammarName_spec nm hnm
    rw [hnm2] at e2
    simp only [List.cons_append, List.nil_append, List.cons.injEq] at e2
    rw [e2.1, ha] at hna
    cases hna

/-- Witness of C23: `657myvar,=,targetvar`. -/
theorem c23_name_starts_with_letter_witness :
    DetectFlowintParse ⟨[]⟩ "657myvar,=,targetvar" = none :=
  c23_name_starts_with_letter ⟨[]⟩ [] "57myvar,=,targetvar".toList '6'
    (by intro x hx; cases hx) (Or.inl (by decide))

/-- C24: an unrecognized operator is rejected. For every NAME, every operator
text without comma and without whitespace that is none of the ten tokens
`= + - == != < <= > >= isset`, and every TARGET, the parse of
`NAME,optext,TARGET` gives nothing. -/
theorem c24_unknown_operator (de_ctx : DetectEngineCtx) (NAME optext TARGET : String)
    (hn : GrammarName NAME.toList = true)
    (hc : ∀ c ∈ optext.toList, c ≠ ',' ∧ pcre_space c = false)
    (hop : optext.toList ∉ OperatorTexts) :
    DetectFlowintParse de_ctx (NAME ++ "," ++ optext ++ "," ++ TARGET) = none := by
  have hraw : (NAME ++ "," ++ optext ++ "," ++ TARGET).toList =
      NAME.toList ++ ',' :: (optext.toList ++ ',' :: TARGET.toList) := by
    simp [String.toList, String.data_append]
  cases hex : pcre_exec PARSE_REGEX (NAME ++ "," ++ optext ++ "," ++ TARGET).toList with
  | none => exact DetectFlowintParse_of_no_match de_ctx _ hex
  | some ov =>
    exfalso
    rw [hraw] at hex
    exact hop (pcre_exec_inv_optext _ _ _ ov
      (fun c hc => pcre_word_ne_comma c ((token_chars _ (Or.inl hn)).2 c hc)) hc hex)

/-- Witness of C24: `myvar,=<,targetvar` and `myvar,===,targetvar`. -/
theorem c24_unknown_operator_witness :
    DetectFlowintParse ⟨[]⟩ "myvar,=<,targetvar" = none ∧
    DetectFlowintParse ⟨[]⟩ "myvar,===,targetvar" = none :=
  ⟨c24_unknown_operator ⟨[]⟩ "myvar" "=<" "targetvar" (by decide) (by decide) (by decide),
   c24_unknown_operator ⟨[]⟩ "myvar" "===" "targetvar" (by decide) (by decide) (by decide)⟩

/-! ## The claims on `isset` with a target and on quoted targets -/

/-- C26, as the claim states it, fails: `myvar,isset,foo` and `myvar,isset,5`
parse, as IsSet without a target. -/
theorem c26_counterexample :
    DetectFlowintParse ⟨[]⟩ "myvar,isset,foo" =
      some (⟨"myvar", 1, FlowintModifier.FLOWINT_MODIFIER_IS, FlowintTarget.FLOWINT_TARGET_SELF,
        ⟨0, ⟨0, ""⟩⟩⟩, ⟨[(DetectType.DETECT_FLOWINT, "myvar")]⟩) ∧
    DetectFlowintParse ⟨[]⟩ "myvar,isset,5" =
      some (⟨"myvar", 1, FlowintModifier.FLOWINT_MODIFIER_IS, FlowintTarget.FLOWINT_TARGET_SELF,
        ⟨0, ⟨0, ""⟩⟩⟩, ⟨[(DetectType.DETECT_FLOWINT, "myvar")]⟩) := by
  decide

/-- C26, amended: a target after `isset` is ignored. For every NAME and every
TARGET that is a name or a literal of at most 10 digits, the parse of
`NAME,isset,TARGET` succeeds with modifier `FLOWINT_MODIFIER_IS`, target type
`FLOWINT_TARGET_SELF` and the name NAME, and it is the parse of `NAME,isset`. -/
theorem c26_isset_ignores_target (de_ctx : DetectEngineCtx) (NAME TARGET : String)
    (hn : GrammarName NAME.toList = true)
    (ht : GrammarName TARGET.toList = true ∨ GrammarLiteral TARGET.toList = true) :
    DetectFlowintParse de_ctx (NAME ++ ",isset," ++ TARGET) =
      DetectFlowintParse de_ctx (NAME ++ ",isset") ∧
    ∃ sfd e, DetectFlowintParse de_ctx (NAME ++ ",isset," ++ TARGET) = some (sfd, e) ∧
      sfd.modifier = FlowintModifier.FLOWINT_MODIFIER_IS ∧
      sfd.targettype = FlowintTarget.FLOWINT_TARGET_SELF ∧ sfd.name = NAME := by
  have hraw1 : (NAME ++ ",isset," ++ TARGET).toList =
      [] ++ (NAME.toList ++ ',' :: ([] ++ (['i', 's', 's', 'e', 't'] ++
        ([] ++ ',' :: ([] ++ (TARGET.toList ++ [])))))) := by
    simp [String.toList, String.data_append]
  have hraw2 : (NAME ++ ",isset").toList =
      [] ++ (NAME.toList ++ ',' :: ([] ++ (['i', 's', 's', 'e', 't'] ++ []))) := by
    simp [String.toList, String.data_append]
  have hop : ['i', 's', 's', 'e', 't'] ∈ OperatorTexts := by decide
  have hmod : DetectFlowintParseModifier ['i', 's', 's', 'e', 't'] =
      FlowintModifier.FLOWINT_MODIFIER_IS := by decide
  have h1 : pcre_exec PARSE_REGEX (NAME ++ ",isset," ++ TARGET).toList =
      some [(3, TARGET.toList), (2, ['i', 's', 's', 'e', 't']), (1, NAME.toList)] := by
    rw [hraw1]
    exact pcre_exec_words_target [] NAME.toList [] _ [] [] TARGET.toList [] not_mem_nil_space hn
      not_mem_nil_space hop not_mem_nil_space not_mem_nil_space ht not_mem_nil_space
  have h2 : pcre_exec PARSE_REGEX (NAME ++ ",isset").toList =
      some [(2, ['i', 's', 's', 'e', 't']), (1, NAME.toList)] := by
    rw [hraw2]
    exact pcre_exec_words_no_target [] NAME.toList [] _ [] not_mem_nil_space hn
      not_mem_nil_space hop not_mem_nil_space
  rw [DetectFlowintParse_groups3 de_ctx _ _ _ _ h1, DetectFlowintParse_groups2 de_ctx _ _ _ h2,
    hmod, DetectFlowintParseTarget_isset, DetectFlowintParseTarget_isset,
    if_neg (by decide)]
  exact ⟨rfl, _, _, rfl, rfl, rfl, rfl⟩

/-- Witness of C26: `myvar,isset,foo` parses as `myvar,isset` does. -/
theorem c26_isset_ignores_target_witness :
    DetectFlowintParse ⟨[]⟩ "myvar,isset,foo" = DetectFlowintParse ⟨[]⟩ "myvar,isset" ∧
    ∃ sfd e, DetectFlowintParse ⟨[]⟩ "myvar,isset,foo" = some (sfd, e) ∧
      sfd.modifier = FlowintModifier.FLOWINT_MODIFIER_IS ∧
      sfd.targettype = FlowintTarget.FLOWINT_TARGET_SELF ∧ sfd.name = "myvar" :=
  c26_isset_ignores_target ⟨[]⟩ "myvar" "foo" (by decide) (Or.inl (by decide))

/-- C27: the parser does not accept a quoted target. For every NAME, every
operator text and every text between the quotes, the parse of
`NAME,OP,"text"` gives nothing: the pattern lets no quote through, so the
lines that strip the quotes are never reached. -/
theorem c27_quoted_target_rejected (de_ctx : DetectEngineCtx) (NAME tok inner : String)
    (hn : GrammarName NAME.toList = true)
    (hop : tok.toList ∈ OperatorTexts) :
    DetectFlowintParse de_ctx (NAME ++ "," ++ tok ++ ",\"" ++ inner ++ "\"") = none := by
  have hraw : (NAME ++ "," ++ tok ++ ",\"" ++ inner ++ "\"").toList =
      [] ++ (NAME.toList ++ ',' :: ([] ++ (tok.toList ++
        ',' :: '\"' :: (inner.toList ++ ['\"'])))) := by
    simp [String.toList, String.data_append]
  cases hex : pcre_exec PARSE_REGEX
      (NAME ++ "," ++ tok ++ ",\"" ++ inner ++ "\"").toList with
  | none => exact DetectFlowintParse_of_no_match de_ctx _ hex
  | some ov =>
    exfalso
    rw [hraw] at hex
    have hT := pcre_exec_inv_words [] NAME.toList [] tok.toList
      (',' :: '\"' :: (inner.toList ++ ['\"'])) ov
      not_mem_nil_space hn not_mem_nil_space hop (by simp) hex
    rcases TailParts_chars hT '\"' (by simp) with h | h | h
    · exact absurd h (by decide)
    · exact absurd h (by decide)
    · exact absurd h (by decide)

/-- Witness of C27: `myvar,=,"35"` and `myvar,+,"targetvar"` are rejected. -/
theorem c27_quoted_target_rejected_witness :
    DetectFlowintParse ⟨[]⟩ "myvar,=,\"35\"" = none ∧
    DetectFlowintParse ⟨[]⟩ "myvar,+,\"targetvar\"" = none :=
  ⟨c27_quoted_target_rejected ⟨[]⟩ "myvar" "=" "35" (by decide) (by decide),
   c27_quoted_target_rejected ⟨[]⟩ "myvar" "+" "targetvar" (by decide) (by decide)⟩

/-! ## The claims on whitespace, on short names and on the directive -/

theorem blank_space (c : Char) (h : c = ' ' ∨ c = '\t') : pcre_space c = true := by
  rcases h with h | h <;> rw [h] <;> decide

/-- C28, as the claim states it, fails: `myvar,=,35` parses and `myvar ,=,35`,
with a space between the name and the first comma, does not. -/
theorem c28_counterexample :
    DetectFlowintParse ⟨[]⟩ "myvar,=,35" =
      some (⟨"myvar", 1, FlowintModifier.FLOWINT_MODIFIER_SET, FlowintTarget.FLOWINT_TARGET_VAL,
        ⟨35, ⟨0, ""⟩⟩⟩, ⟨[(DetectType.DETECT_FLOWINT, "myvar")]⟩) ∧
    DetectFlowintParse ⟨[]⟩ "myvar ,=,35" = none := by
  decide

/-- C28, amended: whitespace is optional and insignificant before NAME, before
and after OP, and before and after TARGET, and it is not accepted between NAME
and the first comma. For every NAME, operator text and TARGET and all texts
`w0` to `w4` of spaces and tabs, the parse of
`w0 NAME , w1 OP w2 , w3 TARGET w4` is the parse of `NAME,OP,TARGET`, and the
parse of `w0 NAME , w1 isset w2` is the parse of `NAME,isset`; for a text `w`
of one or more spaces and tabs, the parse of a text that starts with
`NAME w ,` gives nothing. -/
theorem c28_whitespace (de_ctx : DetectEngineCtx)
    (NAME tok TARGET w0 w1 w2 w3 w4 w R : String)
    (hn : GrammarName NAME.toList = true)
    (hop : tok.toList ∈ OperatorTexts)
    (ht : GrammarName TARGET.toList = true ∨ GrammarLiteral TARGET.toList = true)
    (h0 : ∀ c ∈ w0.toList, c = ' ' ∨ c = '\t')
    (h1 : ∀ c ∈ w1.toList, c = ' ' ∨ c = '\t')
    (h2 : ∀ c ∈ w2.toList, c = ' ' ∨ c = '\t')
    (h3 : ∀ c ∈ w3.toList, c = ' ' ∨ c = '\t')
    (h4 : ∀ c ∈ w4.toList, c = ' ' ∨ c = '\t')
    (hw : ∀ c ∈ w.toList, c = ' ' ∨ c = '\t')
    (hwne : w.toList ≠ []) :
    DetectFlowintParse de_ctx
        (w0 ++ NAME ++ "," ++ w1 ++ tok ++ w2 ++ "," ++ w3 ++ TARGET ++ w4) =
      DetectFlowintParse de_ctx (NAME ++ "," ++ tok ++ "," ++ TARGET) ∧
    DetectFlowintParse de_ctx (w0 ++ NAME ++ "," ++ w1 ++ "isset" ++ w2) =
      DetectFlowintParse de_ctx (NAME ++ ",isset") ∧
    DetectFlowintParse de_ctx (NAME ++ w ++ "," ++ R) = none := by
  have s0 : ∀ c ∈ w0.toList, pcre_space c = true := fun c hc => blank_space c (h0 c hc)
  have s1 : ∀ c ∈ w1.toList, pcre_space c = true := fun c hc => blank_space c (h1 c hc)
  have s2 : ∀ c ∈ w2.toList, pcre_space c = true := fun c hc => blank_space c (h2 c hc)
  have s3 : ∀ c ∈ w3.toList, pcre_space c = true := fun c hc => blank_space c (h3 c hc)
  have s4 : ∀ c ∈ w4.toList, pcre_space c = true := fun c hc => blank_space c (h4 c hc)
  have hisset : ['i', 's', 's', 'e', 't'] ∈ OperatorTexts := by decide
  refine ⟨?_, ?_, ?_⟩
  · have a1 : pcre_exec PARSE_REGEX
        (w0 ++ NAME ++ "," ++ w1 ++ tok ++ w2 ++ "," ++ w3 ++ TARGET ++ w4).toList =
        some [(3, TARGET.toList), (2, tok.toList), (1, NAME.toList)] := by
      have hraw : (w0 ++ NAME ++ "," ++ w1 ++ tok ++ w2 ++ "," ++ w3 ++ TARGET ++ w4).toList =
          w0.toList ++ (NAME.toList ++ ',' :: (w1.toList ++ (tok.toList ++
            (w2.toList ++ ',' :: (w3.toList ++ (TARGET.toList ++ w4.toList)))))) := by
        simp [String.toList, String.data_append]
      rw [hraw]
      exact pcre_exec_words_target _ _ _ _ _ _ _ _ s0 hn s1 hop s2 s3 ht s4
    have a2 : pcre_exec PARSE_REGEX (NAME ++ "," ++ tok ++ "," ++ TARGET).toList =
        some [(3, TARGET.toList), (2, tok.toList), (1, NAME.toList)] := by
      have hraw : (NAME ++ "," ++ tok ++ "," ++ TARGET).toList =
          [] ++ (NAME.toList ++ ',' :: ([] ++ (tok.toList ++
            ([] ++ ',' :: ([] ++ (TARGET.toList ++ [])))))) := by
        simp [String.toList, String.data_append]
      rw [hraw]
      exact pcre_exec_words_target [] _ [] _ [] [] _ [] not_mem_nil_space hn not_mem_nil_space
        hop not_mem_nil_space not_mem_nil_space ht not_mem_nil_space
    rw [DetectFlowintParse_groups3 de_ctx _ _ _ _ a1, DetectFlowintParse_groups3 de_ctx _ _ _ _ a2]
  · have a1 : pcre_exec PARSE_REGEX (w0 ++ NAME ++ "," ++ w1 ++ "isset" ++ w2).toList =
        some [(2, ['i', 's', 's', 'e', 't']), (1, NAME.toList)] := by
      have hraw : (w0 ++ NAME ++ "," ++ w1 ++ "isset" ++ w2).toList =
          w0.toList ++ (NAME.toList ++ ',' :: (w1.toList ++ (['i', 's', 's', 'e', 't'] ++
            w2.toList))) := by
        simp [String.toList, String.data_append]
      rw [hraw]
      exact pcre_exec_words_no_target _ _ _ _ _ s0 hn s1 hisset s2
    have a2 : pcre_exec PARSE_REGEX (NAME ++ ",isset").toList =
        some [(2, ['i', 's', 's', 'e', 't']), (1, NAME.toList)] := by
      have hraw : (NAME ++ ",isset").toList =
          [] ++ (NAME.toList ++ ',' :: ([] ++ (['i', 's', 's', 'e', 't'] ++ []))) := by
        simp [String.toList, String.data_append]
      rw [hraw]
      exact pcre_exec_words_no_target [] _ [] _ [] not_mem_nil_space hn not_mem_nil_space
        hisset not_mem_nil_space
    rw [DetectFlowintParse_groups2 de_ctx _ _ _ a1, DetectFlowintParse_groups2 de_ctx _ _ _ a2]
  · cases hex : pcre_exec PARSE_REGEX (NAME ++ w ++ "," ++ R).toList with
    | none => exact DetectFlowintParse_of_no_match de_ctx _ hex
    | some ov =>
      exfalso
      have hraw : (NAME ++ w ++ "," ++ R).toList = (NAME.toList ++ w.toList) ++ ',' :: R.toList := by
        simp [String.toList, String.data_append]
      rw [hraw] at hex
      have hN : ∀ c ∈ NAME.toList ++ w.toList, c ≠ ',' := by
        intro c hc
        rcases List.mem_append.mp hc with hc | hc
        · exact pcre_word_ne_comma c ((token_chars _ (Or.inl hn)).2 c hc)
        · exact pcre_space_ne_comma c (blank_space c (hw c hc))
      obtain ⟨ws0, nm, ws1, op, T, e1, _, g0, gnm, _, _, _⟩ := pcre_exec_inv _ _ ov hN hex
      have e1b : [] ++ (NAME.toList ++ w.toList) = ws0 ++ nm := e1
      obtain ⟨_, b2⟩ := append_split_unique (fun x => pcre_space x = true) [] ws0
        (NAME.toList ++ w.toList) nm not_mem_nil_space g0
        (head_not_space _ _ (GrammarName_not_space _ hn).1 (GrammarName_not_space _ hn).2)
        (by
          have := head_not_space nm [] (GrammarName_not_space nm gnm).1
            (GrammarName_not_space nm gnm).2
          simpa using this) e1b
      cases hwl : w.toList with
      | nil => exact hwne hwl
      | cons a l =>
        have hmem : a ∈ nm := by rw [← b2, hwl]; simp
        have hsp := blank_space a (hw a (by rw [hwl]; exact List.mem_cons_self _ _))
        rw [(GrammarName_not_space nm gnm).2 a hmem] at hsp
        cases hsp

/-- Witness of C28: `myvar, >= ,35`, `myvar, isset ` and `myvar ,=,35`. -/
theorem c28_whitespace_witness :
    DetectFlowintParse ⟨[]⟩ " myvar, >= , 35\t" = DetectFlowintParse ⟨[]⟩ "myvar,>=,35" ∧
    DetectFlowintParse ⟨[]⟩ " myvar, isset " = DetectFlowintParse ⟨[]⟩ "myvar,isset" ∧
    DetectFlowintParse ⟨[]⟩ "myvar ,=,35" = none :=
  c28_whitespace ⟨[]⟩ "myvar" ">=" "35" " " " " " " " " "\t" " " "=,35"
    (by decide) (by decide) (Or.inr (by decide)) (by decide) (by decide) (by decide)
    (by decide) (by decide) (by decide) (by decide)

/-- C29, as the claim states it, fails: the one-letter name `c` is not
accepted, `c,=,1` does not parse. -/
theorem c29_counterexample : DetectFlowintParse ⟨[]⟩ "c,=,1" = none := by
  decide

/-- C29, amended: a NAME is a letter followed by one or more letters, digits
or underscores. For every such NAME the parse of `NAME,=,1` succeeds with the
name NAME (as Set of the literal 1), and for every letter `x` the parse of
`x,=,1`, whose name is that one letter, gives nothing. -/
theorem c29_name_two_characters (de_ctx : DetectEngineCtx) (NAME : String) (x : Char)
    (hn : GrammarName NAME.toList = true)
    (hx : x.isAlpha = true) :
    (∃ sfd e, DetectFlowintParse de_ctx (NAME ++ ",=,1") = some (sfd, e) ∧ sfd.name = NAME ∧
      sfd.modifier = FlowintModifier.FLOWINT_MODIFIER_SET ∧
      sfd.targettype = FlowintTarget.FLOWINT_TARGET_VAL ∧ sfd.target.value = 1) ∧
    DetectFlowintParse de_ctx (String.singleton x ++ ",=,1") = none := by
  constructor
  · have hraw : (NAME ++ ",=,1").toList =
        [] ++ (NAME.toList ++ ',' :: ([] ++ (['='] ++
          ([] ++ ',' :: ([] ++ (['1'] ++ [])))))) := by
      simp [String.toList, String.data_append]
    have a1 : pcre_exec PARSE_REGEX (NAME ++ ",=,1").toList =
        some [(3, ['1']), (2, ['=']), (1, NAME.toList)] := by
      rw [hraw]
      exact pcre_exec_words_target [] _ [] _ [] [] _ [] not_mem_nil_space hn not_mem_nil_space
        (by decide) not_mem_nil_space not_mem_nil_space (Or.inr (by decide)) not_mem_nil_space
    have hmod : DetectFlowintParseModifier ['='] = FlowintModifier.FLOWINT_MODIFIER_SET := by
      decide
    have htg : DetectFlowintParseTarget FlowintModifier.FLOWINT_MODIFIER_SET ['1'] =
        some (FlowintTarget.FLOWINT_TARGET_VAL, 1, []) := by decide
    rw [DetectFlowintParse_groups3 de_ctx _ _ _ _ a1, hmod, htg, if_neg (by decide)]
    exact ⟨_, _, rfl, rfl, rfl, rfl, rfl⟩
  · cases hex : pcre_exec PARSE_REGEX (String.singleton x ++ ",=,1").toList with
    | none => exact DetectFlowintParse_of_no_match de_ctx _ hex
    | some ov =>
      exfalso
      have hraw : (String.singleton x ++ ",=,1").toList = [x] ++ ',' :: ['=', ',', '1'] := by
        simp [String.toList, String.data_append, String.singleton]
      rw [hraw] at hex
      obtain ⟨ws0, nm, ws1, op, T, e1, _, _, gnm, _, _, _⟩ := pcre_exec_inv _ _ ov
        (by
          intro c hc
          rw [List.mem_singleton.mp hc]
          exact pcre_word_ne_comma x (char_alpha_word x hx)) hex
      obtain ⟨a, cs, hnm, _, hne, _⟩ := GrammarName_spec nm gnm
      have hlen := congrArg List.length e1
      rw [hnm] at hlen
      simp only [List.length_cons, List.length_nil, List.length_append] at hlen
      have : cs.length = 0 := by omega
      exact hne (List.length_eq_zero.mp this)

/-- Witness of C29: `cn,=,1` parses with the name `cn`, `c,=,1` does not
parse. -/
theorem c29_name_two_characters_witness :
    (∃ sfd e, DetectFlowintParse ⟨[]⟩ "cn,=,1" = some (sfd, e) ∧ sfd.name = "cn" ∧
      sfd.modifier = FlowintModifier.FLOWINT_MODIFIER_SET ∧
      sfd.targettype = FlowintTarget.FLOWINT_TARGET_VAL ∧ sfd.target.value = 1) ∧
    DetectFlowintParse ⟨[]⟩ "c,=,1" = none :=
  c29_name_two_characters ⟨[]⟩ "cn" 'c' (by decide) (by decide)

theorem OperatorTexts_not_digit (op : List Char) (h : op ∈ OperatorTexts) :
    ∀ c ∈ op, c.isDigit = false := by
  simp only [OperatorTexts, List.mem_cons, List.mem_singleton, List.not_mem_nil, or_false] at h
  rcases h with h | h | h | h | h | h | h | h | h | h <;> subst h <;> decide

theorem pcre_space_not_digit (c : Char) (h : pcre_space c = true) : c.isDigit = false := by
  cases hd : c.isDigit with
  | false => rfl
  | true => rw [char_digit_not_space c hd] at h; cases h

theorem FlowintModifier_known (m : FlowintModifier)
    (h : m ≠ FlowintModifier.FLOWINT_MODIFIER_UNKNOWN) :
    m ∈ [FlowintModifier.FLOWINT_MODIFIER_SET, FlowintModifier.FLOWINT_MODIFIER_ADD,
      FlowintModifier.FLOWINT_MODIFIER_SUB, FlowintModifier.FLOWINT_MODIFIER_LT,
      FlowintModifier.FLOWINT_MODIFIER_LE, FlowintModifier.FLOWINT_MODIFIER_NE,
      FlowintModifier.FLOWINT_MODIFIER_EQ, FlowintModifier.FLOWINT_MODIFIER_GE,
      FlowintModifier.FLOWINT_MODIFIER_GT, FlowintModifier.FLOWINT_MODIFIER_IS] := by
  cases m <;> first | decide | exact absurd rfl h

/-- The classification of a target text that is a name or a literal: a literal
within range with its decimal value, or a variable name. -/
theorem DetectFlowintParseClassify_token (tg : List Char) (tt : FlowintTarget) (v : Nat)
    (n : List Char)
    (ht : GrammarName tg = true ∨ GrammarLiteral tg = true)
    (h : DetectFlowintParseClassify tg tg = some (tt, v, n)) :
    tt ≠ FlowintTarget.FLOWINT_TARGET_SELF ∧
    (tt = FlowintTarget.FLOWINT_TARGET_VAL →
      v ≤ 4294967295 ∧ (∀ c ∈ tg, c.isDigit = true) ∧
      v = Nat.ofDigits 10 (tg.reverse.map (fun c => c.toNat - 48))) := by
  obtain ⟨c, cs, htg, _, _, hnd, hld⟩ := target_head_facts tg ht
  unfold DetectFlowintParseClassify at h
  rcases ht with hname | hlit
  · have hfd : first_is_digit tg = false := by
      rw [htg]; exact hnd hname
    rw [hfd] at h
    simp only [Bool.false_eq_true, if_false, Option.some.injEq, Prod.mk.injEq] at h
    rw [← h.1]
    exact ⟨by decide, fun hc => absurd hc (by decide)⟩
  · have hfd : first_is_digit tg = true := by
      rw [htg]; exact hld hlit
    have hd := (GrammarLiteral_spec tg hlit).2.2
    rw [hfd, if_pos rfl, atoll_of_digits tg hd] at h
    split at h
    · cases h
    · rename_i hle
      simp only [Option.some.injEq, Prod.mk.injEq] at h
      rw [← h.1, ← h.2.1]
      exact ⟨by decide, fun _ => ⟨by omega, hd, rfl⟩⟩

/-- C30: the directive is well formed. For every text on which the parse
succeeds, the directive has target type `FLOWINT_TARGET_SELF` exactly when
its modifier is `FLOWINT_MODIFIER_IS`; its modifier is one of the ten known
operators, never `FLOWINT_MODIFIER_UNKNOWN`; and when the target is a literal,
its value is at most 2^32 - 1 and is the decimal value of the target text,
the digits that end the text before its final whitespace. -/
theorem c30_well_formed (de_ctx : DetectEngineCtx) (rawstr : String)
    (sfd : DetectFlowintData) (e : DetectEngineCtx)
    (h : DetectFlowintParse de_ctx rawstr = some (sfd, e)) :
    (sfd.targettype = FlowintTarget.FLOWINT_TARGET_SELF ↔
      sfd.modifier = FlowintModifier.FLOWINT_MODIFIER_IS) ∧
    sfd.modifier ≠ FlowintModifier.FLOWINT_MODIFIER_UNKNOWN ∧
    sfd.modifier ∈ [FlowintModifier.FLOWINT_MODIFIER_SET, FlowintModifier.FLOWINT_MODIFIER_ADD,
      FlowintModifier.FLOWINT_MODIFIER_SUB, FlowintModifier.FLOWINT_MODIFIER_LT,
      FlowintModifier.FLOWINT_MODIFIER_LE, FlowintModifier.FLOWINT_MODIFIER_NE,
      FlowintModifier.FLOWINT_MODIFIER_EQ, FlowintModifier.FLOWINT_MODIFIER_GE,
      FlowintModifier.FLOWINT_MODIFIER_GT, FlowintModifier.FLOWINT_MODIFIER_IS] ∧
    (sfd.targettype = FlowintTarget.FLOWINT_TARGET_VAL →
      sfd.target.value ≤ 4294967295 ∧
      ∃ pre tg post, rawstr.toList = pre ++ (tg ++ post) ∧ tg ≠ [] ∧
        (∀ c ∈ tg, c.isDigit = true) ∧
        (∀ c, pre.getLast? = some c → c.isDigit = false) ∧
        (∀ c ∈ post, pcre_space c = true) ∧
        sfd.target.value = Nat.ofDigits 10 (tg.reverse.map (fun c => c.toNat - 48))) := by
  cases hex : pcre_exec PARSE_REGEX rawstr.toList with
  | none =>
    rw [DetectFlowintParse_of_no_match de_ctx rawstr hex] at h
    cases h
  | some ov =>
    obtain ⟨ws0, nm, ws1, op, T, hs, _, _, g1, gop, gT⟩ := pcre_exec_sound _ _ hex
    obtain ⟨ws2, cm, ws3, tg, ws4, nl, hT, k2, kcm, k3, k4, knl, ktg⟩ := gT
    obtain ⟨hun, his⟩ := OperatorTexts_modifier op gop
    rcases ktg with ⟨_, kc⟩ | ⟨ktg, kc⟩
    · rw [kc] at hex
      rw [DetectFlowintParse_groups2 de_ctx _ _ _ hex, if_neg hun] at h
      by_cases hm : DetectFlowintParseModifier op = FlowintModifier.FLOWINT_MODIFIER_IS
      · rw [hm, DetectFlowintParseTarget_isset] at h
        simp only [Option.some.injEq, Prod.mk.injEq] at h
        obtain ⟨hsfd, _⟩ := h
        subst hsfd
        exact ⟨⟨fun _ => rfl, fun _ => rfl⟩, fun hc => FlowintModifier.noConfusion hc,
          FlowintModifier_known _ (fun hc => FlowintModifier.noConfusion hc),
          fun hc => FlowintTarget.noConfusion hc⟩
      · rw [DetectFlowintParseTarget_empty _ hm] at h
        cases h
    · rw [kc] at hex
      rw [DetectFlowintParse_groups3 de_ctx _ _ _ _ hex, if_neg hun] at h
      by_cases hm : DetectFlowintParseModifier op = FlowintModifier.FLOWINT_MODIFIER_IS
      · rw [hm, DetectFlowintParseTarget_isset] at h
        simp only [Option.some.injEq, Prod.mk.injEq] at h
        obtain ⟨hsfd, _⟩ := h
        subst hsfd
        exact ⟨⟨fun _ => rfl, fun _ => rfl⟩, fun hc => FlowintModifier.noConfusion hc,
          FlowintModifier_known _ (fun hc => FlowintModifier.noConfusion hc),
          fun hc => FlowintTarget.noConfusion hc⟩
      · rw [DetectFlowintParseTarget_unquoted _ tg hm (token_chars tg ktg).1
          (head_word_ne_quote tg (token_chars tg ktg).2)] at h
        cases hC : DetectFlowintParseClassify tg tg with
        | none => rw [hC] at h; cases h
        | some r =>
          obtain ⟨tt, v, n⟩ := r
          rw [hC] at h
          simp only [Option.some.injEq, Prod.mk.injEq] at h
          obtain ⟨hsfd, _⟩ := h
          subst hsfd
          obtain ⟨hself, hval⟩ := DetectFlowintParseClassify_token tg tt v n ktg hC
          refine ⟨⟨fun hc => absurd hc hself, fun hc => absurd hc hm⟩, hun,
            FlowintModifier_known _ hun, ?_⟩
          intro hc
          obtain ⟨hv, hd, hvd⟩ := hval hc
          have hmod : v % 4294967296 = v := Nat.mod_eq_of_lt (by omega)
          refine ⟨by show v % 4294967296 ≤ 4294967295; omega,
            (ws0 ++ (nm ++ ',' :: ws1)) ++ (op ++ (ws2 ++ (cm ++ ws3))), tg, ws4 ++ nl, ?_,
            (token_chars tg ktg).1, hd, ?_, ?_, ?_⟩
          · rw [hs, hT]; simp
          · intro c hlast
            rw [List.getLast?_append_of_ne_nil _ (by
              intro hnil
              exact (OperatorTexts_chars op gop).1 (List.append_eq_nil.mp hnil).1)] at hlast
            have hmem := List.mem_of_getLast?_eq_some hlast
            simp only [List.mem_append] at hmem
            rcases hmem with hmem | hmem | hmem | hmem
            · exact OperatorTexts_not_digit op gop c hmem
            · exact pcre_space_not_digit c (k2 c hmem)
            · rcases kcm with kcm | kcm
              · rw [kcm] at hmem; cases hmem
              · rw [kcm] at hmem; rw [List.mem_singleton.mp hmem]; decide
            · exact pcre_space_not_digit c (k3 c hmem)
          · intro c hc2
            rcases List.mem_append.mp hc2 with hc2 | hc2
            · exact k4 c hc2
            · rcases knl with knl | knl
              · rw [knl] at hc2; cases hc2
              · rw [knl] at hc2; rw [List.mem_singleton.mp hc2]; decide
          · show v % 4294967296 = _
            rw [hmod, hvd]

/-- Witness of C30: the directive of `myvar, >= ,35`. -/
theorem c30_well_formed_witness :
    (FlowintTarget.FLOWINT_TARGET_VAL = FlowintTarget.FLOWINT_TARGET_SELF ↔
      FlowintModifier.FLOWINT_MODIFIER_GE = FlowintModifier.FLOWINT_MODIFIER_IS) ∧
    FlowintModifier.FLOWINT_MODIFIER_GE ≠ FlowintModifier.FLOWINT_MODIFIER_UNKNOWN ∧
    FlowintModifier.FLOWINT_MODIFIER_GE ∈
      [FlowintModifier.FLOWINT_MODIFIER_SET, FlowintModifier.FLOWINT_MODIFIER_ADD,
      FlowintModifier.FLOWINT_MODIFIER_SUB, FlowintModifier.FLOWINT_MODIFIER_LT,
      FlowintModifier.FLOWINT_MODIFIER_LE, FlowintModifier.FLOWINT_MODIFIER_NE,
      FlowintModifier.FLOWINT_MODIFIER_EQ, FlowintModifier.FLOWINT_MODIFIER_GE,
      FlowintModifier.FLOWINT_MODIFIER_GT, FlowintModifier.FLOWINT_MODIFIER_IS] ∧
    (FlowintTarget.FLOWINT_TARGET_VAL = FlowintTarget.FLOWINT_TARGET_VAL →
      35 ≤ 4294967295 ∧
      ∃ pre tg post, "myvar, >= ,35".toList = pre ++ (tg ++ post) ∧ tg ≠ [] ∧
        (∀ c ∈ tg, c.isDigit = true) ∧
        (∀ c, pre.getLast? = some c → c.isDigit = false) ∧
        (∀ c ∈ post, pcre_space c = true) ∧
        35 = Nat.ofDigits 10 (tg.reverse.map (fun c => c.toNat - 48))) :=
  c30_well_formed ⟨[]⟩ "myvar, >= ,35"
    ⟨"myvar", 1, FlowintModifier.FLOWINT_MODIFIER_GE, FlowintTarget.FLOWINT_TARGET_VAL,
      ⟨35, ⟨0, ""⟩⟩⟩ ⟨[(DetectType.DETECT_FLOWINT, "myvar")]⟩ (by decide)

/-! ## The chain: the other indices -/

theorem FlowVarGetLoop_write_other (idx j : Nat) (upd : FlowVar → FlowVar)
    (hupd : ∀ x : FlowVar, (upd x).type = x.type ∧ (upd x).idx = x.idx)
    (hj : j ≠ idx) (l : List GenericVar) :
    FlowVarGetLoop j (FlowVarWrite idx upd l) = FlowVarGetLoop j l := by
  induction l with
  | nil => rfl
  | cons a next ih =>
    unfold FlowVarWrite
    split
    · rename_i hc
      have h1 : ¬ (a.type = DetectType.DETECT_FLOWVAR ∧ a.idx = j) := by
        intro h; exact hj (h.2.symm.trans hc.2)
      have h2 : ¬ ((upd a).type = DetectType.DETECT_FLOWVAR ∧ (upd a).idx = j) := by
        rw [(hupd a).1, (hupd a).2]; exact h1
      unfold FlowVarGetLoop
      rw [if_neg h1, if_neg h2]
    · unfold FlowVarGetLoop
      rw [ih]

theorem FlowVarGetLoop_append_other (j : Nat) (l : List GenericVar) (gv : GenericVar)
    (hj : gv.idx ≠ j) :
    FlowVarGetLoop j (l ++ [gv]) = FlowVarGetLoop j l := by
  induction l with
  | nil =>
    simp only [List.nil_append]
    unfold FlowVarGetLoop
    rw [if_neg (fun h => hj h.2)]
    rfl
  | cons a next ih =>
    rw [List.cons_append]
    unfold FlowVarGetLoop
    rw [ih]

theorem FlowVarWrite_length (idx : Nat) (upd : FlowVar → FlowVar) (l : List GenericVar) :
    (FlowVarWrite idx upd l).length = l.length := by
  induction l with
  | nil => rfl
  | cons a next ih =>
    unfold FlowVarWrite
    split
    · rfl
    · simp [ih]

/-- A write at one store index leaves the lookup at every other store index. -/
theorem FlowVarGet_AddInt_other (f : Flow) (i j value : Nat) (hij : i % 256 ≠ j % 256) :
    FlowVarGet (FlowVarAddInt f i value) j = FlowVarGet f j := by
  unfold FlowVarAddInt
  cases FlowVarGet f (i % 256) with
  | none =>
    unfold FlowVarGet
    simp only [GenericVarAppend]
    exact FlowVarGetLoop_append_other _ _ _ hij
  | some fv =>
    unfold FlowVarGet
    simp only
    exact FlowVarGetLoop_write_other _ _ (fun x => FlowVarUpdateInt x (value % 4294967296))
      (fun x => ⟨rfl, rfl⟩) (Ne.symm hij) _

theorem FlowVarGet_AddStr_other (f : Flow) (i j value size : Nat) (hij : i % 256 ≠ j % 256) :
    FlowVarGet (FlowVarAddStr f i value size) j = FlowVarGet f j := by
  unfold FlowVarAddStr
  cases FlowVarGet f (i % 256) with
  | none =>
    unfold FlowVarGet
    simp only [GenericVarAppend]
    exact FlowVarGetLoop_append_other _ _ _ hij
  | some fv =>
    unfold FlowVarGet
    simp only
    exact FlowVarGetLoop_write_other _ _ (fun x => FlowVarUpdateStr x value (size % 65536))
      (fun x => ⟨rfl, rfl⟩) (Ne.symm hij) _

theorem FlowVarAdd_length (f : Flow) (i value size : Nat) :
    (FlowVarGet f i = none →
      (FlowVarAddInt f i value).flowvar.length = f.flowvar.length + 1 ∧
      (FlowVarAddStr f i value size).flowvar.length = f.flowvar.length + 1) ∧
    (FlowVarGet f i ≠ none →
      (FlowVarAddInt f i value).flowvar.length = f.flowvar.length ∧
      (FlowVarAddStr f i value size).flowvar.length = f.flowvar.length) := by
  have h0 : FlowVarGet f (i % 256) = FlowVarGet f i := by
    unfold FlowVarGet
    rw [Nat.mod_mod]
  unfold FlowVarAddInt FlowVarAddStr
  rw [h0]
  cases h : FlowVarGet f i with
  | none =>
    refine ⟨fun _ => ?_, fun hne => absurd rfl hne⟩
    simp [GenericVarAppend]
  | some fv =>
    refine ⟨fun hc => (by cases hc), fun _ => ?_⟩
    simp [FlowVarWrite_length]

/-! ## The claims on the store and on the directive at evaluation -/

/-- C38: a store write touches one index only. For every flow, distinct 8-bit
indices `i` and `j` and every value, `FlowVarGet(f, j)` returns the same
record after `FlowVarAddInt(f, i, v)` and after `FlowVarAddStr(f, i, b, n)` as
before; the chain grows by exactly one record when `i` was absent and keeps
its length when `i` was present. -/
theorem c38_write_one_index (f : Flow) (i j v b n : Nat)
    (hi : i < 256) (hj : j < 256) (hij : i ≠ j) :
    FlowVarGet (FlowVarAddInt f i v) j = FlowVarGet f j ∧
    FlowVarGet (FlowVarAddStr f i b n) j = FlowVarGet f j ∧
    (FlowVarGet f i = none →
      (FlowVarAddInt f i v).flowvar.length = f.flowvar.length + 1 ∧
      (FlowVarAddStr f i b n).flowvar.length = f.flowvar.length + 1) ∧
    (FlowVarGet f i ≠ none →
      (FlowVarAddInt f i v).flowvar.length = f.flowvar.length ∧
      (FlowVarAddStr f i b n).flowvar.length = f.flowvar.length) := by
  have hmod : i % 256 ≠ j % 256 := by
    rw [Nat.mod_eq_of_lt hi, Nat.mod_eq_of_lt hj]; exact hij
  refine ⟨FlowVarGet_AddInt_other f i j v hmod, FlowVarGet_AddStr_other f i j b n hmod, ?_, ?_⟩
  · intro h
    exact ⟨((FlowVarAdd_length f i v n).1 h).1, ((FlowVarAdd_length f i b n).1 h).2⟩
  · intro h
    exact ⟨((FlowVarAdd_length f i v n).2 h).1, ((FlowVarAdd_length f i b n).2 h).2⟩

/-- Witness of C38: a chain with a record at index 2; writes at index 1
(absent) and the lookup at index 2. -/
theorem c38_write_one_index_witness :
    FlowVarGet (FlowVarAddInt (FlowVarAddInt ⟨[]⟩ 2 7) 1 5) 2 =
      FlowVarGet (FlowVarAddInt ⟨[]⟩ 2 7) 2 ∧
    FlowVarGet (FlowVarAddStr (FlowVarAddInt ⟨[]⟩ 2 7) 1 9 3) 2 =
      FlowVarGet (FlowVarAddInt ⟨[]⟩ 2 7) 2 ∧
    (FlowVarGet (FlowVarAddInt ⟨[]⟩ 2 7) 1 = none →
      (FlowVarAddInt (FlowVarAddInt ⟨[]⟩ 2 7) 1 5).flowvar.length =
        (FlowVarAddInt ⟨[]⟩ 2 7).flowvar.length + 1 ∧
      (FlowVarAddStr (FlowVarAddInt ⟨[]⟩ 2 7) 1 9 3).flowvar.length =
        (FlowVarAddInt ⟨[]⟩ 2 7).flowvar.length + 1) ∧
    (FlowVarGet (FlowVarAddInt ⟨[]⟩ 2 7) 1 ≠ none →
      (FlowVarAddInt (FlowVarAddInt ⟨[]⟩ 2 7) 1 5).flowvar.length =
        (FlowVarAddInt ⟨[]⟩ 2 7).flowvar.length ∧
      (FlowVarAddStr (FlowVarAddInt ⟨[]⟩ 2 7) 1 9 3).flowvar.length =
        (FlowVarAddInt ⟨[]⟩ 2 7).flowvar.length) :=
  c38_write_one_index (FlowVarAddInt ⟨[]⟩ 2 7) 1 2 5 9 3 (by decide) (by decide) (by decide)

theorem DetectFlowintMatchOp_frame (pun : Nat → Nat → Nat) (targetval : Nat)
    (de_ctx : DetectEngineCtx) (flow : Flow) (sfd : DetectFlowintData) (r : Int)
    (st : MatchState)
    (h : DetectFlowintMatchOp pun targetval de_ctx flow sfd = .ok (r, st)) :
    st.sfd = sfd ∧ st.de_ctx = de_ctx := by
  unfold DetectFlowintMatchOp at h
  repeat' split at h
  all_goals (cases h <;> exact ⟨rfl, rfl⟩)

/-- C37: two distinct 16-bit source indices alias in the store when they agree
modulo 256. For a Set directive with a literal target whose source index
`sfd.idx` agrees with `j` modulo 256, the evaluation returns 1 and the lookup
of `j` afterwards returns the record written for `sfd.idx`, holding the
literal. -/
theorem c37_index_alias (pun : Nat → Nat → Nat) (de_ctx : DetectEngineCtx) (flow : Flow)
    (sfd : DetectFlowintData) (j : Nat)
    (_hne : sfd.idx ≠ j)
    (hset : sfd.modifier = FlowintModifier.FLOWINT_MODIFIER_SET)
    (htt : sfd.targettype = FlowintTarget.FLOWINT_TARGET_VAL)
    (halias : sfd.idx % 256 = j % 256) :
    ∃ st, DetectFlowintMatch pun de_ctx flow sfd = .ok (1, st) ∧
      ∃ fv, FlowVarGet st.flow j = some fv ∧
        fv.data = FlowVarData.fv_int (sfd.target.value % 4294967296) ∧
        FlowVarGet st.flow j = FlowVarGet st.flow sfd.idx := by
  have hj : ∀ f : Flow, FlowVarGet f j = FlowVarGet f sfd.idx := by
    intro f
    unfold FlowVarGet
    rw [halias]
  unfold DetectFlowintMatch
  rw [if_neg (by rw [htt]; decide)]
  unfold DetectFlowintMatchOp
  rw [if_pos hset]
  refine ⟨_, rfl, ?_⟩
  simp only
  rw [hj]
  cases h : FlowVarGet flow sfd.idx with
  | none =>
    rw [FlowVarGet_AddInt_of_none flow sfd.idx _ h]
    exact ⟨_, rfl, rfl, rfl⟩
  | some fv =>
    rw [FlowVarGet_AddInt_of_some flow sfd.idx _ fv h]
    exact ⟨_, rfl, rfl, rfl⟩

/-- Witness of C37: on a flow whose variable 1 holds 5, Set of the variable
with index 257 to 6 makes the lookup of index 1 return 6. -/
theorem c37_index_alias_witness :
    ∃ st, DetectFlowintMatch (fun _ _ => 0) ⟨[]⟩ (FlowVarAddInt ⟨[]⟩ 1 5)
        ⟨"maxvar", 257, FlowintModifier.FLOWINT_MODIFIER_SET,
          FlowintTarget.FLOWINT_TARGET_VAL, ⟨6, ⟨0, ""⟩⟩⟩ = .ok (1, st) ∧
      ∃ fv, FlowVarGet st.flow 1 = some fv ∧
        fv.data = FlowVarData.fv_int (6 % 4294967296) ∧
        FlowVarGet st.flow 1 = FlowVarGet st.flow 257 :=
  c37_index_alias (fun _ _ => 0) ⟨[]⟩ (FlowVarAddInt ⟨[]⟩ 1 5)
    ⟨"maxvar", 257, FlowintModifier.FLOWINT_MODIFIER_SET,
      FlowintTarget.FLOWINT_TARGET_VAL, ⟨6, ⟨0, ""⟩⟩⟩ 1 (by decide) rfl rfl (by decide)

/-! ## The claims on the second comma and on whitespace -/

/-- The text after the operator, when it is whitespace, a word and whitespace,
without a comma: the word is the target. -/
theorem TailParts_target_no_comma {w2 TARGET w4 : List Char}
    {caps0 caps : List (Nat × List Char)}
    (h2 : ∀ c ∈ w2, pcre_space c = true) (h4 : ∀ c ∈ w4, pcre_space c = true)
    (hne : TARGET ≠ []) (hw : ∀ c ∈ TARGET, pcre_word c = true)
    (h : TailParts (w2 ++ (TARGET ++ w4)) caps0 caps) :
    caps = (3, TARGET) :: caps0 := by
  obtain ⟨ws2, cm, ws3, tg, ws4, nl, e, k2, kcm, k3, k4, knl, ktg⟩ := h
  have hsp : ∀ x ∈ ws4 ++ nl, pcre_space x = true := by
    intro x hx
    rcases List.mem_append.mp hx with hx | hx
    · exact k4 x hx
    · rcases knl with knl | knl
      · rw [knl] at hx; cases hx
      · rw [knl] at hx; rw [List.mem_singleton.mp hx]; decide
  rcases kcm with kcm | kcm
  · subst kcm
    replace e : w2 ++ (TARGET ++ w4) = (ws2 ++ ws3) ++ (tg ++ (ws4 ++ nl)) := by
      rw [e]; simp
    have h23 : ∀ x ∈ ws2 ++ ws3, pcre_space x = true := by
      intro x hx
      rcases List.mem_append.mp hx with hx | hx
      · exact k2 x hx
      · exact k3 x hx
    have hT : ∀ x, (TARGET ++ w4).head? = some x → ¬ pcre_space x = true :=
      head_not_space TARGET w4 hne (fun c hc => pcre_word_not_space c (hw c hc))
    rcases ktg with ⟨ktg, _⟩ | ⟨ktg, kc⟩
    · exfalso
      subst ktg
      cases TARGET with
      | nil => exact hne rfl
      | cons a l =>
        have hmem : a ∈ w2 ++ ((a :: l) ++ w4) := by simp
        rw [e] at hmem
        have hs : pcre_space a = true := by
          simp only [List.nil_append, List.mem_append] at hmem
          rcases hmem with (hm | hm) | hm | hm
          · exact k2 a hm
          · exact k3 a hm
          · exact k4 a hm
          · exact hsp a (List.mem_append_right _ hm)
        rw [pcre_word_not_space a (hw a (List.mem_cons_self _ _))] at hs
        cases hs
    · obtain ⟨_, a2⟩ := append_split_unique (fun x => pcre_space x = true) w2 (ws2 ++ ws3)
        (TARGET ++ w4) (tg ++ (ws4 ++ nl)) h2 h23 hT
        (head_not_space tg (ws4 ++ nl) (token_chars tg ktg).1
          (fun c hc => pcre_word_not_space c ((token_chars tg ktg).2 c hc))) e
      have hstop : ∀ (l : List Char), (∀ x ∈ l, pcre_space x = true) →
          ∀ x, l.head? = some x → ¬ pcre_word x = true := by
        intro l hl x hx hwx
        cases l with
        | nil => cases hx
        | cons a l =>
          simp only [List.head?_cons, Option.some.injEq] at hx
          subst hx
          have := hl a (List.mem_cons_self _ _)
          rw [pcre_word_not_space a hwx] at this
          cases this
      obtain ⟨b1, _⟩ := append_split_unique (fun x => pcre_word x = true) TARGET tg w4
        (ws4 ++ nl) hw (token_chars tg ktg).2 (hstop w4 h4) (hstop _ hsp) a2
      rw [b1]
      exact kc
  · exfalso
    subst kcm
    have hmem : ',' ∈ w2 ++ (TARGET ++ w4) := by rw [e]; simp
    simp only [List.mem_append] at hmem
    rcases hmem with hm | hm | hm
    · exact pcre_space_ne_comma ',' (h2 _ hm) rfl
    · exact pcre_word_ne_comma ',' (hw _ hm) rfl
    · exact pcre_space_ne_comma ',' (h4 _ hm) rfl

/-- The match of a text whose target follows the operator without a comma. -/
theorem pcre_exec_words_target_no_comma (w0 NAME w1 OP w2 TARGET w4 : List Char)
    (h0 : ∀ c ∈ w0, pcre_space c = true) (hn : GrammarName NAME = true)
    (h1 : ∀ c ∈ w1, pcre_space c = true) (hop : OP ∈ OperatorTexts)
    (h2 : ∀ c ∈ w2, pcre_space c = true)
    (ht : GrammarName TARGET = true ∨ GrammarLiteral TARGET = true)
    (h4 : ∀ c ∈ w4, pcre_space c = true) :
    pcre_exec PARSE_REGEX (w0 ++ (NAME ++ ',' :: (w1 ++ (OP ++ (w2 ++ (TARGET ++ w4)))))) =
      some [(3, TARGET), (2, OP), (1, NAME)] := by
  have hT := PARSE_REGEX_TAIL_takes w2 [] [] TARGET w4 h2 (Or.inl rfl)
    (by intro c hc; cases hc) (Or.inr ht) h4
  simp only [List.nil_append] at hT
  obtain ⟨ov, hov⟩ := pcre_exec_complete w0 NAME w1 OP (w2 ++ (TARGET ++ w4)) h0 hn h1 hop hT
  have hh : (w2 ++ (TARGET ++ w4)).head? ≠ some '=' := by
    obtain ⟨hne, hw⟩ := token_chars TARGET ht
    cases w2 with
    | nil =>
      cases TARGET with
      | nil => exact absurd rfl hne
      | cons a l =>
        simp only [List.nil_append, List.cons_append, List.head?_cons, ne_eq,
          Option.some.injEq]
        exact pcre_word_ne_eq a (hw a (List.mem_cons_self _ _))
    | cons a l =>
      simp only [List.cons_append, List.head?_cons, ne_eq, Option.some.injEq]
      exact pcre_space_ne_eq a (h2 a (List.mem_cons_self _ _))
  rw [hov, TailParts_target_no_comma h2 h4 (token_chars TARGET ht).1 (token_chars TARGET ht).2
    (pcre_exec_inv_words w0 NAME w1 OP _ ov h0 hn h1 hop hh hov)]

/-- C31, as the claim states it, fails: `myvar,=35` and `myvar,+ targetvar`,
without a comma between the operator and the target, parse. -/
theorem c31_counterexample :
    DetectFlowintParse ⟨[]⟩ "myvar,=35" =
      some (⟨"myvar", 1, FlowintModifier.FLOWINT_MODIFIER_SET, FlowintTarget.FLOWINT_TARGET_VAL,
        ⟨35, ⟨0, ""⟩⟩⟩, ⟨[(DetectType.DETECT_FLOWINT, "myvar")]⟩) ∧
    DetectFlowintParse ⟨[]⟩ "myvar,+ targetvar" =
      some (⟨"myvar", 1, FlowintModifier.FLOWINT_MODIFIER_ADD, FlowintTarget.FLOWINT_TARGET_VAR,
        ⟨0, ⟨0, "targetvar"⟩⟩⟩, ⟨[(DetectType.DETECT_FLOWINT, "myvar")]⟩) := by
  decide

/-- C31, amended: the comma between OP and TARGET is optional. For every NAME,
every operator other than `isset` and every valid TARGET (a name, or a literal
of at most 10 digits with value at most 2^32 - 1), the text with OP followed
by TARGET directly or after spaces and tabs, and no comma between them, parses
as `NAME,OP,TARGET` does: it succeeds with the modifier of OP and the name
NAME. -/
theorem c31_comma_optional (de_ctx : DetectEngineCtx) (NAME tok TARGET w : String)
    (m : FlowintModifier)
    (hn : GrammarName NAME.toList = true)
    (hop : (tok, m) ∈ OperatorTokens)
    (ht : GrammarName TARGET.toList = true ∨
      (GrammarLiteral TARGET.toList = true ∧
        Nat.ofDigits 10 (TARGET.toList.reverse.map (fun c => c.toNat - 48)) ≤ 4294967295))
    (hw : ∀ c ∈ w.toList, c = ' ' ∨ c = '\t') :
    DetectFlowintParse de_ctx (NAME ++ "," ++ tok ++ w ++ TARGET) =
      DetectFlowintParse de_ctx (NAME ++ "," ++ tok ++ "," ++ TARGET) ∧
    ∃ sfd e, DetectFlowintParse de_ctx (NAME ++ "," ++ tok ++ w ++ TARGET) = some (sfd, e) ∧
      sfd.modifier = m ∧ sfd.name = NAME := by
  have ht2 : GrammarName TARGET.toList = true ∨ GrammarLiteral TARGET.toList = true := by
    rcases ht with h | h
    · exact Or.inl h
    · exact Or.inr h.1
  have hopt := OperatorTokens_text tok m hop
  have a1 : pcre_exec PARSE_REGEX (NAME ++ "," ++ tok ++ w ++ TARGET).toList =
      some [(3, TARGET.toList), (2, tok.toList), (1, NAME.toList)] := by
    have hraw : (NAME ++ "," ++ tok ++ w ++ TARGET).toList =
        [] ++ (NAME.toList ++ ',' :: ([] ++ (tok.toList ++
          (w.toList ++ (TARGET.toList ++ []))))) := by
      simp [String.toList, String.data_append]
    rw [hraw]
    exact pcre_exec_words_target_no_comma [] _ [] _ _ _ [] not_mem_nil_space hn
      not_mem_nil_space hopt (fun c hc => blank_space c (hw c hc)) ht2 not_mem_nil_space
  have a2 : pcre_exec PARSE_REGEX (NAME ++ "," ++ tok ++ "," ++ TARGET).toList =
      some [(3, TARGET.toList), (2, tok.toList), (1, NAME.toList)] := by
    have hraw : (NAME ++ "," ++ tok ++ "," ++ TARGET).toList =
        [] ++ (NAME.toList ++ ',' :: ([] ++ (tok.toList ++
          ([] ++ ',' :: ([] ++ (TARGET.toList ++ [])))))) := by
      simp [String.toList, String.data_append]
    rw [hraw]
    exact pcre_exec_words_target [] _ [] _ [] [] _ [] not_mem_nil_space hn not_mem_nil_space
      hopt not_mem_nil_space not_mem_nil_space ht2 not_mem_nil_space
  have heq : DetectFlowintParse de_ctx (NAME ++ "," ++ tok ++ w ++ TARGET) =
      DetectFlowintParse de_ctx (NAME ++ "," ++ tok ++ "," ++ TARGET) := by
    rw [DetectFlowintParse_groups3 de_ctx _ _ _ _ a1, DetectFlowintParse_groups3 de_ctx _ _ _ _ a2]
  refine ⟨heq, ?_⟩
  rw [heq]
  rcases ht with hname | ⟨hlit, hv⟩
  · rw [DetectFlowintParse_op_target de_ctx NAME TARGET tok m hn hop (Or.inl hname),
      DetectFlowintParseClassify_name _ hname]
    exact ⟨_, _, rfl, rfl, rfl⟩
  · rw [DetectFlowintParse_op_target de_ctx NAME TARGET tok m hn hop (Or.inr hlit),
      DetectFlowintParseClassify_literal _ _ hlit rfl hv]
    exact ⟨_, _, rfl, rfl, rfl⟩

/-- Witness of C31: `myvar,=35` parses as `myvar,=,35`, as Set on `myvar`. -/
theorem c31_comma_optional_witness :
    DetectFlowintParse ⟨[]⟩ "myvar,=35" = DetectFlowintParse ⟨[]⟩ "myvar,=,35" ∧
    ∃ sfd e, DetectFlowintParse ⟨[]⟩ "myvar,=35" = some (sfd, e) ∧
      sfd.modifier = FlowintModifier.FLOWINT_MODIFIER_SET ∧ sfd.name = "myvar" :=
  c31_comma_optional ⟨[]⟩ "myvar" "=" "35" "" FlowintModifier.FLOWINT_MODIFIER_SET
    (by decide) (by decide) (Or.inr ⟨by decide, by decide⟩) (by decide)

/-- C36: whitespace where the tests place it is insignificant. For every NAME,
operator text and TARGET whose text `NAME,OP,TARGET` the parser accepts, and
all texts `w0` to `w4` of whitespace, the parse of the text with `w0` at the
start, `w1` after the first comma, `w2` between OP and the second comma, `w3`
after the second comma and `w4` at the end gives the same directive: the same
modifier, name, target type and target value. -/
theorem c36_whitespace_insignificant (de_ctx : DetectEngineCtx)
    (NAME tok TARGET w0 w1 w2 w3 w4 : String) (sfd : DetectFlowintData) (e : DetectEngineCtx)
    (hn : GrammarName NAME.toList = true)
    (hop : tok.toList ∈ OperatorTexts)
    (ht : GrammarName TARGET.toList = true ∨ GrammarLiteral TARGET.toList = true)
    (h0 : ∀ c ∈ w0.toList, pcre_space c = true)
    (h1 : ∀ c ∈ w1.toList, pcre_space c = true)
    (h2 : ∀ c ∈ w2.toList, pcre_space c = true)
    (h3 : ∀ c ∈ w3.toList, pcre_space c = true)
    (h4 : ∀ c ∈ w4.toList, pcre_space c = true)
    (h : DetectFlowintParse de_ctx (NAME ++ "," ++ tok ++ "," ++ TARGET) = some (sfd, e)) :
    ∃ sfd1 e1, DetectFlowintParse de_ctx
        (w0 ++ NAME ++ "," ++ w1 ++ tok ++ w2 ++ "," ++ w3 ++ TARGET ++ w4) = some (sfd1, e1) ∧
      sfd1.modifier = sfd.modifier ∧ sfd1.name = sfd.name ∧
      sfd1.targettype = sfd.targettype ∧ sfd1.target.value = sfd.target.value ∧
      sfd1 = sfd ∧ e1 = e := by
  have a1 : pcre_exec PARSE_REGEX
      (w0 ++ NAME ++ "," ++ w1 ++ tok ++ w2 ++ "," ++ w3 ++ TARGET ++ w4).toList =
      some [(3, TARGET.toList), (2, tok.toList), (1, NAME.toList)] := by
    have hraw : (w0 ++ NAME ++ "," ++ w1 ++ tok ++ w2 ++ "," ++ w3 ++ TARGET ++ w4).toList =
        w0.toList ++ (NAME.toList ++ ',' :: (w1.toList ++ (tok.toList ++
          (w2.toList ++ ',' :: (w3.toList ++ (TARGET.toList ++ w4.toList)))))) := by
      simp [String.toList, String.data_append]
    rw [hraw]
    exact pcre_exec_words_target _ _ _ _ _ _ _ _ h0 hn h1 hop h2 h3 ht h4
  have a2 : pcre_exec PARSE_REGEX (NAME ++ "," ++ tok ++ "," ++ TARGET).toList =
      some [(3, TARGET.toList), (2, tok.toList), (1, NAME.toList)] := by
    have hraw : (NAME ++ "," ++ tok ++ "," ++ TARGET).toList =
        [] ++ (NAME.toList ++ ',' :: ([] ++ (tok.toList ++
          ([] ++ ',' :: ([] ++ (TARGET.toList ++ [])))))) := by
      simp [String.toList, String.data_append]
    rw [hraw]
    exact pcre_exec_words_target [] _ [] _ [] [] _ [] not_mem_nil_space hn not_mem_nil_space
      hop not_mem_nil_space not_mem_nil_space ht not_mem_nil_space
  have heq : DetectFlowintParse de_ctx
      (w0 ++ NAME ++ "," ++ w1 ++ tok ++ w2 ++ "," ++ w3 ++ TARGET ++ w4) =
      DetectFlowintParse de_ctx (NAME ++ "," ++ tok ++ "," ++ TARGET) := by
    rw [DetectFlowintParse_groups3 de_ctx _ _ _ _ a1, DetectFlowintParse_groups3 de_ctx _ _ _ _ a2]
  rw [heq, h]
  exact ⟨sfd, e, rfl, rfl, rfl, rfl, rfl, rfl, rfl⟩

/-- Witness of C36: `myvar, >= ,35` parses like `myvar,>=,35`. -/
theorem c36_whitespace_insignificant_witness :
    ∃ sfd1 e1, DetectFlowintParse ⟨[]⟩ "myvar, >= ,35" = some (sfd1, e1) ∧
      sfd1.modifier = FlowintModifier.FLOWINT_MODIFIER_GE ∧ sfd1.name = "myvar" ∧
      sfd1.targettype = FlowintTarget.FLOWINT_TARGET_VAL ∧ sfd1.target.value = 35 ∧
      sfd1 = ⟨"myvar", 1, FlowintModifier.FLOWINT_MODIFIER_GE,
        FlowintTarget.FLOWINT_TARGET_VAL, ⟨35, ⟨0, ""⟩⟩⟩ ∧
      e1 = ⟨[(DetectType.DETECT_FLOWINT, "myvar")]⟩ :=
  c36_whitespace_insignificant ⟨[]⟩ "myvar" ">=" "35" "" " " " " "" ""
    ⟨"myvar", 1, FlowintModifier.FLOWINT_MODIFIER_GE, FlowintTarget.FLOWINT_TARGET_VAL,
      ⟨35, ⟨0, ""⟩⟩⟩ ⟨[(DetectType.DETECT_FLOWINT, "myvar")]⟩
    (by decide) (by decide) (Or.inr (by decide)) (by decide) (by decide) (by decide)
    (by decide) (by decide) (by decide)

/-! ## The registry and the setup -/

/-- The registry gives a name the index it gave before, on every later state
of the registry, and registers nothing then. -/
theorem VariableNameGetIdx_stable (d e1 : DetectEngineCtx) (name : String) (type : DetectType)
    (more : List (DetectType × String))
    (hext : e1.variable_names = (VariableNameGetIdx d name type).2.variable_names ++ more) :
    VariableNameGetIdx e1 name type = ((VariableNameGetIdx d name type).1, e1) := by
  unfold VariableNameGetIdx at hext ⊢
  by_cases hv : VariableNameValid name = true
  · rw [if_pos hv] at hext ⊢
    rw [if_pos hv]
    cases hi : d.variable_names.indexOf? (type, name) with
    | some i =>
      rw [hi] at hext
      simp only at hext ⊢
      have : e1.variable_names.indexOf? (type, name) = some i := by
        rw [hext]
        unfold List.indexOf? at hi ⊢
        rw [List.findIdx?_append, hi]
        rfl
      rw [this]
    | none =>
      rw [hi] at hext
      simp only at hext ⊢
      have : e1.variable_names.indexOf? (type, name) = some d.variable_names.length := by
        rw [hext]
        unfold List.indexOf? at hi ⊢
        rw [List.findIdx?_append, List.findIdx?_append, hi]
        simp
      rw [this]
  · rw [if_neg hv] at hext ⊢
    rw [if_neg hv]

theorem VariableNameGetIdx_again (d : DetectEngineCtx) (name : String) (type : DetectType) :
    VariableNameGetIdx (VariableNameGetIdx d name type).2 name type =
      ((VariableNameGetIdx d name type).1, (VariableNameGetIdx d name type).2) :=
  VariableNameGetIdx_stable d _ name type [] (by simp)

/-- The source index of a parsed directive is the one the registry gives for
its name, and the registry left behind is the registry after that lookup. -/
theorem DetectFlowintParse_idx (de_ctx : DetectEngineCtx) (rawstr : String)
    (sfd : DetectFlowintData) (e : DetectEngineCtx)
    (h : DetectFlowintParse de_ctx rawstr = some (sfd, e)) :
    sfd.idx = (VariableNameGetIdx de_ctx sfd.name DetectType.DETECT_FLOWINT).1 % 65536 ∧
    e = (VariableNameGetIdx de_ctx sfd.name DetectType.DETECT_FLOWINT).2 := by
  unfold DetectFlowintParse at h
  simp only at h
  split at h
  · cases h
  · split at h
    · cases h
    · split at h
      · cases h
      · split at h
        · cases h
        · simp only [Option.some.injEq, Prod.mk.injEq] at h
          obtain ⟨hs, he⟩ := h
          subst hs
          exact ⟨rfl, he.symm⟩

/-- `DetectFlowintSetup` on a text the parser accepts: it returns 0 and appends
one option, of type `DETECT_FLOWINT`, whose data is the parsed directive. -/
theorem DetectFlowintSetup_accept (sm : SigMatch) (de_ctx : DetectEngineCtx) (s : Signature)
    (m : Option SigMatch) (rawstr : String) (sfd : DetectFlowintData) (e : DetectEngineCtx)
    (h : DetectFlowintParse de_ctx rawstr = some (sfd, e)) :
    DetectFlowintSetup (some sm) de_ctx s m rawstr =
      (0, e, ⟨s.sigmatches ++ [⟨DetectType.DETECT_FLOWINT, some sfd⟩]⟩) := by
  obtain ⟨hidx, he⟩ := DetectFlowintParse_idx de_ctx rawstr sfd e h
  unfold DetectFlowintSetup
  rw [h]
  simp only [SigMatchAppend]
  rw [he, VariableNameGetIdx_again, ← hidx]

/-- C32: the source index is a function of the name. For two texts the parser
accepts, the second on the registry as it was for the first or on a later
state of it, whose directives have the same source name NAME: the two
directives have equal `idx`, the one `VariableNameGetIdx` returns for NAME and
`DETECT_FLOWINT` (as the 16 bits of the field hold it), and
`DetectFlowintSetup` appends these directives, with this `idx`. -/
theorem c32_source_index (de_ctx ctx2 : DetectEngineCtx) (raw1 raw2 NAME : String)
    (sfd1 sfd2 : DetectFlowintData) (e1 e2 : DetectEngineCtx)
    (h1 : DetectFlowintParse de_ctx raw1 = some (sfd1, e1))
    (hctx : ctx2 = de_ctx ∨ ∃ more, ctx2.variable_names = e1.variable_names ++ more)
    (h2 : DetectFlowintParse ctx2 raw2 = some (sfd2, e2))
    (hn1 : sfd1.name = NAME) (hn2 : sfd2.name = NAME) :
    sfd1.idx = sfd2.idx ∧
    sfd1.idx = (VariableNameGetIdx de_ctx NAME DetectType.DETECT_FLOWINT).1 % 65536 ∧
    sfd2.idx = (VariableNameGetIdx ctx2 NAME DetectType.DETECT_FLOWINT).1 % 65536 ∧
    (∀ (sm : SigMatch) (s : Signature) (m : Option SigMatch),
      DetectFlowintSetup (some sm) de_ctx s m raw1 =
        (0, e1, ⟨s.sigmatches ++ [⟨DetectType.DETECT_FLOWINT, some sfd1⟩]⟩) ∧
      DetectFlowintSetup (some sm) ctx2 s m raw2 =
        (0, e2, ⟨s.sigmatches ++ [⟨DetectType.DETECT_FLOWINT, some sfd2⟩]⟩)) := by
  obtain ⟨i1, he1⟩ := DetectFlowintParse_idx de_ctx raw1 sfd1 e1 h1
  obtain ⟨i2, _⟩ := DetectFlowintParse_idx ctx2 raw2 sfd2 e2 h2
  rw [hn1] at i1 he1
  rw [hn2] at i2
  have key : (VariableNameGetIdx ctx2 NAME DetectType.DETECT_FLOWINT).1 =
      (VariableNameGetIdx de_ctx NAME DetectType.DETECT_FLOWINT).1 := by
    rcases hctx with hc | ⟨more, hc⟩
    · rw [hc]
    · rw [he1] at hc
      rw [VariableNameGetIdx_stable de_ctx ctx2 NAME _ more hc]
  refine ⟨by rw [i1, i2, key], i1, i2, ?_⟩
  intro sm s m
  exact ⟨DetectFlowintSetup_accept sm de_ctx s m raw1 sfd1 e1 h1,
    DetectFlowintSetup_accept sm ctx2 s m raw2 sfd2 e2 h2⟩

/-- Witness of C32: `myvar,=,1` and then `myvar,+,2` on the registry the first
parse left: both directives have index 1. -/
theorem c32_source_index_witness :
    (1 : Nat) = 1 ∧
    1 = (VariableNameGetIdx ⟨[]⟩ "myvar" DetectType.DETECT_FLOWINT).1 % 65536 ∧
    1 = (VariableNameGetIdx ⟨[(DetectType.DETECT_FLOWINT, "myvar")]⟩ "myvar"
      DetectType.DETECT_FLOWINT).1 % 65536 ∧
    (∀ (sm : SigMatch) (s : Signature) (m : Option SigMatch),
      DetectFlowintSetup (some sm) ⟨[]⟩ s m "myvar,=,1" =
        (0, ⟨[(DetectType.DETECT_FLOWINT, "myvar")]⟩,
          ⟨s.sigmatches ++ [⟨DetectType.DETECT_FLOWINT,
            some ⟨"myvar", 1, FlowintModifier.FLOWINT_MODIFIER_SET,
              FlowintTarget.FLOWINT_TARGET_VAL, ⟨1, ⟨0, ""⟩⟩⟩⟩]⟩) ∧
      DetectFlowintSetup (some sm) ⟨[(DetectType.DETECT_FLOWINT, "myvar")]⟩ s m "myvar,+,2" =
        (0, ⟨[(DetectType.DETECT_FLOWINT, "myvar")]⟩,
          ⟨s.sigmatches ++ [⟨DetectType.DETECT_FLOWINT,
            some ⟨"myvar", 1, FlowintModifier.FLOWINT_MODIFIER_ADD,
              FlowintTarget.FLOWINT_TARGET_VAL, ⟨2, ⟨0, ""⟩⟩⟩⟩]⟩)) :=
  c32_source_index ⟨[]⟩ ⟨[(DetectType.DETECT_FLOWINT, "myvar")]⟩ "myvar,=,1" "myvar,+,2" "myvar"
    ⟨"myvar", 1, FlowintModifier.FLOWINT_MODIFIER_SET, FlowintTarget.FLOWINT_TARGET_VAL,
      ⟨1, ⟨0, ""⟩⟩⟩
    ⟨"myvar", 1, FlowintModifier.FLOWINT_MODIFIER_ADD, FlowintTarget.FLOWINT_TARGET_VAL,
      ⟨2, ⟨0, ""⟩⟩⟩
    ⟨[(DetectType.DETECT_FLOWINT, "myvar")]⟩ ⟨[(DetectType.DETECT_FLOWINT, "myvar")]⟩
    (by decide) (Or.inr ⟨[], by decide⟩) (by decide) rfl rfl

/-- C33: a parse error rejects only that signature option. On every text for
which the parser gives nothing, `DetectFlowintSetup` returns -1 and leaves the
signature and the registry as they were; on every text the parser accepts,
with the allocation of the option succeeding, it returns 0 and the signature
has exactly one more option, at its end, of type `DETECT_FLOWINT` and with the
parsed directive as its data; when the allocation fails it returns -1 and
appends nothing. -/
theorem c33_setup (SigMatchAlloc : Option SigMatch) (de_ctx : DetectEngineCtx)
    (s : Signature) (m : Option SigMatch) (rawstr : String) :
    (DetectFlowintParse de_ctx rawstr = none →
      DetectFlowintSetup SigMatchAlloc de_ctx s m rawstr = (-1, de_ctx, s)) ∧
    (∀ sfd e sm, DetectFlowintParse de_ctx rawstr = some (sfd, e) →
      SigMatchAlloc = some sm →
      DetectFlowintSetup SigMatchAlloc de_ctx s m rawstr =
        (0, e, ⟨s.sigmatches ++ [⟨DetectType.DETECT_FLOWINT, some sfd⟩]⟩)) ∧
    (∀ sfd e, DetectFlowintParse de_ctx rawstr = some (sfd, e) →
      SigMatchAlloc = none →
      DetectFlowintSetup SigMatchAlloc de_ctx s m rawstr = (-1, e, s)) := by
  refine ⟨?_, ?_, ?_⟩
  · intro h
    unfold DetectFlowintSetup
    rw [h]
  · intro sfd e sm h ha
    rw [ha]
    exact DetectFlowintSetup_accept sm de_ctx s m rawstr sfd e h
  · intro sfd e h ha
    obtain ⟨_, he⟩ := DetectFlowintParse_idx de_ctx rawstr sfd e h
    unfold DetectFlowintSetup
    rw [h, ha]
    simp only
    rw [he, VariableNameGetIdx_again]

/-- Witness of C33: `myvar,=,9999999999` is rejected and appends nothing;
`myvar,=,35` appends one option with its directive. -/
theorem c33_setup_witness :
    DetectFlowintSetup (some ⟨DetectType.other 0, none⟩) ⟨[]⟩ ⟨[]⟩ none "myvar,=,9999999999" =
      (-1, ⟨[]⟩, ⟨[]⟩) ∧
    DetectFlowintSetup (some ⟨DetectType.other 0, none⟩) ⟨[]⟩ ⟨[]⟩ none "myvar,=,35" =
      (0, ⟨[(DetectType.DETECT_FLOWINT, "myvar")]⟩,
        ⟨[] ++ [⟨DetectType.DETECT_FLOWINT,
          some ⟨"myvar", 1, FlowintModifier.FLOWINT_MODIFIER_SET,
            FlowintTarget.FLOWINT_TARGET_VAL, ⟨35, ⟨0, ""⟩⟩⟩⟩]⟩) :=
  ⟨(c33_setup (some ⟨DetectType.other 0, none⟩) ⟨[]⟩ ⟨[]⟩ none "myvar,=,9999999999").1
      (by decide),
    (c33_setup (some ⟨DetectType.other 0, none⟩) ⟨[]⟩ ⟨[]⟩ none "myvar,=,35").2.1 _ _ _
      (by decide) rfl⟩

/-! ## The claim on the flow's lock -/

theorem DetectFlowintMatchOp_accesses_add (pun : Nat → Nat → Nat) (targetval : Nat)
    (de_ctx : DetectEngineCtx) (flow : Flow) (sfd : DetectFlowintData) (st : MatchState)
    (hm : sfd.modifier = FlowintModifier.FLOWINT_MODIFIER_ADD ∨
      sfd.modifier = FlowintModifier.FLOWINT_MODIFIER_SUB)
    (h : DetectFlowintMatchOp pun targetval de_ctx flow sfd = .ok (1, st)) :
    DetectFlowintMatchOp_accesses flow sfd =
      [FlowAccess.chain_read (sfd.idx % 256), FlowAccess.mutex_lock,
        FlowAccess.chain_read (sfd.idx % 256), FlowAccess.chain_write (sfd.idx % 256),
        FlowAccess.mutex_unlock] := by
  have hns : sfd.modifier ≠ FlowintModifier.FLOWINT_MODIFIER_SET := by
    rcases hm with hm | hm <;> rw [hm] <;> decide
  unfold DetectFlowintMatchOp at h
  unfold DetectFlowintMatchOp_accesses
  rw [if_neg hns] at h ⊢
  cases hg : FlowVarGet flow sfd.idx with
  | none =>
    rw [hg] at h
    simp only [Except.ok.injEq, Prod.mk.injEq] at h
    exact absurd h.1 (by decide)
  | some fv =>
    rw [hg] at h
    simp only at h ⊢
    by_cases hi : fv.datatype = FlowVarType.FLOWVAR_TYPE_INT
    · rw [if_pos hi]
      have hadd : (if sfd.modifier = FlowintModifier.FLOWINT_MODIFIER_ADD then
            FlowVarAddInt_accesses sfd.idx
          else if sfd.modifier = FlowintModifier.FLOWINT_MODIFIER_SUB then
            FlowVarAddInt_accesses sfd.idx
          else []) = FlowVarAddInt_accesses sfd.idx := by
        rcases hm with hm | hm
        · rw [if_pos hm]
        · rw [hm]; rfl
      rw [hadd]
      simp [FlowVarGet_accesses, FlowVarAddInt_accesses]
    · rw [if_neg hi] at h
      simp only [Except.ok.injEq, Prod.mk.injEq] at h
      exact absurd h.1 (by decide)

theorem LockDiscipline_read_then_lock (held : Bool) (pre : List FlowAccess) (i : Nat)
    (rest : List FlowAccess) (hpre : pre = [] ∨ ∃ t, pre = [FlowAccess.chain_read t]) :
    LockDiscipline held (pre ++ FlowAccess.chain_read i :: FlowAccess.mutex_lock :: rest) =
      false := by
  rcases hpre with hpre | ⟨t, hpre⟩ <;> subst hpre <;> cases held <;> simp [LockDiscipline]

/-- C35: the lock does not bracket the read-modify-write of Add and Subtract.
For every Add or Subtract directive whose evaluation returns 1, what
`DetectFlowintMatch` does to the flow is: the lookup of the target, for a
variable target, and the lookup of the source, both with no call on the
mutex, and then `FlowVarAddInt`, which locks, looks the record up again,
writes and unlocks. The lock discipline fails on this run, whether the mutex
is held at the start or not: with the mutex free the lookups are made
unlocked, with the mutex held `FlowVarAddInt` locks a held mutex. -/
theorem c35_lock_not_bracketing (pun : Nat → Nat → Nat) (de_ctx : DetectEngineCtx)
    (flow : Flow) (sfd : DetectFlowintData) (st : MatchState)
    (hm : sfd.modifier = FlowintModifier.FLOWINT_MODIFIER_ADD ∨
      sfd.modifier = FlowintModifier.FLOWINT_MODIFIER_SUB)
    (h : DetectFlowintMatch pun de_ctx flow sfd = .ok (1, st)) :
    (∃ pre, (pre = [] ∨ ∃ t, pre = [FlowAccess.chain_read t]) ∧
      DetectFlowintMatch_accesses de_ctx flow sfd =
        pre ++ [FlowAccess.chain_read (sfd.idx % 256), FlowAccess.mutex_lock,
          FlowAccess.chain_read (sfd.idx % 256), FlowAccess.chain_write (sfd.idx % 256),
          FlowAccess.mutex_unlock]) ∧
    ∀ held, LockDiscipline held (DetectFlowintMatch_accesses de_ctx flow sfd) = false := by
  have main : ∃ pre, (pre = [] ∨ ∃ t, pre = [FlowAccess.chain_read t]) ∧
      DetectFlowintMatch_accesses de_ctx flow sfd =
        pre ++ [FlowAccess.chain_read (sfd.idx % 256), FlowAccess.mutex_lock,
          FlowAccess.chain_read (sfd.idx % 256), FlowAccess.chain_write (sfd.idx % 256),
          FlowAccess.mutex_unlock] := by
    unfold DetectFlowintMatch at h
    unfold DetectFlowintMatch_accesses
    by_cases hv : sfd.targettype = FlowintTarget.FLOWINT_TARGET_VAR
    · rw [if_pos hv] at h ⊢
      simp only at h ⊢
      cases hg : FlowVarGet flow
          ((VariableNameGetIdx de_ctx sfd.target.tvar.name DetectType.DETECT_FLOWINT).1
            % 65536) with
      | none =>
        rw [hg] at h
        simp only [Except.ok.injEq, Prod.mk.injEq] at h
        exact absurd h.1 (by decide)
      | some fvt =>
        rw [hg] at h
        simp only at h ⊢
        have := DetectFlowintMatchOp_accesses_add pun _ _ flow
          { sfd with target := { sfd.target with tvar := { sfd.target.tvar with
            idx := (VariableNameGetIdx de_ctx sfd.target.tvar.name
              DetectType.DETECT_FLOWINT).1 % 65536 } } } st hm h
        refine ⟨FlowVarGet_accesses ((VariableNameGetIdx de_ctx sfd.target.tvar.name
          DetectType.DETECT_FLOWINT).1 % 65536), Or.inr ⟨_, rfl⟩, ?_⟩
        exact congrArg (fun l => FlowVarGet_accesses ((VariableNameGetIdx de_ctx
          sfd.target.tvar.name DetectType.DETECT_FLOWINT).1 % 65536) ++ l) this
    · rw [if_neg hv] at h ⊢
      exact ⟨[], Or.inl rfl, DetectFlowintMatchOp_accesses_add pun _ _ flow _ st hm h⟩
  refine ⟨main, ?_⟩
  intro held
  obtain ⟨pre, hpre, hacc⟩ := main
  rw [hacc]
  exact LockDiscipline_read_then_lock held pre _ _ hpre

/-- Witness of C35: `myvar,+,2` on a flow where `myvar` holds 1. -/
theorem c35_lock_not_bracketing_witness :
    (∃ pre, (pre = [] ∨ ∃ t, pre = [FlowAccess.chain_read t]) ∧
      DetectFlowintMatch_accesses ⟨[(DetectType.DETECT_FLOWINT, "myvar")]⟩
          (FlowVarAddInt ⟨[]⟩ 1 1)
          ⟨"myvar", 1, FlowintModifier.FLOWINT_MODIFIER_ADD, FlowintTarget.FLOWINT_TARGET_VAL,
            ⟨2, ⟨0, ""⟩⟩⟩ =
        pre ++ [FlowAccess.chain_read (1 % 256), FlowAccess.mutex_lock,
          FlowAccess.chain_read (1 % 256), FlowAccess.chain_write (1 % 256),
          FlowAccess.mutex_unlock]) ∧
    ∀ held, LockDiscipline held
      (DetectFlowintMatch_accesses ⟨[(DetectType.DETECT_FLOWINT, "myvar")]⟩
        (FlowVarAddInt ⟨[]⟩ 1 1)
        ⟨"myvar", 1, FlowintModifier.FLOWINT_MODIFIER_ADD, FlowintTarget.FLOWINT_TARGET_VAL,
          ⟨2, ⟨0, ""⟩⟩⟩) = false :=
  c35_lock_not_bracketing (fun _ _ => 0) ⟨[(DetectType.DETECT_FLOWINT, "myvar")]⟩
    (FlowVarAddInt ⟨[]⟩ 1 1)
    ⟨"myvar", 1, FlowintModifier.FLOWINT_MODIFIER_ADD, FlowintTarget.FLOWINT_TARGET_VAL,
      ⟨2, ⟨0, ""⟩⟩⟩
    ⟨⟨[(DetectType.DETECT_FLOWINT, "myvar")]⟩, FlowVarAddInt (FlowVarAddInt ⟨[]⟩ 1 1) 1 3,
      ⟨"myvar", 1, FlowintModifier.FLOWINT_MODIFIER_ADD, FlowintTarget.FLOWINT_TARGET_VAL,
        ⟨2, ⟨0, ""⟩⟩⟩⟩
    (Or.inl rfl) rfl

/-! ## The claims on absent records: the index the store looks up -/

/-- C9: a missing target variable does not abort the evaluation when its
index, narrowed to `uint8_t`, is the index of another record. For a Set
directive with a variable-name target whose registry index `t` has no record
in the flow, while `FlowVarGet`, given `t`, finds the record `fvt` of index
`t % 256`: `DetectFlowintMatch` returns 1, not 0, and writes the value of
`fvt` to the source variable. -/
theorem c9_target_index_alias (pun : Nat → Nat → Nat) (de_ctx : DetectEngineCtx)
    (flow : Flow) (sfd : DetectFlowintData) (t : Nat) (fvt : FlowVar)
    (hvar : sfd.targettype = FlowintTarget.FLOWINT_TARGET_VAR)
    (hset : sfd.modifier = FlowintModifier.FLOWINT_MODIFIER_SET)
    (ht : (VariableNameGetIdx de_ctx sfd.target.tvar.name DetectType.DETECT_FLOWINT).1
      % 65536 = t)
    (_hnone : ∀ gv ∈ flow.flowvar, gv.idx ≠ t)
    (halias : FlowVarGet flow t = some fvt) :
    ∃ st, DetectFlowintMatch pun de_ctx flow sfd = .ok (1, st) ∧
      st.flow = FlowVarAddInt flow sfd.idx (fvt.data.fv_int_value pun) ∧
      ∃ fv, FlowVarGet st.flow sfd.idx = some fv ∧
        fv.data = FlowVarData.fv_int (fvt.data.fv_int_value pun % 4294967296) := by
  unfold DetectFlowintMatch
  rw [if_pos hvar]
  simp only
  rw [ht, halias]
  simp only
  rw [DetectFlowintMatchOp_set pun _ _ flow
    ⟨sfd.name, sfd.idx, sfd.modifier, sfd.targettype,
      ⟨sfd.target.value, ⟨t, sfd.target.tvar.name⟩⟩⟩ hset]
  refine ⟨_, rfl, rfl, ?_⟩
  simp only
  cases h : FlowVarGet flow sfd.idx with
  | none =>
    rw [FlowVarGet_AddInt_of_none flow sfd.idx _ h]
    exact ⟨_, rfl, rfl⟩
  | some fv =>
    rw [FlowVarGet_AddInt_of_some flow sfd.idx _ fv h]
    exact ⟨_, rfl, rfl⟩

set_option maxRecDepth 100000 in
/-- Witness of C9: `cntpackets,=,maxvar` with `maxvar` at the registry index
257 and a flow whose only record is that of `myvar`, index 1, value 3: no
record exists at index 257, and the evaluation returns 1 and sets
`cntpackets`, index 2, to 3. -/
theorem c9_target_index_alias_witness :
    ∃ st, DetectFlowintMatch (fun _ _ => 0)
        ⟨(DetectType.DETECT_FLOWINT, "myvar") :: (DetectType.DETECT_FLOWINT, "cntpackets") ::
          ((List.range 254).map (fun i => (DetectType.other i, "pad")) ++
            [(DetectType.DETECT_FLOWINT, "maxvar")])⟩
        ⟨[⟨DetectType.DETECT_FLOWVAR, 1, FlowVarType.FLOWVAR_TYPE_INT, FlowVarData.fv_int 3⟩]⟩
        ⟨"cntpackets", 2, FlowintModifier.FLOWINT_MODIFIER_SET,
          FlowintTarget.FLOWINT_TARGET_VAR, ⟨0, ⟨0, "maxvar"⟩⟩⟩ = .ok (1, st) ∧
      st.flow = FlowVarAddInt
        ⟨[⟨DetectType.DETECT_FLOWVAR, 1, FlowVarType.FLOWVAR_TYPE_INT, FlowVarData.fv_int 3⟩]⟩
        2 3 ∧
      ∃ fv, FlowVarGet st.flow 2 = some fv ∧ fv.data = FlowVarData.fv_int (3 % 4294967296) :=
  c9_target_index_alias (fun _ _ => 0)
    ⟨(DetectType.DETECT_FLOWINT, "myvar") :: (DetectType.DETECT_FLOWINT, "cntpackets") ::
      ((List.range 254).map (fun i => (DetectType.other i, "pad")) ++
        [(DetectType.DETECT_FLOWINT, "maxvar")])⟩
    ⟨[⟨DetectType.DETECT_FLOWVAR, 1, FlowVarType.FLOWVAR_TYPE_INT, FlowVarData.fv_int 3⟩]⟩
    ⟨"cntpackets", 2, FlowintModifier.FLOWINT_MODIFIER_SET, FlowintTarget.FLOWINT_TARGET_VAR,
      ⟨0, ⟨0, "maxvar"⟩⟩⟩
    257 ⟨DetectType.DETECT_FLOWVAR, 1, FlowVarType.FLOWVAR_TYPE_INT, FlowVarData.fv_int 3⟩
    rfl rfl rfl (by decide) (by decide)

/-- C10: a missing source does not give NO-MATCH when its index, narrowed to
`uint8_t`, is the index of another record. For an Add directive with a target
that is no variable, whose source index has no record in the flow, while
`FlowVarGet`, given that index, finds the Integer-kind record `fv` of the
index modulo 256: `DetectFlowintMatch` returns 1, not 0, and rewrites that
other record with its value plus the target value. -/
theorem c10_source_index_alias (pun : Nat → Nat → Nat) (de_ctx : DetectEngineCtx)
    (flow : Flow) (sfd : DetectFlowintData) (fv : FlowVar)
    (hval : sfd.targettype ≠ FlowintTarget.FLOWINT_TARGET_VAR)
    (hadd : sfd.modifier = FlowintModifier.FLOWINT_MODIFIER_ADD)
    (_hnone : ∀ gv ∈ flow.flowvar, gv.idx ≠ sfd.idx)
    (halias : FlowVarGet flow sfd.idx = some fv)
    (hint : fv.datatype = FlowVarType.FLOWVAR_TYPE_INT) :
    ∃ st, DetectFlowintMatch pun de_ctx flow sfd = .ok (1, st) ∧
      st.flow = FlowVarAddInt flow sfd.idx
        (uint32_add (fv.data.fv_int_value pun) sfd.target.value) ∧
      FlowVarGet st.flow (sfd.idx % 256) =
        some ⟨fv.type, fv.idx, fv.datatype, FlowVarData.fv_int
          (uint32_add (fv.data.fv_int_value pun) sfd.target.value % 4294967296)⟩ := by
  rw [DetectFlowintMatch_of_not_var pun de_ctx flow sfd hval,
    DetectFlowintMatchOp_add pun _ de_ctx flow sfd fv hadd halias hint]
  refine ⟨_, rfl, rfl, ?_⟩
  simp only
  have h256 : ∀ f : Flow, FlowVarGet f (sfd.idx % 256) = FlowVarGet f sfd.idx := by
    intro f
    unfold FlowVarGet
    rw [Nat.mod_mod]
  rw [h256, FlowVarGet_AddInt_of_some flow sfd.idx _ fv halias]

/-- Witness of C10: Add of 2 on the source index 257, on a flow whose only
record is variable 1 with value 5: the evaluation returns 1 and variable 1
holds 7. -/
theorem c10_source_index_alias_witness :
    ∃ st, DetectFlowintMatch (fun _ _ => 0) ⟨[]⟩
        ⟨[⟨DetectType.DETECT_FLOWVAR, 1, FlowVarType.FLOWVAR_TYPE_INT, FlowVarData.fv_int 5⟩]⟩
        ⟨"maxvar", 257, FlowintModifier.FLOWINT_MODIFIER_ADD,
          FlowintTarget.FLOWINT_TARGET_VAL, ⟨2, ⟨0, ""⟩⟩⟩ = .ok (1, st) ∧
      st.flow = FlowVarAddInt
        ⟨[⟨DetectType.DETECT_FLOWVAR, 1, FlowVarType.FLOWVAR_TYPE_INT, FlowVarData.fv_int 5⟩]⟩
        257 (uint32_add 5 2) ∧
      FlowVarGet st.flow (257 % 256) =
        some ⟨DetectType.DETECT_FLOWVAR, 1, FlowVarType.FLOWVAR_TYPE_INT,
          FlowVarData.fv_int (uint32_add 5 2 % 4294967296)⟩ :=
  c10_source_index_alias (fun _ _ => 0) ⟨[]⟩
    ⟨[⟨DetectType.DETECT_FLOWVAR, 1, FlowVarType.FLOWVAR_TYPE_INT, FlowVarData.fv_int 5⟩]⟩
    ⟨"maxvar", 257, FlowintModifier.FLOWINT_MODIFIER_ADD, FlowintTarget.FLOWINT_TARGET_VAL,
      ⟨2, ⟨0, ""⟩⟩⟩
    ⟨DetectType.DETECT_FLOWVAR, 1, FlowVarType.FLOWVAR_TYPE_INT, FlowVarData.fv_int 5⟩
    (by decide) rfl (by decide) (by decide) rfl

/-! ## The claim on a malformed target -/

/-- No match when the text after the second comma is, after whitespace, a text
that starts with a digit, holds a character that is no digit and does not end
in whitespace, whatever follows it. -/
theorem pcre_exec_digit_target_none (NAME tok w3 target w4 rest : List Char) (d : Char)
    (hn : GrammarName NAME = true) (hop : tok ∈ OperatorTexts)
    (h3 : ∀ c ∈ w3, pcre_space c = true)
    (ht : target = d :: rest) (hd : d.isDigit = true)
    (hbad : ∃ c ∈ target, c.isDigit = false)
    (hend : ∀ c, target.getLast? = some c → pcre_space c = false) :
    pcre_exec PARSE_REGEX (NAME ++ ',' :: (tok ++ ',' :: (w3 ++ (target ++ w4)))) = none := by
  cases hex : pcre_exec PARSE_REGEX
      (NAME ++ ',' :: (tok ++ ',' :: (w3 ++ (target ++ w4)))) with
  | none => rfl
  | some ov =>
    exfalso
    have hex2 : pcre_exec PARSE_REGEX
        ([] ++ (NAME ++ ',' :: ([] ++ (tok ++ ',' :: (w3 ++ (target ++ w4)))))) = some ov := hex
    have hT := pcre_exec_inv_words [] NAME [] tok (',' :: (w3 ++ (target ++ w4))) ov
      not_mem_nil_space hn not_mem_nil_space hop (by simp) hex2
    obtain ⟨ws3, tg, ws4, nl, e, k3, k4, knl, ktg⟩ :=
      @TailParts_after_comma [] (w3 ++ (target ++ w4)) _ _ not_mem_nil_space hT
    have hds := char_digit_not_space d hd
    have hsp : ∀ y ∈ ws4 ++ nl, pcre_space y = true := by
      intro y hy
      rcases List.mem_append.mp hy with hy | hy
      · exact k4 y hy
      · rcases knl with knl | knl
        · rw [knl] at hy; cases hy
        · rw [knl] at hy; rw [List.mem_singleton.mp hy]; decide
    obtain ⟨x, hx, hxd⟩ := hbad
    rcases ktg with ⟨ktg, _⟩ | ⟨ktg, _⟩
    · -- no target: the whole text is whitespace, the digit is not
      subst ktg
      have hmem : d ∈ w3 ++ (target ++ w4) := by rw [ht]; simp
      rw [e] at hmem
      have hs : pcre_space d = true := by
        rcases List.mem_append.mp hmem with hm | hm
        · exact k3 d hm
        · exact hsp d (by simpa using hm)
      rw [hds] at hs
      cases hs
    · 
      have hhead : ∀ y, (target ++ w4).head? = some y → ¬ pcre_space y = true := by
        intro y hy
        rw [ht] at hy
        simp only [List.cons_append, List.head?_cons, Option.some.injEq] at hy
        rw [← hy, hds]
        exact Bool.false_ne_true
      obtain ⟨_, a2⟩ := append_split_unique (fun y => pcre_space y = true) w3 ws3
        (target ++ w4) (tg ++ (ws4 ++ nl)) h3 k3 hhead
        (head_not_space tg (ws4 ++ nl) (token_chars tg ktg).1
          (fun c hc => pcre_word_not_space c ((token_chars tg ktg).2 c hc))) e
      -- the target the pattern takes starts with the digit, so it is a literal
      have htgd : ∀ y ∈ tg, y.isDigit = true := by
        rcases ktg with ktg | ktg
        · exfalso
          obtain ⟨c, cs, hc, hal, _, _⟩ := GrammarName_spec tg ktg
          rw [hc, ht] at a2
          simp only [List.cons_append, List.cons.injEq] at a2
          rw [← a2.1, char_digit_not_alpha d hd] at hal
          cases hal
        · exact (GrammarLiteral_spec tg ktg).2.2
      rcases List.append_eq_append_iff.mp a2 with ⟨a1, h1, _⟩ | ⟨c1, h1, h2⟩
      · -- the text is a start of the literal: all digits
        have : x ∈ tg := by rw [h1]; exact List.mem_append_left _ hx
        rw [htgd x this] at hxd
        cases hxd
      · -- the text is the literal and whitespace after it
        cases hc1 : c1 with
        | nil =>
          rw [hc1, List.append_nil] at h1
          rw [h1] at hx
          rw [htgd x hx] at hxd
          cases hxd
        | cons a l =>
          have hne : c1 ≠ [] := by rw [hc1]; exact List.cons_ne_nil _ _
          obtain ⟨z, hz⟩ : ∃ z, c1.getLast? = some z := by
            rw [hc1]
            exact ⟨(a :: l).getLast (List.cons_ne_nil _ _), List.getLast?_eq_getLast _ _⟩
          have hlast : target.getLast? = some z := by
            rw [h1, List.getLast?_append_of_ne_nil _ hne]
            exact hz
          have hzmem : z ∈ ws4 ++ nl := by
            rw [h2]
            exact List.mem_append_left _ (List.mem_of_getLast?_eq_some hz)
          have := hend z hlast
          rw [hsp z hzmem] at this
          cases this

/-- C25: a malformed target is rejected, never partially read. For every NAME,
every operator text and every target text that begins with a decimal digit
and holds a character that is no decimal digit, the parse of `NAME,OP,target`
gives nothing; the target text is the text after the second comma without the
whitespace around it (it does not end in whitespace), and it is rejected with
whitespace `w3` before it and any text `w4` after it too. -/
theorem c25_malformed_target (de_ctx : DetectEngineCtx) (NAME tok target w3 w4 : String)
    (d : Char) (rest : List Char)
    (hn : GrammarName NAME.toList = true)
    (hop : tok.toList ∈ OperatorTexts)
    (ht : target.toList = d :: rest)
    (hd : d.isDigit = true)
    (hbad : ∃ c ∈ target.toList, c.isDigit = false)
    (hend : ∀ c, target.toList.getLast? = some c → pcre_space c = false)
    (h3 : ∀ c ∈ w3.toList, pcre_space c = true) :
    DetectFlowintParse de_ctx (NAME ++ "," ++ tok ++ "," ++ target) = none ∧
    DetectFlowintParse de_ctx (NAME ++ "," ++ tok ++ "," ++ w3 ++ target ++ w4) = none := by
  constructor
  · apply DetectFlowintParse_of_no_match
    have hraw : (NAME ++ "," ++ tok ++ "," ++ target).toList =
        NAME.toList ++ ',' :: (tok.toList ++ ',' :: ([] ++ (target.toList ++ []))) := by
      simp [String.toList, String.data_append]
    rw [hraw]
    exact pcre_exec_digit_target_none _ _ [] _ [] rest d hn hop not_mem_nil_space
      ht hd hbad hend
  · apply DetectFlowintParse_of_no_match
    have hraw : (NAME ++ "," ++ tok ++ "," ++ w3 ++ target ++ w4).toList =
        NAME.toList ++ ',' :: (tok.toList ++ ',' :: (w3.toList ++ (target.toList ++ w4.toList)))
        := by
      simp [String.toList, String.data_append]
    rw [hraw]
    exact pcre_exec_digit_target_none _ _ _ _ _ rest d hn hop h3 ht hd hbad hend

/-- Witness of C25: `myvar,=,45targetvar`, also after whitespace and before
it, and `myvar,=,45 6`. -/
theorem c25_malformed_target_witness :
    (DetectFlowintParse ⟨[]⟩ "myvar,=,45targetvar" = none ∧
      DetectFlowintParse ⟨[]⟩ "myvar,=, 45targetvar " = none) ∧
    (DetectFlowintParse ⟨[]⟩ "myvar,=,45 6" = none ∧
      DetectFlowintParse ⟨[]⟩ "myvar,=,45 6" = none) :=
  ⟨c25_malformed_target ⟨[]⟩ "myvar" "=" "45targetvar" " " " " '4' "5targetvar".toList
    (by decide) (by decide) (by decide) (by decide) ⟨'t', by decide, by decide⟩ (by decide)
    (by decide),
   c25_malformed_target ⟨[]⟩ "myvar" "=" "45 6" "" "" '4' "5 6".toList
    (by decide) (by decide) (by decide) (by decide) ⟨' ', by decide, by decide⟩ (by decide)
    (by decide)⟩
/-! ## The claim on the directive at evaluation -/

/-- C34, as the claim states it, fails: the evaluation of the directive of
`myvar,+,targetvar` writes the index of `targetvar`, 2, into the slot
`target.tvar.idx` of the directive, which held 0. -/
theorem c34_counterexample :
    ∃ st, DetectFlowintMatch (fun _ _ => 0) ⟨[(DetectType.DETECT_FLOWINT, "myvar")]⟩ ⟨[]⟩
        ⟨"myvar", 1, FlowintModifier.FLOWINT_MODIFIER_ADD, FlowintTarget.FLOWINT_TARGET_VAR,
          ⟨0, ⟨0, "targetvar"⟩⟩⟩ = .ok (0, st) ∧
      st.sfd.target.tvar.idx = 2 ∧
      (⟨"myvar", 1, FlowintModifier.FLOWINT_MODIFIER_ADD, FlowintTarget.FLOWINT_TARGET_VAR,
        ⟨0, ⟨0, "targetvar"⟩⟩⟩ : DetectFlowintData).target.tvar.idx = 0 :=
  ⟨_, rfl, rfl, rfl⟩

/-- C34, amended: the evaluation leaves the directive as it was when the
target is a literal or none, and for a variable-name target it writes into
the union `target`, at `target.tvar.idx`. For every directive and flow on
which `DetectFlowintMatch` returns: the name, the source index, the modifier,
the target type and the target name are as before; a directive whose target
is no variable name is unchanged in every field, and so is the registry; for
a variable-name target `target.tvar.idx` holds the index `VariableNameGetIdx`
gives for the target name (of `target.value`, which shares its bytes, nothing
is stated). -/
theorem c34_directive_frame (pun : Nat → Nat → Nat) (de_ctx : DetectEngineCtx) (flow : Flow)
    (sfd : DetectFlowintData) (r : Int) (st : MatchState)
    (h : DetectFlowintMatch pun de_ctx flow sfd = .ok (r, st)) :
    st.sfd.name = sfd.name ∧ st.sfd.idx = sfd.idx ∧ st.sfd.modifier = sfd.modifier ∧
    st.sfd.targettype = sfd.targettype ∧
    st.sfd.target.tvar.name = sfd.target.tvar.name ∧
    (sfd.targettype ≠ FlowintTarget.FLOWINT_TARGET_VAR →
      st.sfd = sfd ∧ st.de_ctx = de_ctx) ∧
    (sfd.targettype = FlowintTarget.FLOWINT_TARGET_VAR →
      st.sfd.target.tvar.idx =
        (VariableNameGetIdx de_ctx sfd.target.tvar.name DetectType.DETECT_FLOWINT).1 % 65536) := by
  unfold DetectFlowintMatch at h
  by_cases hv : sfd.targettype = FlowintTarget.FLOWINT_TARGET_VAR
  · rw [if_pos hv] at h
    simp only at h
    have key : st.sfd = { sfd with target := { sfd.target with tvar := { sfd.target.tvar with
        idx := (VariableNameGetIdx de_ctx sfd.target.tvar.name
          DetectType.DETECT_FLOWINT).1 % 65536 } } } := by
      split at h
      · simp only [Except.ok.injEq, Prod.mk.injEq] at h
        rw [← h.2]
      · exact (DetectFlowintMatchOp_frame _ _ _ _ _ _ _ h).1
    rw [key]
    exact ⟨rfl, rfl, rfl, rfl, rfl, fun hc => absurd hv hc, fun _ => rfl⟩
  · rw [if_neg hv] at h
    obtain ⟨h1, h2⟩ := DetectFlowintMatchOp_frame _ _ _ _ _ _ _ h
    rw [h1]
    exact ⟨rfl, rfl, rfl, rfl, rfl, fun _ => ⟨rfl, h2⟩, fun hc => absurd hc hv⟩

/-- Witness of C34: the directive of `myvar,+,targetvar` on a flow where
`myvar` holds 1 and `targetvar` holds 2, whose evaluation returns 1 and leaves
the index 2 of `targetvar` in the target's index slot; and the directive of
`myvar,=,35` on an empty flow, which is left as it was, with the registry. -/
theorem c34_directive_frame_witness :
    (2 : Nat) =
      (VariableNameGetIdx
        ⟨[(DetectType.DETECT_FLOWINT, "myvar"), (DetectType.DETECT_FLOWINT, "targetvar")]⟩
        "targetvar" DetectType.DETECT_FLOWINT).1 % 65536 ∧
    ((⟨"myvar", 1, FlowintModifier.FLOWINT_MODIFIER_SET, FlowintTarget.FLOWINT_TARGET_VAL,
        ⟨35, ⟨0, ""⟩⟩⟩ : DetectFlowintData) =
      ⟨"myvar", 1, FlowintModifier.FLOWINT_MODIFIER_SET, FlowintTarget.FLOWINT_TARGET_VAL,
        ⟨35, ⟨0, ""⟩⟩⟩ ∧
    (⟨[(DetectType.DETECT_FLOWINT, "myvar")]⟩ : DetectEngineCtx) =
      ⟨[(DetectType.DETECT_FLOWINT, "myvar")]⟩) :=
  ⟨(c34_directive_frame (fun _ _ => 0)
      ⟨[(DetectType.DETECT_FLOWINT, "myvar"), (DetectType.DETECT_FLOWINT, "targetvar")]⟩
      (FlowVarAddInt (FlowVarAddInt ⟨[]⟩ 1 1) 2 2)
      ⟨"myvar", 1, FlowintModifier.FLOWINT_MODIFIER_ADD, FlowintTarget.FLOWINT_TARGET_VAR,
        ⟨0, ⟨0, "targetvar"⟩⟩⟩ 1
      ⟨⟨[(DetectType.DETECT_FLOWINT, "myvar"), (DetectType.DETECT_FLOWINT, "targetvar")]⟩,
        FlowVarAddInt (FlowVarAddInt (FlowVarAddInt ⟨[]⟩ 1 1) 2 2) 1 3,
        ⟨"myvar", 1, FlowintModifier.FLOWINT_MODIFIER_ADD, FlowintTarget.FLOWINT_TARGET_VAR,
          ⟨0, ⟨2, "targetvar"⟩⟩⟩⟩ rfl).2.2.2.2.2.2 rfl,
   (c34_directive_frame (fun _ _ => 0) ⟨[(DetectType.DETECT_FLOWINT, "myvar")]⟩ ⟨[]⟩
      ⟨"myvar", 1, FlowintModifier.FLOWINT_MODIFIER_SET, FlowintTarget.FLOWINT_TARGET_VAL,
        ⟨35, ⟨0, ""⟩⟩⟩ 1
      ⟨⟨[(DetectType.DETECT_FLOWINT, "myvar")]⟩, FlowVarAddInt ⟨[]⟩ 1 35,
        ⟨"myvar", 1, FlowintModifier.FLOWINT_MODIFIER_SET, FlowintTarget.FLOWINT_TARGET_VAL,
          ⟨35, ⟨0, ""⟩⟩⟩⟩ rfl).2.2.2.2.2.1 (by decide)⟩

end Suricata
